import Mathlib

/-!
RUFS: a shallow embedding of `rufs.c`.

The C program keeps its whole state in a disk file of fixed-size blocks and in a
handful of global layout variables.  The embedding below follows the source
function by function:

* memory objects (the scratch buffer `buff_mem`, an `inode_t`, a `dirent_t`, a
  caller's buffer) are byte images `Mem = Nat → Nat`, addressed from the start of
  the object;
* the disk is a map from block numbers to byte images, where a missing block
  stands for a transfer that fails;
* every C function becomes a Lean function that takes the disk and returns its
  C return value together with the disk it leaves behind.
-/

namespace Rufs

/-! ## Constants of the headers -/

/-- Modelled from the spec: `block.h` is not among the sources; the spec (section 3)
gives the block size of the reference as `B = 4096`. -/
def BLOCK_SIZE : Nat := 4096

/-- Modelled from the spec: `rufs.h` is not among the sources; the spec (section 3)
gives `D = 16` direct pointers per inode, and `rufs.c` loops `i < 16` over them. -/
def NUM_DIRECT_PTRS : Nat := 16

/-- Modelled from the spec: `rufs.h` is not among the sources; the spec (section 3)
gives the file-name capacity `NAME_MAX_LEN = 208`. -/
def NAME_MAX_LEN : Nat := 208

/-- Modelled from the spec: `rufs.h` is not among the sources; `sizeof(dirent_t)`,
which is `ino`, `valid` (two bytes each), `name` (208 bytes) and `len` (two
bytes); `dir_find` in `rufs.c` quotes the value as `4096 / 214`. -/
def SIZEOF_DIRENT : Nat := 214

/-- Modelled from the spec: `rufs.h` is not among the sources; `sizeof(inode_t)`;
`rufs_mkfs` in `rufs.c` notes that 16 inodes fit in one 4096-byte block. -/
def SIZEOF_INODE : Nat := 256

/-- The macro `MAX_DIRENTS_IN_BLOCK` of `rufs.c`. -/
def MAX_DIRENTS_IN_BLOCK : Nat := BLOCK_SIZE / SIZEOF_DIRENT

/-- The macro `MAX_DIRENTS` of `rufs.c`. -/
def MAX_DIRENTS : Nat := (BLOCK_SIZE / SIZEOF_DIRENT) * NUM_DIRECT_PTRS

/-- The macros `EXIT_SUCCESS` and `EXIT_FAILURE` of `stdlib.h`. -/
def EXIT_SUCCESS : Int := 0

/-- See `EXIT_SUCCESS`. -/
def EXIT_FAILURE : Int := 1

/-! ## Bytes and machine integers -/

/-- A memory object as the sequence of its bytes, addressed from its start. -/
abbrev Mem := Nat → Nat

/-- The byte stored at offset `o`. -/
def byte (m : Mem) (o : Nat) : Nat := m o % 256

/-- The object `memset(_, 0, _)` leaves behind. -/
def zeros : Mem := fun _ => 0

/-- Conversion of an unsigned value to C `int` (32 bits, two's complement). -/
def to_int (x : Nat) : Int :=
  if x % 4294967296 < 2147483648 then ((x % 4294967296 : Nat) : Int)
  else ((x % 4294967296 : Nat) : Int) - 4294967296

/-- Conversion of a C `int` to `uint16_t`. -/
def to_u16 (x : Int) : Nat := (x % 65536).toNat

/-- Conversion of a C `int` to its 32-bit unsigned representation. -/
def to_u32 (x : Int) : Nat := (x % 4294967296).toNat

/-- Conversion of a C `int` to a 64-bit unsigned type. -/
def to_u64 (x : Int) : Nat := (x % 18446744073709551616).toNat

/-- Little-endian read of a `uint16_t` at offset `o`. -/
def get_u16 (m : Mem) (o : Nat) : Nat := byte m o + 256 * byte m (o + 1)

/-- Little-endian read of a `uint32_t` at offset `o`. -/
def get_u32 (m : Mem) (o : Nat) : Nat :=
  byte m o + 256 * byte m (o + 1) + 65536 * byte m (o + 2) + 16777216 * byte m (o + 3)

/-- Little-endian read of a 64-bit field at offset `o`. -/
def get_u64 (m : Mem) (o : Nat) : Nat :=
  get_u32 m o + 4294967296 * get_u32 m (o + 4)

/-- Little-endian store of a `uint16_t` at offset `o` (the value wraps). -/
def set_u16 (m : Mem) (o : Nat) (x : Nat) : Mem :=
  fun i => if i = o then x % 256 else if i = o + 1 then x / 256 % 256 else m i

/-- Little-endian store of a `uint32_t` at offset `o` (the value wraps). -/
def set_u32 (m : Mem) (o : Nat) (x : Nat) : Mem :=
  fun i =>
    if i = o then x % 256
    else if i = o + 1 then x / 256 % 256
    else if i = o + 2 then x / 65536 % 256
    else if i = o + 3 then x / 16777216 % 256
    else m i

/-- Little-endian store of a 64-bit field at offset `o` (the value wraps). -/
def set_u64 (m : Mem) (o : Nat) (x : Nat) : Mem :=
  set_u32 (set_u32 m o x) (o + 4) (x / 4294967296)

/-- The C call `memcpy(dst + off, src, n)`. -/
def memcpy (dst : Mem) (off : Nat) (src : Mem) (n : Nat) : Mem :=
  fun i => if off ≤ i ∧ i < off + n then src (i - off) else dst i

/-- The object of `n` bytes obtained by `memset(&t, 0, n); memcpy(&t, src + off, n)`.
Offsets at or beyond `n` lie outside the object; the model reads them as 0. -/
def extract (src : Mem) (off n : Nat) : Mem :=
  fun i => if i < n then src (off + i) else 0

/-- A `for (i = i0; ...; i++)` loop of `fuel` iterations whose body may `return`:
`body i = some r` stands for `return r` in iteration `i`, `none` for falling
through to the next iteration.  The result is `none` when the loop runs to its
end. -/
def loop_first {α : Type} (body : Nat → Option α) : Nat → Nat → Option α
  | _, 0 => none
  | i, fuel + 1 =>
    match body i with
    | some r => some r
    | none => loop_first body (i + 1) fuel

/-! ## The block device -/

/-- The disk file: block number to block contents.  `none` is a block on which
`bio_read` and `bio_write` fail. -/
abbrev Disk := Nat → Option Mem

/-- The value `k n`, with the number `n` worked out once before `k` uses it. -/
def force_nat {α : Type} (n : Nat) (k : Nat → α) : α :=
  match n with
  | 0 => k 0
  | m + 1 => k (m + 1)

/-- Modelled from the spec: `block.c` is not among the sources.  `bio_read(blk, buff_mem)`
after `memset(buff_mem, 0, BUFF_MEM_SIZE)`: the spec (section 4.1) has it transfer
exactly `B` bytes and return a negative value on failure, here `none`.  A negative
block number is a failed transfer.  The bytes of `buff_mem` beyond the block keep
the 0 of the `memset`. -/
def bio_read (d : Disk) (blk : Int) : Option Mem :=
  match blk with
  | Int.negSucc _ => none
  | Int.ofNat n =>
    force_nat n fun n1 =>
      match d n1 with
      | none => none
      | some b => some (extract b 0 BLOCK_SIZE)

/-- Modelled from the spec: `block.c` is not among the sources.  `bio_write(blk, buf)`
stores the first `B` bytes of `buf` in block `blk` (spec, section 4.1); `none` is
the negative return value, which leaves the disk as it was. -/
def bio_write (d : Disk) (blk : Int) (buf : Mem) : Option Disk :=
  match blk with
  | Int.negSucc _ => none
  | Int.ofNat n =>
    force_nat n fun n1 =>
      match d n1 with
      | none => none
      | some _ => some (Function.update d n1 (some (extract buf 0 BLOCK_SIZE)))

/-! ## Global layout variables -/

/-- The global variables of `rufs.c` that `rufs_mkfs` and `rufs_init` set, and the
two bitmap-size macros of `rufs.h`, which is not among the sources: their values
are parameters. -/
structure Env where
  /-- The global with this name in `rufs.c`. -/
  i_bitmap_index : Nat
  /-- The global with this name in `rufs.c`. -/
  d_bitmap_index : Nat
  /-- The global with this name in `rufs.c`. -/
  inode_table_index : Nat
  /-- The global with this name in `rufs.c`. -/
  data_block_start : Nat
  /-- The global with this name in `rufs.c`. -/
  inodes_in_block : Nat
  /-- The global with this name in `rufs.c`. -/
  root_inode : Int
  /-- The macro with this name in `rufs.h`: the bound of the scan in `get_avail_ino`. -/
  I_BITMAP_SIZE : Nat
  /-- The macro with this name in `rufs.h`: the bound of the scan in `get_avail_blkno`. -/
  D_BITMAP_SIZE : Nat

/-! ## Bitmaps -/

/-- Modelled from the spec: `get_bitmap` is declared in `rufs.h`, which is not among
the sources.  Per the spec (section 6) object `8 * j + k` is bit `k` of byte `j`,
least significant bit first. -/
def get_bitmap (b : Mem) (i : Nat) : Nat :=
  if (byte b (i / 8)).testBit (i % 8) then 1 else 0

/-- Modelled from the spec: `set_bitmap` is declared in `rufs.h`, which is not among
the sources.  It sets bit `i % 8` of byte `i / 8` (spec, section 6). -/
def set_bitmap (b : Mem) (i : Nat) : Mem :=
  fun k => if k = i / 8 then byte b k ||| 2 ^ (i % 8) else b k

/-- The function `get_avail_ino` of `rufs.c`: the return value and the disk
afterwards. -/
def get_avail_ino (c : Env) (d : Disk) : Int × Disk :=
  match bio_read d c.i_bitmap_index with
  | none => (-1, d)
  | some buff_mem =>
    match loop_first (fun i => if get_bitmap buff_mem i = 0 then some i else none)
        0 c.I_BITMAP_SIZE with
    | some i =>
      match bio_write d c.i_bitmap_index (set_bitmap buff_mem i) with
      | none => (-1, d)
      | some d1 => ((i : Int), d1)
    | none => (-1, d)

/-- The function `get_avail_blkno` of `rufs.c`: the return value and the disk
afterwards. -/
def get_avail_blkno (c : Env) (d : Disk) : Int × Disk :=
  match bio_read d c.d_bitmap_index with
  | none => (-1, d)
  | some buff_mem =>
    match loop_first (fun i => if get_bitmap buff_mem i = 0 then some i else none)
        0 c.D_BITMAP_SIZE with
    | some i =>
      match bio_write d c.d_bitmap_index (set_bitmap buff_mem i) with
      | none => (-1, d)
      | some d1 => ((i : Int) + (c.data_block_start : Int), d1)
    | none => (-1, d)

/-! ## Inodes -/

/-- Modelled from the spec: `rufs.h` is not among the sources.  The fields of
`inode_t` are read from its byte image; their order is that of the spec
(section 3) and of the initialisers in `rufs.c`: `ino` and `valid` (16 bits),
`size`, `type`, `link` (32 bits), `direct_ptr[16]`, `indirect_ptr[8]` (C `int`),
`vstat` (a `struct stat`).  This one is field `ino`. -/
def inode_ino (v : Mem) : Nat := get_u16 v 0

/-- Modelled from the spec: field `valid` of an inode image (layout as for `inode_ino`). -/
def inode_valid (v : Mem) : Nat := get_u16 v 2

/-- Modelled from the spec: field `size` of an inode image (layout as for `inode_ino`). -/
def inode_size (v : Mem) : Nat := get_u32 v 4

/-- Modelled from the spec: field `type` of an inode image (layout as for `inode_ino`). -/
def inode_type (v : Mem) : Nat := get_u32 v 8

/-- Modelled from the spec: field `link` of an inode image (layout as for `inode_ino`). -/
def inode_link (v : Mem) : Nat := get_u32 v 12

/-- Modelled from the spec: field `direct_ptr[i]` of an inode image, a C `int` (layout as
for `inode_ino`). -/
def inode_direct_ptr (v : Mem) (i : Nat) : Int := to_int (get_u32 v (16 + 4 * i))

/-- Modelled from the spec: offset of `vstat` in `inode_t`, after the 16 direct and
8 indirect pointers (layout as for `inode_ino`). -/
def OFF_VSTAT : Nat := 112

/-- Modelled from the spec: field `vstat.st_nlink` of an inode image (64 bits), at its
place in the `struct stat` of `sys/stat.h` on x86-64 Linux. -/
def inode_st_nlink (v : Mem) : Nat := get_u64 v (OFF_VSTAT + 16)

/-- Modelled from the spec: field `vstat.st_size` of an inode image (64 bits), placed
as `inode_st_nlink` is. -/
def inode_st_size (v : Mem) : Nat := get_u64 v (OFF_VSTAT + 48)

/-- Modelled from the spec: field `vstat.st_atime` of an inode image (64 bits), placed
as `inode_st_nlink` is. -/
def inode_st_atime (v : Mem) : Nat := get_u64 v (OFF_VSTAT + 72)

/-- Modelled from the spec: field `vstat.st_mtime` of an inode image (64 bits), placed
as `inode_st_nlink` is. -/
def inode_st_mtime (v : Mem) : Nat := get_u64 v (OFF_VSTAT + 88)

/-- Assignment to `size`. -/
def set_inode_size (v : Mem) (x : Nat) : Mem := set_u32 v 4 x

/-- Assignment to `link`. -/
def set_inode_link (v : Mem) (x : Nat) : Mem := set_u32 v 12 x

/-- Assignment to `direct_ptr[i]`. -/
def set_inode_direct_ptr (v : Mem) (i : Nat) (x : Int) : Mem :=
  set_u32 v (16 + 4 * i) (to_u32 x)

/-- Assignment to `vstat.st_nlink`. -/
def set_inode_st_nlink (v : Mem) (x : Nat) : Mem := set_u64 v (OFF_VSTAT + 16) x

/-- Assignment to `vstat.st_size`. -/
def set_inode_st_size (v : Mem) (x : Nat) : Mem := set_u64 v (OFF_VSTAT + 48) x

/-- Assignment to `vstat.st_atime`. -/
def set_inode_st_atime (v : Mem) (x : Nat) : Mem := set_u64 v (OFF_VSTAT + 72) x

/-- Assignment to `vstat.st_mtime`. -/
def set_inode_st_mtime (v : Mem) (x : Nat) : Mem := set_u64 v (OFF_VSTAT + 88) x

/-- The function `readi` of `rufs.c`; `none` is `EXIT_FAILURE`, otherwise the inode
copied out.  `ino` is the `uint16_t` argument. -/
def readi (c : Env) (d : Disk) (ino : Nat) : Option Mem :=
  let inode_block_num := c.inode_table_index + ino / c.inodes_in_block
  let offset_in_block := ino % c.inodes_in_block
  match bio_read d inode_block_num with
  | none => none
  | some buff_mem => some (extract buff_mem (SIZEOF_INODE * offset_in_block) SIZEOF_INODE)

/-- The function `writei` of `rufs.c`; `none` is `EXIT_FAILURE` (the disk is then
as before), otherwise the disk afterwards.  The read-back after the write has no
effect and is left out. -/
def writei (c : Env) (d : Disk) (ino : Nat) (inode : Mem) : Option Disk :=
  let inode_block_num := c.inode_table_index + ino / c.inodes_in_block
  let offset_in_block := ino % c.inodes_in_block
  match bio_read d inode_block_num with
  | none => none
  | some buff_mem =>
    bio_write d inode_block_num (memcpy buff_mem (offset_in_block * SIZEOF_INODE) inode SIZEOF_INODE)

/-! ## Directory entries -/

/-- Modelled from the spec: `rufs.h` is not among the sources.  The fields of
`dirent_t` are read from its byte image: `ino` and `valid` (16 bits), `name`
(`NAME_MAX_LEN` bytes), `len` (16 bits), 214 bytes in all.  This one is field
`ino`. -/
def dirent_ino (e : Mem) : Nat := get_u16 e 0

/-- Modelled from the spec: field `valid` of a directory entry image (layout as for
`dirent_ino`). -/
def dirent_valid (e : Mem) : Nat := get_u16 e 2

/-- Modelled from the spec: offset of field `name` in `dirent_t` (layout as for
`dirent_ino`). -/
def OFF_NAME : Nat := 4

/-- Modelled from the spec: offset of field `len` in `dirent_t` (layout as for
`dirent_ino`). -/
def OFF_LEN : Nat := 212

/-- Modelled from the spec: field `len` of a directory entry image (layout as for
`dirent_ino`). -/
def dirent_len (e : Mem) : Nat := get_u16 e OFF_LEN

/-- The test `strcmp(s, m + o) == 0`, where the C string `s` is given as the list of
its bytes before the terminator: the bytes at `o` are those of `s`, followed by a
0 byte. -/
def strcmp_eq (m : Mem) : Nat → List Nat → Bool
  | o, [] => byte m o == 0
  | o, ch :: rest => byte m o == ch && strcmp_eq m (o + 1) rest

/-- The C call `strcpy(dst + o, s)`: the bytes of `s` and a terminating 0. -/
def strcpy (dst : Mem) (o : Nat) (s : List Nat) : Mem :=
  fun i =>
    if o ≤ i ∧ i < o + s.length then s.getD (i - o) 0 % 256
    else if i = o + s.length then 0
    else dst i

/-- The slot that starts at byte `j` of the scratch buffer, as copied into
`temp_dirent`. -/
def slot_at (buff_mem : Mem) (j : Nat) : Mem := extract buff_mem j SIZEOF_DIRENT

/-- The inner `while (j <= last)` loop of `dir_find`, with `j = s * sizeof(dirent_t)`
and `last = max_dirents_in_block * sizeof(dirent_t)`: slot numbers
`s = 0, ..., max_dirents_in_block`, the last one included. -/
def dir_find_block (buff_mem : Mem) (fname : List Nat) (name_len : Nat) : Option Mem :=
  loop_first
    (fun s =>
      let temp_dirent := slot_at buff_mem (s * SIZEOF_DIRENT)
      if dirent_len temp_dirent = name_len ∧ strcmp_eq temp_dirent OFF_NAME fname = true then
        some temp_dirent
      else none)
    0 (MAX_DIRENTS_IN_BLOCK + 1)

/-- The body of the loop over `direct_ptr` in `dir_find`: `some none` is
`return EXIT_FAILURE`, `some (some e)` is `return EXIT_SUCCESS` with `*dirent = e`. -/
def dir_find_ptr (c : Env) (d : Disk) (temp_inode : Mem) (fname : List Nat) (name_len : Nat)
    (i : Nat) : Option (Option Mem) :=
  if inode_direct_ptr temp_inode i ≥ (c.data_block_start : Int) then
    match bio_read d (inode_direct_ptr temp_inode i) with
    | none => some none
    | some buff_mem =>
      match dir_find_block buff_mem fname name_len with
      | some e => some (some e)
      | none => none
  else none

/-- The function `dir_find` of `rufs.c`; `none` is `EXIT_FAILURE`, `some e` is
`EXIT_SUCCESS` with the entry copied to `*dirent`. -/
def dir_find (c : Env) (d : Disk) (ino : Nat) (fname : List Nat) (name_len : Nat) :
    Option Mem :=
  match readi c d ino with
  | none => none
  | some temp_inode =>
    match loop_first (dir_find_ptr c d temp_inode fname name_len) 0 16 with
    | some r => r
    | none => none

/-- The local `res_dirent` of `dir_add` after its initialiser and the `strcpy`. -/
def res_dirent (f_ino : Nat) (fname : List Nat) (name_len : Nat) : Mem :=
  strcpy (set_u16 (set_u16 (set_u16 zeros 0 f_ino) 2 1) OFF_LEN name_len) OFF_NAME fname

/-- Step 1 of `dir_add`, the search for an entry equal to the new one, for one
direct pointer: `some r` is `return r`. -/
def dir_add_dup_ptr (c : Env) (d : Disk) (dir_inode : Mem) (f_ino : Nat) (fname : List Nat)
    (name_len : Nat) (i : Nat) : Option Int :=
  if inode_direct_ptr dir_inode i ≥ (c.data_block_start : Int) then
    match bio_read d (inode_direct_ptr dir_inode i) with
    | none => some EXIT_FAILURE
    | some buff_mem =>
      loop_first
        (fun s =>
          let temp_dirent := slot_at buff_mem (s * SIZEOF_DIRENT)
          if strcmp_eq temp_dirent OFF_NAME fname = true ∧ dirent_ino temp_dirent = f_ino
              ∧ dirent_len temp_dirent = name_len then
            some EXIT_FAILURE
          else none)
        0 MAX_DIRENTS_IN_BLOCK
  else none

/-- The four assignments of `dir_add` under "update directory inode". -/
def dir_add_update (dir_inode : Mem) (now : Nat) : Mem :=
  let v1 := set_inode_size dir_inode (inode_size dir_inode + SIZEOF_DIRENT)
  let v2 := set_inode_link v1 (inode_link v1 + 1)
  let v3 := set_inode_st_atime v2 now
  set_inode_st_nlink v3 (inode_st_nlink v3 + 1)

/-- The tail shared by both placements in `dir_add`: the block of the directory
inode is read, `sizeof(dirent_t)` bytes of the inode are copied to
`offset_in_block * sizeof(dirent_t)`, the block is written, and `writei` stores the
inode (its return value is not looked at).  `reread` is the block that the first
placement reads in between. -/
def dir_add_store (c : Env) (d : Disk) (dir_inode : Mem) (reread : Option Int) :
    Int × Disk :=
  let dir_inode_block_num := c.inode_table_index + inode_ino dir_inode / c.inodes_in_block
  let offset_in_block := inode_ino dir_inode % c.inodes_in_block
  match bio_read d dir_inode_block_num with
  | none => (EXIT_FAILURE, d)
  | some buff_mem =>
    match bio_write d dir_inode_block_num
        (memcpy buff_mem (offset_in_block * SIZEOF_DIRENT) dir_inode SIZEOF_DIRENT) with
    | none => (EXIT_FAILURE, d)
    | some d1 =>
      match (match reread with
             | none => some zeros
             | some blk => bio_read d1 blk) with
      | none => (EXIT_FAILURE, d1)
      | some _ =>
        match writei c d1 (inode_ino dir_inode) dir_inode with
        | none => (EXIT_SUCCESS, d1)
        | some d2 => (EXIT_SUCCESS, d2)

/-- Step 3 of `dir_add`, the search for a free slot in the blocks the directory
has, for one direct pointer: `some r` is `return` with that value and disk. -/
def dir_add_place_ptr (c : Env) (d : Disk) (now : Nat) (dir_inode : Mem) (res : Mem)
    (i : Nat) : Option (Int × Disk) :=
  if inode_direct_ptr dir_inode i ≥ (c.data_block_start : Int) then
    match bio_read d (inode_direct_ptr dir_inode i) with
    | none => some (EXIT_FAILURE, d)
    | some buff_mem =>
      loop_first
        (fun s =>
          let j := s * SIZEOF_DIRENT
          let temp_dirent := slot_at buff_mem j
          if dirent_ino temp_dirent = 0 then
            match bio_write d (inode_direct_ptr dir_inode i)
                (memcpy buff_mem j res SIZEOF_DIRENT) with
            | none => some (EXIT_FAILURE, d)
            | some d1 =>
              some (dir_add_store c d1 (dir_add_update dir_inode now)
                (some (inode_direct_ptr dir_inode i)))
          else none)
        0 MAX_DIRENTS_IN_BLOCK
  else none

/-- The last loop of `dir_add`, which gives the directory a new data block, for
one direct pointer: `some r` is `return` with that value and disk. -/
def dir_add_alloc_ptr (c : Env) (d : Disk) (now : Nat) (dir_inode : Mem) (res : Mem)
    (i : Nat) : Option (Int × Disk) :=
  if inode_direct_ptr dir_inode i = 0 then
    let avail_d_block := (get_avail_blkno c d).1
    let d1 := (get_avail_blkno c d).2
    if avail_d_block = -1 then some (EXIT_FAILURE, d1)
    else
      let dir1 := set_inode_direct_ptr dir_inode i avail_d_block
      match bio_read d1 (inode_direct_ptr dir1 i) with
      | none => some (EXIT_FAILURE, d1)
      | some buff_mem =>
        match bio_write d1 (inode_direct_ptr dir1 i) (memcpy buff_mem 0 res SIZEOF_DIRENT) with
        | none => some (EXIT_FAILURE, d1)
        | some d2 => some (dir_add_store c d2 (dir_add_update dir1 now) none)
  else none

/-- The function `dir_add` of `rufs.c`: the C return value and the disk afterwards.
The return value is `none` when control reaches the closing brace of the function
without a `return` statement.  `dir_inode` is the caller's copy of the directory
inode, `f_ino` the `uint16_t` argument, `now` the value of `time(NULL)`. -/
def dir_add (c : Env) (d : Disk) (now : Nat) (dir_inode : Mem) (f_ino : Nat)
    (fname : List Nat) (name_len : Nat) : Option Int × Disk :=
  match loop_first (dir_add_dup_ptr c d dir_inode f_ino fname name_len) 0 16 with
  | some r => (some r, d)
  | none =>
    let res := res_dirent f_ino fname name_len
    if inode_size dir_inode ≠ MAX_DIRENTS then
      match loop_first (dir_add_place_ptr c d now dir_inode res) 0 16 with
      | some r => (some r.1, r.2)
      | none =>
        match loop_first (dir_add_alloc_ptr c d now dir_inode res) 0 16 with
        | some r => (some r.1, r.2)
        | none => (none, d)
    else (some EXIT_FAILURE, d)

/-! ## Path resolution -/

/-- The repeated `strtok(_, "/")` of `num_of_components`: the maximal runs of bytes
other than `'/'` (47), in order; `tok` holds the current run, last byte first. -/
def strtok_all : List Nat → List Nat → List (List Nat)
  | [], tok => if tok = [] then [] else [tok.reverse]
  | ch :: rest, tok =>
    if ch = 47 then
      if tok = [] then strtok_all rest [] else tok.reverse :: strtok_all rest []
    else strtok_all rest (ch :: tok)

/-- The paths that `num_of_components` can take: it copies its argument with `strcpy`
into the local `char path[1024]`, so the bytes before the terminator number at most
1023.  A longer path overruns the array, and the definitions below say nothing of
that case. -/
abbrev path_fits (path : List Nat) : Prop := path.length < 1024

/-- The function `num_of_components` of `rufs.c`, for a path with `path_fits`: the
return value and the entries it stores in `parts_of_path`.  The path is the list of
its bytes before the terminator. -/
def num_of_components (path_interest : List Nat) : Int × List (List Nat) :=
  if path_interest = [47] then (0, [])
  else
    let parts := strtok_all path_interest []
    if parts.length = 0 then (-1, parts) else ((parts.length : Int), parts)

/-- The `for` loop of `get_node_by_path` over the components: the value of
`temp_dirent.ino` after the last component, `none` for `return EXIT_FAILURE`. -/
def walk (c : Env) (d : Disk) : Nat → List (List Nat) → Option Nat
  | inode_for_search, [] => some inode_for_search
  | inode_for_search, part :: rest =>
    match dir_find c d inode_for_search part part.length with
    | none => none
    | some temp_dirent => walk c d (dirent_ino temp_dirent) rest

/-- The function `get_node_by_path` of `rufs.c`, for a path with `path_fits`; `none`
is `EXIT_FAILURE`, `some v` is `EXIT_SUCCESS` with `*inode = v`.  `ino` is the
`uint16_t` argument. -/
def get_node_by_path (c : Env) (d : Disk) (path : List Nat) (ino : Nat) : Option Mem :=
  let termination_count := (num_of_components path).1
  let parts_of_path := (num_of_components path).2
  if termination_count = -1 then none
  else if termination_count = 0 then readi c d (to_u16 c.root_inode)
  else
    match walk c d ino parts_of_path with
    | none => none
    | some last_ino => readi c d last_ino

/-! ## File operations -/

/-- The byte count of the `memcpy` in `rufs_read` and `rufs_write`:
`(size % BLOCK_SIZE == 0) ? BLOCK_SIZE : size % BLOCK_SIZE`. -/
def copy_count (size : Nat) : Nat :=
  if size % BLOCK_SIZE = 0 then BLOCK_SIZE else size % BLOCK_SIZE

/-- The function `rufs_read` of `rufs.c`: the return value and the caller's
`buffer` afterwards.  `size` is the `size_t` argument, `offset` the (non-negative)
`off_t` argument. -/
def rufs_read (c : Env) (d : Disk) (path : List Nat) (buffer : Mem) (size : Nat)
    (offset : Nat) : Int × Mem :=
  match get_node_by_path c d path (to_u16 c.root_inode) with
  | none => (-EXIT_FAILURE, buffer)
  | some target_ino =>
    let block_where_offset_is := to_int (offset / BLOCK_SIZE)
    match loop_first
        (fun i =>
          if (i : Int) = block_where_offset_is then
            if inode_direct_ptr target_ino i ≥ (c.data_block_start : Int) then
              match bio_read d (inode_direct_ptr target_ino i) with
              | none => some (-EXIT_FAILURE, buffer)
              | some buff_mem =>
                some (to_int size,
                  memcpy buffer 0 (fun k => buff_mem (offset % BLOCK_SIZE + k)) (copy_count size))
            else none
          else none)
        0 NUM_DIRECT_PTRS with
    | some r => r
    | none => (-1, buffer)

/-- The assignments of `rufs_write` under "update target_ino stats". -/
def rufs_write_update (target_ino : Mem) (size : Nat) (now : Nat) : Mem :=
  let v1 := set_inode_size target_ino (inode_size target_ino + size)
  let v2 := set_inode_st_atime v1 now
  let v3 := set_inode_st_mtime v2 now
  set_inode_st_size v3 (inode_st_size v3 + size)

/-- The tail shared by both branches of `rufs_write`: the data block is read, the
bytes are copied in and the block is written; the inode is updated, copied into
its inode-table block and stored once more by `writei`. -/
def rufs_write_block (c : Env) (d : Disk) (now : Nat) (target_ino : Mem) (i : Nat)
    (buffer : Mem) (size : Nat) (offset : Nat) : Int × Disk :=
  match bio_read d (inode_direct_ptr target_ino i) with
  | none => (-EXIT_FAILURE, d)
  | some buff_mem =>
    match bio_write d (inode_direct_ptr target_ino i)
        (memcpy buff_mem (offset % BLOCK_SIZE) buffer (copy_count size)) with
    | none => (-EXIT_FAILURE, d)
    | some d1 =>
      let target1 := rufs_write_update target_ino size now
      let target_inode_block_num :=
        c.inode_table_index + inode_ino target1 / c.inodes_in_block
      let offset_in_block := inode_ino target1 % c.inodes_in_block
      match bio_read d1 target_inode_block_num with
      | none => (-EXIT_FAILURE, d1)
      | some inode_block =>
        match bio_write d1 target_inode_block_num
            (memcpy inode_block (offset_in_block * SIZEOF_INODE) target1 SIZEOF_INODE) with
        | none => (-EXIT_FAILURE, d1)
        | some d2 =>
          match writei c d2 (inode_ino target1) target1 with
          | none => (-EXIT_FAILURE, d2)
          | some d3 => (to_int size, d3)

/-- The function `rufs_write` of `rufs.c`: the return value and the disk
afterwards.  `buffer` is the caller's source, `size` the `size_t` argument, `offset`
the (non-negative) `off_t` argument, `now` the value of `time(NULL)`. -/
def rufs_write (c : Env) (d : Disk) (now : Nat) (path : List Nat) (buffer : Mem)
    (size : Nat) (offset : Nat) : Int × Disk :=
  match get_node_by_path c d path (to_u16 c.root_inode) with
  | none => (-EXIT_FAILURE, d)
  | some target_ino =>
    let block_where_offset_is := to_int (offset / BLOCK_SIZE)
    match loop_first
        (fun i =>
          if (i : Int) = block_where_offset_is then
            if inode_direct_ptr target_ino i ≥ (c.data_block_start : Int) then
              some (rufs_write_block c d now target_ino i buffer size offset)
            else
              let blk := (get_avail_blkno c d).1
              let d1 := (get_avail_blkno c d).2
              some (rufs_write_block c d1 now (set_inode_direct_ptr target_ino i blk) i
                buffer size offset)
          else none)
        0 NUM_DIRECT_PTRS with
    | some r => r
    | none => (-1, d)

/-! ## Creating directories and files -/

/-- The library function `basename` of `libgen.h` on the absolute paths the binding
passes: the last component, or `"/"` when there is none. -/
def basename (path : List Nat) : List Nat :=
  match (strtok_all path []).getLast? with
  | some part => part
  | none => [47]

/-- The library function `dirname` of `libgen.h` on the absolute paths the binding
passes: the path without its last component, `"/"` when nothing is left. -/
def dirname (path : List Nat) : List Nat :=
  47 :: List.intercalate [47] (strtok_all path []).dropLast

/-- The mode bit `__S_IFDIR` of `sys/stat.h`. -/
def S_IFDIR : Nat := 16384

/-- The mode bit `__S_IFREG` of `sys/stat.h`. -/
def S_IFREG : Nat := 32768

/-- The initialiser of `new_inode` in `rufs_mkdir` and `rufs_create`: every field
not named is 0.  `now`, `gid` and `uid` are the values of `time(NULL)`, `getegid()`
and `getuid()`. -/
def new_inode (new_ino_num : Int) (type link : Nat) (now gid uid : Nat) : Mem :=
  let v1 := set_u16 zeros 0 (to_u16 new_ino_num)
  let v2 := set_u16 v1 2 1
  let v3 := set_inode_size v2 0
  let v4 := set_u32 v3 8 type
  let v5 := set_inode_link v4 link
  let v6 := set_inode_st_atime v5 now
  let v7 := set_u64 v6 (OFF_VSTAT + 104) now
  let v8 := set_inode_st_mtime v7 now
  let v9 := set_u32 v8 (OFF_VSTAT + 32) gid
  let v10 := set_u32 v9 (OFF_VSTAT + 28) uid
  let v11 := set_u64 v10 (OFF_VSTAT + 8) (to_u64 new_ino_num)
  let v12 := set_u32 v11 (OFF_VSTAT + 24) type
  set_inode_st_nlink v12 link

/-- The function `rufs_mkdir` of `rufs.c`: the return value and the disk afterwards.
The return value is `none` when it hangs on the value of a `dir_add` that ended
without a `return` statement. -/
def rufs_mkdir (c : Env) (d : Disk) (now gid uid : Nat) (path : List Nat) :
    Option Int × Disk :=
  let dir_name := dirname path
  let path_name := basename path
  match get_node_by_path c d dir_name (to_u16 c.root_inode) with
  | none => (some EXIT_FAILURE, d)
  | some parent_dir_node =>
    let new_ino_num := (get_avail_ino c d).1
    let d1 := (get_avail_ino c d).2
    if new_ino_num = -1 then (some EXIT_FAILURE, d1)
    else
      let inode := new_inode new_ino_num S_IFDIR 2 now gid uid
      match dir_add c d1 now parent_dir_node (to_u16 new_ino_num) path_name path_name.length with
      | (none, d2) => (none, d2)
      | (some result, d2) =>
        if result = EXIT_SUCCESS then
          match writei c d2 (to_u16 new_ino_num) inode with
          | some d3 => (some EXIT_SUCCESS, d3)
          | none => (some EXIT_FAILURE, d2)
        else (some EXIT_FAILURE, d2)

/-- The function `rufs_create` of `rufs.c`: the return value and the disk
afterwards.  The return value is `none` when it hangs on the value of a `dir_add`
that ended without a `return` statement. -/
def rufs_create (c : Env) (d : Disk) (now gid uid : Nat) (path : List Nat) :
    Option Int × Disk :=
  let dir_name := dirname path
  let path_name := basename path
  match get_node_by_path c d dir_name (to_u16 c.root_inode) with
  | none => (some EXIT_FAILURE, d)
  | some parent_dir_node =>
    let new_ino_num := (get_avail_ino c d).1
    let d1 := (get_avail_ino c d).2
    let inode := new_inode new_ino_num S_IFREG 1 now gid uid
    match dir_add c d1 now parent_dir_node (to_u16 new_ino_num) path_name path_name.length with
    | (none, d2) => (none, d2)
    | (some result, d2) =>
      if result = EXIT_SUCCESS then
        match writei c d2 (to_u16 new_ino_num) inode with
        | some d3 => (some EXIT_SUCCESS, d3)
        | none => (some EXIT_FAILURE, d2)
      else (some EXIT_FAILURE, d2)

/-! ## Formatting -/

/-- Modelled from the spec: `rufs.h` is not among the sources; the spec (section 3)
gives `MAX_INUM = 1024`. -/
def MAX_INUM : Nat := 1024

/-- Modelled from the spec: `rufs.h` is not among the sources; the spec (section 3)
gives `MAX_DNUM = 16384`. -/
def MAX_DNUM : Nat := 16384

/-- Modelled from the spec: `rufs.h` is not among the sources, and the value of
`MAGIC_NUM` is in neither; it is the one of the course skeleton. -/
def MAGIC_NUM : Nat := 23610

/-- Modelled from the spec: `rufs.h` is not among the sources.  The image of
`superblock_t`, with the fields in the order of the spec (section 3): `magic_num`
(32 bits), `max_inum`, `max_dnum` (16 bits), `i_bitmap_blk`, `d_bitmap_blk`,
`i_start_blk`, `d_start_blk` (32 bits). -/
def superblock_image (i_bitmap_blk d_bitmap_blk i_start_blk d_start_blk : Nat) : Mem :=
  set_u32 (set_u32 (set_u32 (set_u32 (set_u16 (set_u16 (set_u32 zeros 0 MAGIC_NUM) 4 MAX_INUM)
    6 MAX_DNUM) 8 i_bitmap_blk) 12 d_bitmap_blk) 16 i_start_blk) 20 d_start_blk

/-- Modelled from the spec: `block.c` is not among the sources.  The disk file after
`dev_init`, zero-filled (spec, section 4.1); its length is not in the sources, and
every block number is taken to lie on it. -/
def dev_init : Disk := fun _ => some zeros

/-- The globals as `rufs_mkfs` sets them before it allocates the root inode. -/
def mkfs_env (i_bitmap_size d_bitmap_size : Nat) (root : Int) : Env :=
  { i_bitmap_index := 1
    d_bitmap_index := 2
    inode_table_index := 3
    data_block_start := MAX_INUM / (BLOCK_SIZE / SIZEOF_INODE) + 3
    inodes_in_block := BLOCK_SIZE / SIZEOF_INODE
    root_inode := root
    I_BITMAP_SIZE := i_bitmap_size
    D_BITMAP_SIZE := d_bitmap_size }

/-- The initialiser of `local_root_inode` in `rufs_mkfs`. -/
def root_inode_image (root : Int) (now : Nat) : Mem :=
  let v1 := set_u16 zeros 0 (to_u16 root)
  let v2 := set_u16 v1 2 1
  let v3 := set_inode_size v2 SIZEOF_DIRENT
  let v4 := set_u32 v3 8 (S_IFDIR ||| 493)
  let v5 := set_inode_link v4 2
  let v6 := set_inode_st_mtime v5 now
  let v7 := set_inode_st_atime v6 now
  set_inode_st_nlink v7 2

/-- The function `rufs_mkfs` of `rufs.c`, on its first call (the `init` flag
clear): the return value, the globals and the disk afterwards.  The two arguments
are the macros `I_BITMAP_SIZE` and `D_BITMAP_SIZE`, `now` is `time(NULL)`. -/
def rufs_mkfs (i_bitmap_size d_bitmap_size : Nat) (now : Nat) : Int × Env × Disk :=
  let c0 := mkfs_env i_bitmap_size d_bitmap_size 0
  match bio_write dev_init 0
      (memcpy zeros 0 (superblock_image 1 2 3 c0.data_block_start) 24) with
  | none => (EXIT_FAILURE, c0, dev_init)
  | some d1 =>
    match bio_write d1 c0.i_bitmap_index (memcpy zeros 0 zeros i_bitmap_size) with
    | none => (EXIT_FAILURE, c0, d1)
    | some d2 =>
      match bio_write d2 c0.d_bitmap_index (memcpy zeros 0 zeros d_bitmap_size) with
      | none => (EXIT_FAILURE, c0, d2)
      | some d3 =>
        let root := (get_avail_ino c0 d3).1
        let d4 := (get_avail_ino c0 d3).2
        let c := mkfs_env i_bitmap_size d_bitmap_size root
        let blk := (get_avail_blkno c d4).1
        let d5 := (get_avail_blkno c d4).2
        let local_root_inode := set_inode_direct_ptr (root_inode_image root now) 0 blk
        match bio_write d5 c.inode_table_index (memcpy zeros 0 local_root_inode SIZEOF_INODE) with
        | none => (EXIT_FAILURE, c, d5)
        | some d6 =>
          let buff_mem :=
            memcpy
              (memcpy (memcpy zeros 0 (res_dirent 0 [47] 1) SIZEOF_DIRENT)
                SIZEOF_DIRENT (res_dirent 0 [46] 1) SIZEOF_DIRENT)
              (2 * SIZEOF_DIRENT) (res_dirent 0 [46, 46] 2) SIZEOF_DIRENT
          match bio_write d6 (inode_direct_ptr local_root_inode 0) buff_mem with
          | none => (EXIT_FAILURE, c, d6)
          | some d7 => (0, c, d7)

/-! ## Attributes and directory listings -/

/-- The error number `ENOENT` of `errno.h`. -/
def ENOENT : Int := 2

/-- Field `vstat.st_ctime` of an inode image (64 bits), placed as `inode_st_nlink` is. -/
def inode_st_ctime (v : Mem) : Nat := get_u64 v (OFF_VSTAT + 104)

/-- The fields of the `struct stat` that `rufs_getattr` assigns. -/
structure Stat where
  /-- Field `st_uid`. -/
  st_uid : Nat
  /-- Field `st_gid`. -/
  st_gid : Nat
  /-- Field `st_nlink`. -/
  st_nlink : Nat
  /-- Field `st_size`. -/
  st_size : Nat
  /-- Field `st_ctime`. -/
  st_ctime : Nat
  /-- Field `st_atime`. -/
  st_atime : Nat
  /-- Field `st_mtime`. -/
  st_mtime : Nat
  /-- Field `st_mode`. -/
  st_mode : Nat

/-- The function `rufs_getattr` of `rufs.c`: the return value and `*stbuf`
afterwards.  `uid` and `gid` are the values of `getuid()` and `getgid()`. -/
def rufs_getattr (c : Env) (d : Disk) (uid gid : Nat) (path : List Nat) (stbuf : Stat) :
    Int × Stat :=
  match get_node_by_path c d path (to_u16 c.root_inode) with
  | none => (-ENOENT, stbuf)
  | some path_node =>
    (0,
      { st_uid := uid
        st_gid := gid
        st_nlink := inode_link path_node
        st_size := inode_size path_node
        st_ctime := inode_st_ctime path_node
        st_atime := inode_st_atime path_node
        st_mtime := inode_st_mtime path_node
        st_mode := inode_type path_node })

/-- The C string that starts at offset `o` of an object: its bytes up to the first
0 byte, at most `fuel` of them. -/
def c_string (m : Mem) : Nat → Nat → List Nat
  | _, 0 => []
  | o, fuel + 1 => if byte m o = 0 then [] else byte m o :: c_string m (o + 1) fuel

/-- The inner `for (j = 0; j <= last; j += sizeof(dirent_t))` loop of `rufs_readdir`
from slot `s` on, for `fuel` slots: `names` are the names passed to `filler` so far;
the result is `true` when the loop ends in `return EXIT_SUCCESS` at a slot with
`len == 0`.  `all_dirents[j % sizeof(dirent_t)]` is `all_dirents[0]` in every
iteration, a copy of the slot, and `filler` gets its `name` as a C string (read
inside the slot, 210 bytes at most). -/
def readdir_block (buff_mem : Mem) : Nat → Nat → List (List Nat) → Bool × List (List Nat)
  | _, 0, names => (false, names)
  | s, fuel + 1, names =>
    let temp_dirent := slot_at buff_mem (s * SIZEOF_DIRENT)
    if dirent_len temp_dirent = 0 then (true, names)
    else
      readdir_block buff_mem (s + 1) fuel
        (names ++ [c_string temp_dirent OFF_NAME (SIZEOF_DIRENT - OFF_NAME)])

/-- The loop of `rufs_readdir` over the direct pointers from index `i` on, for
`fuel` pointers: the return value and the names passed to `filler`. -/
def readdir_ptrs (c : Env) (d : Disk) (dir_inode : Mem) :
    Nat → Nat → List (List Nat) → Int × List (List Nat)
  | _, 0, names => (0, names)
  | i, fuel + 1, names =>
    if inode_direct_ptr dir_inode i ≥ (c.data_block_start : Int) then
      match bio_read d (inode_direct_ptr dir_inode i) with
      | none => (EXIT_FAILURE, names)
      | some buff_mem =>
        match readdir_block buff_mem 0 (MAX_DIRENTS_IN_BLOCK + 1) names with
        | (true, names1) => (EXIT_SUCCESS, names1)
        | (false, names1) => readdir_ptrs c d dir_inode (i + 1) fuel names1
    else readdir_ptrs c d dir_inode (i + 1) fuel names

/-- The function `rufs_readdir` of `rufs.c`: the return value and the names passed
to `filler`, in the order of the calls.  The directory's `link` is taken to be at
least 1, so that `all_dirents[0]` exists. -/
def rufs_readdir (c : Env) (d : Disk) (path : List Nat) : Int × List (List Nat) :=
  match get_node_by_path c d path (to_u16 c.root_inode) with
  | none => (EXIT_FAILURE, [])
  | some dir_inode => readdir_ptrs c d dir_inode 0 NUM_DIRECT_PTRS []

/-- The function `rufs_opendir` of `rufs.c`. -/
def rufs_opendir (c : Env) (d : Disk) (path : List Nat) : Int :=
  match get_node_by_path c d path (to_u16 c.root_inode) with
  | none => -1
  | some _ => 0

/-- The function `dir_remove` of `rufs.c`, whose body is `return 0`: the return
value and the disk afterwards. -/
def dir_remove (d : Disk) (_dir_inode : Mem) (_fname : List Nat) (_name_len : Nat) :
    Int × Disk :=
  (0, d)

/-- The function `rufs_rmdir` of `rufs.c`: it resolves the parent directory, makes
no use of the result and returns 0; the return value and the disk afterwards. -/
def rufs_rmdir (c : Env) (d : Disk) (path : List Nat) : Int × Disk :=
  match get_node_by_path c d (dirname path) (to_u16 c.root_inode) with
  | none => (0, d)
  | some _ => (0, d)

/-- The function `rufs_unlink` of `rufs.c`, whose body is `return 0`: the return
value and the disk afterwards. -/
def rufs_unlink (d : Disk) (_path : List Nat) : Int × Disk :=
  (0, d)

/-- The function `rufs_open` of `rufs.c`: `get_node_by_path` returns `EXIT_SUCCESS`
or `EXIT_FAILURE`, the test `< 0` picks `return -1`, and so does the path after
it. -/
def rufs_open (c : Env) (d : Disk) (path : List Nat) : Int :=
  let ret : Int :=
    match get_node_by_path c d path (to_u16 c.root_inode) with
    | none => EXIT_FAILURE
    | some _ => EXIT_SUCCESS
  if ret < 0 then -1 else -1

/-! ## The bitmap test -/

/-- The function `main` of `test/test.c`: the exit status and the numbers printed,
in order (`superblock.max_inum`, then `i_bitmap[0]` after each `set_bitmap`).  The
static array `i_bitmap` is all zero after the `memset`. -/
def test_main : Int × List Nat :=
  let out0 := [to_u16 (MAX_INUM : Int)]
  let i_bitmap := zeros
  if get_bitmap i_bitmap 0 = 0 then
    let b1 := set_bitmap i_bitmap 0
    let out1 := out0 ++ [byte b1 0]
    if get_bitmap b1 1 = 0 then
      let b2 := set_bitmap b1 1
      let out2 := out1 ++ [byte b2 0]
      if get_bitmap b2 2 = 0 then
        let b3 := set_bitmap b2 2
        (0, out2 ++ [byte b3 0])
      else (EXIT_FAILURE, out2)
    else (EXIT_FAILURE, out1)
  else (EXIT_FAILURE, out0)

/-! ## Notions used to state the properties -/

/-- The inode number that `get_node_by_path` reads at the end, for a walk that
starts at the root: `none` when it returns `EXIT_FAILURE` before. -/
def path_target (c : Env) (d : Disk) (path : List Nat) : Option Nat :=
  if (num_of_components path).1 = -1 then none
  else if (num_of_components path).1 = 0 then some (to_u16 c.root_inode)
  else walk c d (to_u16 c.root_inode) (num_of_components path).2

/-- The inode numbers that `walk` passes to `dir_find`, in order. -/
def walk_dirs (c : Env) (d : Disk) : Nat → List (List Nat) → List Nat
  | _, [] => []
  | inode_for_search, part :: rest =>
    inode_for_search ::
      match dir_find c d inode_for_search part part.length with
      | none => []
      | some temp_dirent => walk_dirs c d (dirent_ino temp_dirent) rest

/-- The directories that `get_node_by_path` searches for `path` from the root. -/
def path_dirs (c : Env) (d : Disk) (path : List Nat) : List Nat :=
  if (num_of_components path).1 = -1 then []
  else if (num_of_components path).1 = 0 then []
  else walk_dirs c d (to_u16 c.root_inode) (num_of_components path).2

/-- The data block in which `rufs_write` stores the bytes for a file with inode
`target_ino`: the direct pointer for the offset when that is allocated, otherwise
the block `get_avail_blkno` hands out. -/
def write_block_no (c : Env) (d : Disk) (target_ino : Mem) (offset : Nat) : Int :=
  if inode_direct_ptr target_ino (offset / BLOCK_SIZE) ≥ (c.data_block_start : Int) then
    inode_direct_ptr target_ino (offset / BLOCK_SIZE)
  else (get_avail_blkno c d).1

/-- Directory `v` is apart from the file with inode number `f` and from data
block `w`: it is another inode, its inode lies in the inode table, and none of its
direct pointers is `w`. -/
def dir_apart (c : Env) (d : Disk) (f : Nat) (w : Int) (v : Nat) : Prop :=
  v ≠ f ∧ c.inode_table_index + v / c.inodes_in_block < c.data_block_start ∧
    ∀ i, i < 16 → (readi c d v).map (fun tv => inode_direct_ptr tv i) ≠ some w

instance (c : Env) (d : Disk) (f : Nat) (w : Int) (v : Nat) : Decidable (dir_apart c d f w v) := by
  unfold dir_apart
  infer_instance

/-- The fold of directory lookups in the spec's words (section 4.6): starting from
`start_ino`, each component is looked up in the directory reached so far, and a hit
moves on to the inode number of the match. -/
def lookup_fold (c : Env) (d : Disk) (start_ino : Nat) (components : List (List Nat)) :
    Option Nat :=
  components.foldlM
    (fun current component =>
      (dir_find c d current component component.length).map dirent_ino)
    start_ino

/-- The non-empty `'/'`-separated components of a path, in the spec's words
(section 4.6): split on `'/'`, empty components discarded. -/
def path_components (path : List Nat) : List (List Nat) :=
  (path.splitOn 47).filter (fun part => part ≠ [])

/-- The resolution of a path as the spec words it (section 4.6): `"/"` is the root
inode, number 0; any other path is split into its components, the components are
looked up one after the other from `start_ino`, and the inode reached after the
last one is read. -/
def resolve_spec (c : Env) (d : Disk) (path : List Nat) (start_ino : Nat) : Option Mem :=
  if path = [47] then readi c d 0
  else (lookup_fold c d start_ino (path_components path)).bind (readi c d)

/-- The names of the occupied slots of one directory data block, as the spec has
`readdir` report them: slots `0, ..., K - 1` in order, those with `ino != 0` and a
non-empty name. -/
def block_names_spec (b : Mem) : List (List Nat) :=
  ((List.range MAX_DIRENTS_IN_BLOCK).filter
    (fun s => decide (dirent_ino (slot_at b (s * SIZEOF_DIRENT)) ≠ 0) &&
      decide (c_string (slot_at b (s * SIZEOF_DIRENT)) OFF_NAME NAME_MAX_LEN ≠ []))).map
    (fun s => c_string (slot_at b (s * SIZEOF_DIRENT)) OFF_NAME NAME_MAX_LEN)

/-- The listing of a directory as the spec has it: the names of the occupied slots
of every allocated data block (`direct_ptr[i] != 0`), by ascending pointer index,
then ascending slot. -/
def readdir_spec (d : Disk) (dir_inode : Mem) : List (List Nat) :=
  (List.range NUM_DIRECT_PTRS).flatMap
    (fun i =>
      if inode_direct_ptr dir_inode i ≠ 0 then
        match bio_read d (inode_direct_ptr dir_inode i) with
        | some b => block_names_spec b
        | none => []
      else [])

/-- The number of slots with `ino != 0` in one directory data block (slots
`0, ..., K - 1`). -/
def block_slots_in_use (b : Mem) : Nat :=
  ((List.range MAX_DIRENTS_IN_BLOCK).filter
    (fun s => decide (dirent_ino (slot_at b (s * SIZEOF_DIRENT)) ≠ 0))).length

/-- The number of slots with `ino != 0` across the allocated data blocks
(`direct_ptr[i] != 0`) of a directory inode. -/
def dir_slots_in_use (d : Disk) (dir_inode : Mem) : Nat :=
  ((List.range NUM_DIRECT_PTRS).map
    (fun i =>
      if inode_direct_ptr dir_inode i ≠ 0 then
        match bio_read d (inode_direct_ptr dir_inode i) with
        | some b => block_slots_in_use b
        | none => 0
      else 0)).sum

/-- An object holding the bytes `l` from its start, and 0 after them. -/
def mem_of (l : List Nat) : Mem := fun i => l.getD i 0

/-- The globals and the disk after `rufs_mkfs`, with bitmap scans over `MAX_INUM`
and `MAX_DNUM` bits, at time 1000. -/
def fresh : Env × Disk := (rufs_mkfs MAX_INUM MAX_DNUM 1000).2

/-- The disk `fresh` after `rufs_create("/f")`. -/
def fresh_f : Disk := (rufs_create fresh.1 fresh.2 1001 0 0 [47, 102]).2

/-- The disk `fresh` after `rufs_mkdir("/a")`. -/
def fresh_a : Disk := (rufs_mkdir fresh.1 fresh.2 1001 0 0 [47, 97]).2

/-- The bytes of `"hello"`. -/
def hello : Mem := mem_of [104, 101, 108, 108, 111]

/-- The disk `fresh_f` after `rufs_write("/f", "hello", 5, 0)`. -/
def fresh_f_w1 : Disk := (rufs_write fresh.1 fresh_f 1002 [47, 102] hello 5 0).2

/-- The disk `fresh_f_w1` after `rufs_write("/f", "hello", 5, 10)`. -/
def fresh_f_w2 : Disk := (rufs_write fresh.1 fresh_f_w1 1003 [47, 102] hello 5 10).2

/-- The disk `fresh_a` after a second `rufs_mkdir("/a")`. -/
def fresh_a_a : Disk := (rufs_mkdir fresh.1 fresh_a 1002 0 0 [47, 97]).2

/-- The inode of a root directory that owns the 16 data blocks 67, ..., 82 and
counts 304 entries, as it lies in the inode table. -/
def full_root_inode : Mem := fun i =>
  if 16 ≤ i ∧ i < 80 then (if i % 4 = 0 then 67 + (i - 16) / 4 else 0)
  else set_inode_st_nlink (set_inode_link (set_u32 (set_inode_size (set_u16 zeros 2 1)
    (304 * SIZEOF_DIRENT)) 8 (S_IFDIR ||| 493)) 306) 306 i

/-- Data block number `k` of a full directory: 19 entries as `dir_add` writes them,
slot `s` with inode number `19 * k + s + 1`, a two-letter name and `len = 2`; the
30 bytes after the last slot are 0, but for the byte at offset 4070, which is
`tail`. -/
def full_block (k tail : Nat) : Mem := fun i =>
  if i < 19 * 214 then
    if i % 214 = 0 then (19 * k + i / 214 + 1) % 256
    else if i % 214 = 1 then (19 * k + i / 214 + 1) / 256
    else if i % 214 = 2 then 1
    else if i % 214 = 4 then 97 + k
    else if i % 214 = 5 then 97 + i / 214
    else if i % 214 = 212 then 2
    else 0
  else if i = 4070 then tail
  else 0

/-- A disk in the layout of `rufs_mkfs` whose root directory is full: 16 data blocks
of 19 entries each. -/
def full_disk (tail : Nat) : Disk := fun blk =>
  if blk = 1 then some (fun i => if i < 38 then 255 else if i = 38 then 1 else 0)
  else if blk = 2 then some (fun i => if i < 2 then 255 else 0)
  else if blk = 3 then some full_root_inode
  else if 67 ≤ blk ∧ blk < 83 then some (full_block (blk - 67) tail)
  else some zeros

/-- The return values of `n` consecutive calls of `get_avail_ino`, in order, and the
disk after the last call. -/
def get_avail_ino_times (c : Env) : Nat → Disk → List Int × Disk
  | 0, d => ([], d)
  | n + 1, d =>
    ((get_avail_ino c d).1 :: (get_avail_ino_times c n (get_avail_ino c d).2).1,
      (get_avail_ino_times c n (get_avail_ino c d).2).2)

/-- The return values of `n` consecutive calls of `get_avail_blkno`, in order, and
the disk after the last call. -/
def get_avail_blkno_times (c : Env) : Nat → Disk → List Int × Disk
  | 0, d => ([], d)
  | n + 1, d =>
    ((get_avail_blkno c d).1 :: (get_avail_blkno_times c n (get_avail_blkno c d).2).1,
      (get_avail_blkno_times c n (get_avail_blkno c d).2).2)

/-- The arithmetic by which `rufs_mkfs` places the data region, with the three
header constants `BLOCK_SIZE`, `sizeof(inode_t)` and `MAX_INUM` as arguments:
`inodes_in_block = BLOCK_SIZE / sizeof(inode_t)`,
`inode_table_size = MAX_INUM / inodes_in_block`, `inode_table_index = 3` and
`data_block_start = inode_table_size + inode_table_index`. -/
def mkfs_data_block_start (block_size sizeof_inode max_inum : Nat) : Nat :=
  let inodes_in_block := block_size / sizeof_inode
  let inode_table_size := max_inum / inodes_in_block
  let inode_table_index := 3
  inode_table_size + inode_table_index

/-- Field `i_bitmap_blk` of a superblock image (layout as for `superblock_image`). -/
def sb_i_bitmap_blk (sb : Mem) : Nat := get_u32 sb 8

/-- Field `d_bitmap_blk` of a superblock image (layout as for `superblock_image`). -/
def sb_d_bitmap_blk (sb : Mem) : Nat := get_u32 sb 12

/-- Field `i_start_blk` of a superblock image (layout as for `superblock_image`). -/
def sb_i_start_blk (sb : Mem) : Nat := get_u32 sb 16

/-- Field `d_start_blk` of a superblock image (layout as for `superblock_image`). -/
def sb_d_start_blk (sb : Mem) : Nat := get_u32 sb 20

/-- Block 0 as `rufs_mkfs` writes it. -/
def superblock_block : Mem :=
  extract (memcpy zeros 0 (superblock_image 1 2 3 67) 24) 0 BLOCK_SIZE

/-- A bitmap block with bit 0 set and every other bit clear. -/
def root_bitmap_block : Mem := extract (set_bitmap zeros 0) 0 BLOCK_SIZE

/-- The root inode as `rufs_mkfs` stores it, at time `now`. -/
def root_inode_stored (now : Nat) : Mem :=
  set_inode_direct_ptr (root_inode_image 0 now) 0 67

/-- The root's data block as `rufs_mkfs` writes it: the entries `"/"`, `"."` and
`".."` in slots 0, 1 and 2. -/
def root_dir_block : Mem :=
  extract
    (memcpy
      (memcpy (memcpy zeros 0 (res_dirent 0 [47] 1) SIZEOF_DIRENT)
        SIZEOF_DIRENT (res_dirent 0 [46] 1) SIZEOF_DIRENT)
      (2 * SIZEOF_DIRENT) (res_dirent 0 [46, 46] 2) SIZEOF_DIRENT)
    0 BLOCK_SIZE

/-- The disk that `rufs_mkfs` leaves at time `now`, block by block. -/
def formatted_disk (now : Nat) : Disk := fun blk =>
  if blk = 0 then some superblock_block
  else if blk = 1 then some root_bitmap_block
  else if blk = 2 then some root_bitmap_block
  else if blk = 3 then
    some (extract (memcpy zeros 0 (root_inode_stored now) SIZEOF_INODE) 0 BLOCK_SIZE)
  else if blk = 67 then some root_dir_block
  else some zeros

/-- A `struct stat` with every field that `rufs_getattr` assigns at 0. -/
def stat_zero : Stat :=
  { st_uid := 0, st_gid := 0, st_nlink := 0, st_size := 0, st_ctime := 0, st_atime := 0,
    st_mtime := 0, st_mode := 0 }

/-- The disk `fresh_a` after `rufs_mkdir("/b")`. -/
def fresh_ab : Disk := (rufs_mkdir fresh.1 fresh_a 1002 0 0 [47, 98]).2

/-- The disk `fresh_ab` after `rufs_mkdir("/c")`. -/
def fresh_abc : Disk := (rufs_mkdir fresh.1 fresh_ab 1003 0 0 [47, 99]).2

/-- The disk `fresh_abc` after `rufs_mkdir("/d")`. -/
def fresh_abcd : Disk := (rufs_mkdir fresh.1 fresh_abc 1004 0 0 [47, 100]).2

/-- The disk `fresh_abcd` after `rufs_mkdir("/e")`: the directories `/a`, ..., `/e`
have the inodes 1, ..., 5. -/
def fresh_abcde : Disk := (rufs_mkdir fresh.1 fresh_abcd 1005 0 0 [47, 101]).2

/-- The disk `fresh_abcde` after `rufs_mkdir("/e/f")`: `/e/f` has inode 6. -/
def fresh_e_f : Disk := (rufs_mkdir fresh.1 fresh_abcde 1006 0 0 [47, 101, 47, 102]).2

/-- The call `rufs_create("/e/f/g")` on the disk `fresh_e_f`. -/
def fresh_e_f_g : Option Int × Disk :=
  rufs_create fresh.1 fresh_e_f 1007 0 0 [47, 101, 47, 102, 47, 103]

/-- The call `rufs_mkdir("/e/f/b")` on the disk `fresh_e_f`. -/
def fresh_e_f_b : Option Int × Disk :=
  rufs_mkdir fresh.1 fresh_e_f 1007 0 0 [47, 101, 47, 102, 47, 98]

/-- The disk `fresh_a` after `rufs_rmdir("/a")`. -/
def fresh_a_rmdir : Int × Disk := rufs_rmdir fresh.1 fresh_a [47, 97]

/-- The call `rufs_unlink("/f")` on the disk `fresh_f_w1`, where `/f` has inode 1
and one data block. -/
def fresh_f_unlink : Int × Disk := rufs_unlink fresh_f_w1 [47, 102]

/-- A name of 208 bytes, each the letter `a`. -/
def name_208 : List Nat := List.replicate 208 97

/-- A name of 207 bytes, each the letter `a`. -/
def name_207 : List Nat := List.replicate 207 97

/-- The call `rufs_create` on the disk `fresh` for the path of `"/"` followed by
`name_208`. -/
def fresh_long : Option Int × Disk := rufs_create fresh.1 fresh.2 1001 0 0 (47 :: name_208)

/-- The call `rufs_create` on the disk `fresh` for the path of `"/"` followed by
`name_207`. -/
def fresh_207 : Option Int × Disk := rufs_create fresh.1 fresh.2 1001 0 0 (47 :: name_207)

/-- The disk `fresh` with the first 1024 bits of the inode bitmap set: the scan of
`get_avail_ino` finds no free bit. -/
def fresh_no_ino : Disk := fun blk =>
  if blk = 1 then some (fun i => if i < 128 then 255 else 0) else fresh.2 blk

/-- The call `rufs_create("/f")` on the disk `fresh_no_ino`. -/
def fresh_no_ino_f : Option Int × Disk := rufs_create fresh.1 fresh_no_ino 1001 0 0 [47, 102]

/-- The call `rufs_mkdir("/f")` on the disk `fresh_no_ino`. -/
def fresh_no_ino_mkdir : Option Int × Disk :=
  rufs_mkdir fresh.1 fresh_no_ino 1001 0 0 [47, 102]

/-- The call `dir_add(root, 1, "a", 1)` on the disk `fresh`, with the root inode as
`readi(0)` returns it. -/
def fresh_add_a : Option Int × Disk :=
  dir_add fresh.1 fresh.2 1001 ((readi fresh.1 fresh.2 0).getD zeros) 1 [97] 1

/-- The call `dir_add(dir, 2, "b", 1)` on the disk `fresh_a`, where `dir` is inode 1
(`/a`) as `readi(1)` returns it. -/
def fresh_a_add_b : Option Int × Disk :=
  dir_add fresh.1 fresh_a 1002 ((readi fresh.1 fresh_a 1).getD zeros) 2 [98] 1

/-- The call `dir_add(dir, 7, "g", 1)` on the disk `fresh_e_f`, where `dir` is inode
6 (`/e/f`) as `readi(6)` returns it. -/
def fresh_e_f_add_g : Option Int × Disk :=
  dir_add fresh.1 fresh_e_f 1007 ((readi fresh.1 fresh_e_f 6).getD zeros) 7 [103] 1

/-- An offset of `2 ^ 44` bytes: `2 ^ 32` blocks of 4096 bytes. -/
def offset_2_44 : Nat := 17592186044416

/-- The call `rufs_write("/f", "hello", 5, 2 ^ 44)` on the disk `fresh_f`. -/
def fresh_f_far : Int × Disk := rufs_write fresh.1 fresh_f 1002 [47, 102] hello 5 offset_2_44

/-- The calls `rufs_create(p)` for the paths `p` of a list, in order, all at time
`now`: the return values and the disk after the last call. -/
def rufs_create_times (c : Env) (now : Nat) : List (List Nat) → Disk → List (Option Int) × Disk
  | [], d => ([], d)
  | p :: ps, d =>
    let r := rufs_create c d now 0 0 p
    let rest := rufs_create_times c now ps r.2
    (r.1 :: rest.1, rest.2)

/-- The disk `fresh` after `rufs_create` of `/a`, `/b`, ..., `/i`: nine files with
the inodes 1, ..., 9. -/
def fresh_nine : List (Option Int) × Disk :=
  rufs_create_times fresh.1 1001
    [[47, 97], [47, 98], [47, 99], [47, 100], [47, 101], [47, 102], [47, 103], [47, 104],
      [47, 105]] fresh.2

/-- The call `rufs_create("/x")` after `fresh_nine`: `/x` gets inode 10. -/
def fresh_x : Option Int × Disk := rufs_create fresh.1 fresh_nine.2 1002 0 0 [47, 120]

/-- The call `rufs_mkdir("/y")` after `fresh_x`: `/y` gets inode 11. -/
def fresh_x_y : Option Int × Disk := rufs_mkdir fresh.1 fresh_x.2 1003 0 0 [47, 121]

/-- The call `rufs_create("/y/z")` after `fresh_x_y`. -/
def fresh_x_y_z : Option Int × Disk :=
  rufs_create fresh.1 fresh_x_y.2 1004 0 0 [47, 121, 47, 122]

/-- The call `rufs_write("/x", "hello", 5, 0)` after `fresh_x_y_z`. -/
def fresh_x_write : Int × Disk := rufs_write fresh.1 fresh_x_y_z.2 1005 [47, 120] hello 5 0

/-- The call `rufs_read("/x", buf, 5, 0)` after `fresh_x_write`, into a zeroed
buffer. -/
def fresh_x_read : Int × Mem := rufs_read fresh.1 fresh_x_write.2 [47, 120] zeros 5 0

/-! ## Loops -/

theorem loop_first_none_iff {α : Type} (body : Nat → Option α) (fuel : Nat) :
    ∀ i, loop_first body i fuel = none ↔ ∀ k, k < fuel → body (i + k) = none := by
  induction fuel with
  | zero => intro i; simp [loop_first]
  | succ n ih =>
    intro i
    cases hb : body i with
    | some r =>
      simp only [loop_first, hb]
      constructor
      · intro h; cases h
      · intro h
        have := h 0 (Nat.succ_pos n)
        simp [hb] at this
    | none =>
      simp only [loop_first, hb, ih (i + 1)]
      constructor
      · intro h k hk
        cases k with
        | zero => simpa using hb
        | succ k =>
          have := h k (by omega)
          rwa [show i + (k + 1) = i + 1 + k by omega]
      · intro h k hk
        have := h (k + 1) (by omega)
        rwa [show i + (k + 1) = i + 1 + k by omega] at this

theorem loop_first_some_iff {α : Type} (body : Nat → Option α) (fuel : Nat) (r : α) :
    ∀ i, loop_first body i fuel = some r ↔
      ∃ k, k < fuel ∧ body (i + k) = some r ∧ ∀ j, j < k → body (i + j) = none := by
  induction fuel with
  | zero => intro i; simp [loop_first]
  | succ n ih =>
    intro i
    cases hb : body i with
    | some x =>
      simp only [loop_first, hb]
      constructor
      · intro h
        refine ⟨0, Nat.succ_pos n, ?_, fun j hj => absurd hj (Nat.not_lt_zero j)⟩
        simpa [hb] using h
      · rintro ⟨k, _, hk, hlt⟩
        cases k with
        | zero => simpa [hb] using hk
        | succ k =>
          have := hlt 0 (Nat.succ_pos k)
          simp [hb] at this
    | none =>
      simp only [loop_first, hb, ih (i + 1)]
      constructor
      · rintro ⟨k, hk, hr, hlt⟩
        refine ⟨k + 1, by omega, ?_, ?_⟩
        · rwa [show i + (k + 1) = i + 1 + k by omega]
        · intro j hj
          cases j with
          | zero => simpa using hb
          | succ j =>
            have := hlt j (by omega)
            rwa [show i + (j + 1) = i + 1 + j by omega]
      · rintro ⟨k, hk, hr, hlt⟩
        cases k with
        | zero => simp [hb] at hr
        | succ k =>
          refine ⟨k, by omega, ?_, ?_⟩
          · rwa [show i + (k + 1) = i + 1 + k by omega] at hr
          · intro j hj
            have := hlt (j + 1) (by omega)
            rwa [show i + (j + 1) = i + 1 + j by omega] at this

theorem loop_first_congr {α : Type} (f g : Nat → Option α) (fuel : Nat) :
    ∀ i, (∀ k, k < fuel → f (i + k) = g (i + k)) → loop_first f i fuel = loop_first g i fuel := by
  induction fuel with
  | zero => intro i _; rfl
  | succ n ih =>
    intro i h
    have h0 : f i = g i := by simpa using h 0 (Nat.succ_pos n)
    rw [loop_first, loop_first, h0]
    cases g i with
    | some r => rfl
    | none =>
      apply ih
      intro k hk
      have := h (k + 1) (by omega)
      rwa [show i + (k + 1) = i + 1 + k by omega] at this

/-! ## Memory and the block device -/

theorem force_nat_eq {α : Type} (n : Nat) (k : Nat → α) : force_nat n k = k n := by
  cases n <;> rfl

theorem bio_read_nat (d : Disk) (n : Nat) :
    bio_read d (n : Int) = (d n).map (fun b => extract b 0 BLOCK_SIZE) := by
  show bio_read d (Int.ofNat n) = _
  simp only [bio_read, force_nat_eq]
  cases d n <;> rfl

theorem bio_write_nat (d : Disk) (n : Nat) (buf : Mem) :
    bio_write d (n : Int) buf =
      (d n).map (fun _ => Function.update d n (some (extract buf 0 BLOCK_SIZE))) := by
  show bio_write d (Int.ofNat n) buf = _
  simp only [bio_write, force_nat_eq]
  cases d n <;> rfl

theorem bio_read_neg (d : Disk) (blk : Int) (h : blk < 0) : bio_read d blk = none := by
  cases blk with
  | ofNat n => exact absurd h (by simp)
  | negSucc n => rfl

theorem bio_write_neg (d : Disk) (blk : Int) (buf : Mem) (h : blk < 0) :
    bio_write d blk buf = none := by
  cases blk with
  | ofNat n => exact absurd h (by simp)
  | negSucc n => rfl

theorem bio_read_of_some (d : Disk) (n : Nat) (b : Mem) (h : d n = some b) :
    bio_read d (n : Int) = some (extract b 0 BLOCK_SIZE) := by
  simp [bio_read_nat, h]

theorem bio_read_of_none (d : Disk) (n : Nat) (h : d n = none) :
    bio_read d (n : Int) = none := by
  simp [bio_read_nat, h]

theorem bio_write_of_some (d : Disk) (n : Nat) (b buf : Mem) (h : d n = some b) :
    bio_write d (n : Int) buf =
      some (Function.update d n (some (extract buf 0 BLOCK_SIZE))) := by
  simp [bio_write_nat, h]

theorem bio_write_of_none (d : Disk) (n : Nat) (buf : Mem) (h : d n = none) :
    bio_write d (n : Int) buf = none := by
  simp [bio_write_nat, h]

theorem extract_extract (m : Mem) (n : Nat) : extract (extract m 0 n) 0 n = extract m 0 n := by
  funext i
  simp only [extract]
  split <;> simp_all

/-! ## Bitmaps -/

theorem byte_lt (m : Mem) (o : Nat) : byte m o < 256 := Nat.mod_lt _ (by norm_num)

theorem byte_extract (m : Mem) (n o : Nat) (h : o < n) : byte (extract m 0 n) o = byte m o := by
  simp [byte, extract, h]

theorem get_bitmap_extract (m : Mem) (j : Nat) (h : j < 8 * BLOCK_SIZE) :
    get_bitmap (extract m 0 BLOCK_SIZE) j = get_bitmap m j := by
  unfold get_bitmap
  rw [byte_extract m BLOCK_SIZE (j / 8) (by omega)]

theorem byte_set_bitmap_same (b : Mem) (i : Nat) :
    byte (set_bitmap b i) (i / 8) = byte b (i / 8) ||| 2 ^ (i % 8) := by
  have h2 : (2 : Nat) ^ (i % 8) < 2 ^ 8 :=
    Nat.pow_lt_pow_right (by norm_num) (Nat.mod_lt _ (by norm_num))
  have h1 : byte b (i / 8) < 2 ^ 8 := byte_lt b (i / 8)
  have := Nat.or_lt_two_pow h1 h2
  simp only [byte, set_bitmap, if_true]
  exact Nat.mod_eq_of_lt this

theorem byte_set_bitmap_other (b : Mem) (i k : Nat) (h : k ≠ i / 8) :
    byte (set_bitmap b i) k = byte b k := by
  simp [byte, set_bitmap, h]

theorem get_bitmap_set_same (b : Mem) (i : Nat) : get_bitmap (set_bitmap b i) i = 1 := by
  unfold get_bitmap
  rw [byte_set_bitmap_same, Nat.testBit_or, Nat.testBit_two_pow_self]
  simp

theorem get_bitmap_set_other (b : Mem) (i j : Nat) (h : j ≠ i) :
    get_bitmap (set_bitmap b i) j = get_bitmap b j := by
  unfold get_bitmap
  by_cases hk : j / 8 = i / 8
  · rw [hk, byte_set_bitmap_same, Nat.testBit_or, Nat.testBit_two_pow]
    have : i % 8 ≠ j % 8 := by omega
    simp [this]
  · rw [byte_set_bitmap_other b i (j / 8) hk]

theorem get_bitmap_le_one (b : Mem) (i : Nat) : get_bitmap b i = 0 ∨ get_bitmap b i = 1 := by
  unfold get_bitmap
  split <;> simp

/-- The scan of both allocators over the buffer `buf`. -/
theorem scan_free_some (buf : Mem) (n i : Nat) :
    loop_first (fun i => if get_bitmap buf i = 0 then some i else none) 0 n = some i ↔
      i < n ∧ get_bitmap buf i = 0 ∧ ∀ j, j < i → get_bitmap buf j ≠ 0 := by
  rw [loop_first_some_iff]
  constructor
  · rintro ⟨k, hk, hr, hlt⟩
    simp only [Nat.zero_add] at hr hlt
    by_cases h0 : get_bitmap buf k = 0
    · simp only [h0, if_true, Option.some.injEq] at hr
      subst hr
      refine ⟨hk, h0, fun j hj hz => ?_⟩
      have := hlt j hj
      simp [hz] at this
    · simp [h0] at hr
  · rintro ⟨hi, h0, hlt⟩
    refine ⟨i, hi, by simp [h0], fun j hj => ?_⟩
    simp [hlt j hj]

theorem scan_free_none (buf : Mem) (n : Nat) :
    loop_first (fun i => if get_bitmap buf i = 0 then some i else none) 0 n = none ↔
      ∀ j, j < n → get_bitmap buf j ≠ 0 := by
  rw [loop_first_none_iff]
  constructor
  · intro h j hj hz
    have := h j hj
    simp [hz] at this
  · intro h j hj
    simp [h j hj]

/-! ## The inode allocator -/

theorem get_avail_ino_eq (c : Env) (d : Disk) (b : Mem) (hb : d c.i_bitmap_index = some b) :
    get_avail_ino c d =
      match loop_first (fun i => if get_bitmap (extract b 0 BLOCK_SIZE) i = 0 then some i else none)
          0 c.I_BITMAP_SIZE with
      | some i =>
        ((i : Int), Function.update d c.i_bitmap_index
          (some (extract (set_bitmap (extract b 0 BLOCK_SIZE) i) 0 BLOCK_SIZE)))
      | none => (-1, d) := by
  unfold get_avail_ino
  rw [bio_read_of_some d _ b hb]
  simp only
  cases loop_first (fun i => if get_bitmap (extract b 0 BLOCK_SIZE) i = 0 then some i else none)
      0 c.I_BITMAP_SIZE with
  | none => rfl
  | some i => simp only [bio_write_of_some d _ b _ hb]

/-- C10: with the inode bitmap block readable as `b` and the scanned range
`0 .. I_BITMAP_SIZE - 1` inside the block, `get_avail_ino` returns the lowest index
of the range whose bit is 0 in `b`; the bitmap block on disk then has that bit set
and every other bit as before, and no other block differs.  It returns -1 exactly
when no bit of the range is 0, and then the disk is the one it started from. -/
theorem get_avail_ino_lowest_free (c : Env) (d : Disk) (b : Mem)
    (hb : d c.i_bitmap_index = some b) (hsz : c.I_BITMAP_SIZE ≤ 8 * BLOCK_SIZE) :
    (∀ i, i < c.I_BITMAP_SIZE → get_bitmap b i = 0 → (∀ j, j < i → get_bitmap b j ≠ 0) →
        (get_avail_ino c d).1 = (i : Int) ∧
        ∃ b1, (get_avail_ino c d).2 c.i_bitmap_index = some b1 ∧
          get_bitmap b1 i = 1 ∧
          (∀ j, j < 8 * BLOCK_SIZE → j ≠ i → get_bitmap b1 j = get_bitmap b j) ∧
          ∀ blk, blk ≠ c.i_bitmap_index → (get_avail_ino c d).2 blk = d blk) ∧
    ((get_avail_ino c d).1 = -1 ↔ ∀ i, i < c.I_BITMAP_SIZE → get_bitmap b i ≠ 0) ∧
    ((get_avail_ino c d).1 = -1 → (get_avail_ino c d).2 = d) := by
  have hbits : ∀ j, j < c.I_BITMAP_SIZE →
      get_bitmap (extract b 0 BLOCK_SIZE) j = get_bitmap b j :=
    fun j hj => get_bitmap_extract b j (by omega)
  rw [get_avail_ino_eq c d b hb]
  cases hl : loop_first (fun i => if get_bitmap (extract b 0 BLOCK_SIZE) i = 0 then some i else none)
      0 c.I_BITMAP_SIZE with
  | none =>
    have hn := (scan_free_none _ _).1 hl
    refine ⟨?_, ?_, fun _ => rfl⟩
    · intro i hi h0 _
      exact absurd ((hbits i hi).trans h0) (hn i hi)
    · simp only [true_iff]
      intro i hi h0
      exact hn i hi ((hbits i hi).trans h0)
  | some i0 =>
    obtain ⟨hi0, hz0, hlt0⟩ := (scan_free_some _ _ _).1 hl
    refine ⟨?_, ?_, ?_⟩
    · intro i hi h0 hlt
      have hii : i = i0 := by
        rcases Nat.lt_trichotomy i i0 with h | h | h
        · exact absurd ((hbits i hi).trans h0) (hlt0 i h)
        · exact h
        · exact absurd ((hbits i0 hi0).symm.trans hz0) (hlt i0 h)
      subst hii
      refine ⟨rfl, _, Function.update_same _ _ _, ?_, ?_, ?_⟩
      · rw [get_bitmap_extract _ _ (by omega), get_bitmap_set_same]
      · intro j hj hne
        rw [get_bitmap_extract _ _ hj, get_bitmap_set_other _ _ _ hne, get_bitmap_extract _ _ hj]
      · intro blk hblk
        exact Function.update_noteq hblk _ _
    · constructor
      · intro h
        simp only at h
        omega
      · intro h
        exact absurd ((hbits i0 hi0).symm.trans hz0) (h i0 hi0)
    · intro h
      simp only at h
      omega

/-! ## Fields of byte images -/

theorem byte_set_u16_other (m : Mem) (o x k : Nat) (h : k < o ∨ o + 2 ≤ k) :
    byte (set_u16 m o x) k = byte m k := by
  unfold byte set_u16
  rw [if_neg (by omega), if_neg (by omega)]

theorem byte_set_u32_other (m : Mem) (o x k : Nat) (h : k < o ∨ o + 4 ≤ k) :
    byte (set_u32 m o x) k = byte m k := by
  unfold byte set_u32
  rw [if_neg (by omega), if_neg (by omega), if_neg (by omega), if_neg (by omega)]

theorem byte_set_u64_other (m : Mem) (o x k : Nat) (h : k < o ∨ o + 8 ≤ k) :
    byte (set_u64 m o x) k = byte m k := by
  unfold set_u64
  rw [byte_set_u32_other _ _ _ _ (by omega), byte_set_u32_other _ _ _ _ (by omega)]

theorem get_u32_set_u32_same (m : Mem) (o x : Nat) :
    get_u32 (set_u32 m o x) o = x % 4294967296 := by
  unfold get_u32 byte set_u32
  simp only [if_true, if_neg (show o + 1 ≠ o by omega), if_neg (show o + 2 ≠ o by omega),
    if_neg (show o + 3 ≠ o by omega), if_neg (show o + 2 ≠ o + 1 by omega),
    if_neg (show o + 3 ≠ o + 1 by omega), if_neg (show o + 3 ≠ o + 2 by omega)]
  omega

theorem get_u32_congr (m m1 : Mem) (o : Nat)
    (h : ∀ k, o ≤ k → k < o + 4 → byte m1 k = byte m k) : get_u32 m1 o = get_u32 m o := by
  unfold get_u32
  rw [h o (by omega) (by omega), h (o + 1) (by omega) (by omega),
    h (o + 2) (by omega) (by omega), h (o + 3) (by omega) (by omega)]

theorem get_u16_congr (m m1 : Mem) (o : Nat)
    (h : ∀ k, o ≤ k → k < o + 2 → byte m1 k = byte m k) : get_u16 m1 o = get_u16 m o := by
  unfold get_u16
  rw [h o (by omega) (by omega), h (o + 1) (by omega) (by omega)]

theorem byte_extract_lt (m : Mem) (off n k : Nat) (h : k < n) :
    byte (extract m off n) k = byte m (off + k) := by
  simp [byte, extract, h]

theorem to_int_to_u32 (x : Int) (h1 : -2147483648 ≤ x) (h2 : x < 2147483648) :
    to_int (to_u32 x % 4294967296) = x := by
  unfold to_int to_u32
  have hnn : (0 : Int) ≤ x % 4294967296 := Int.emod_nonneg _ (by norm_num)
  have hlt : x % 4294967296 < 4294967296 := Int.emod_lt_of_pos _ (by norm_num)
  have hcast : (((x % 4294967296).toNat : Nat) : Int) = x % 4294967296 := Int.toNat_of_nonneg hnn
  have hm : (x % 4294967296).toNat % 4294967296 = (x % 4294967296).toNat := by
    apply Nat.mod_eq_of_lt
    omega
  rw [hm, hm]
  split
  · omega
  · omega

theorem to_int_of_lt (x : Nat) (h : x < 2147483648) : to_int x = (x : Int) := by
  unfold to_int
  have hm : x % 4294967296 = x := Nat.mod_eq_of_lt (by omega)
  rw [hm, if_pos h]

/-! ### Fields of inode images -/

theorem inode_direct_ptr_congr (v v1 : Mem) (i : Nat)
    (h : ∀ k, 16 ≤ k → k < 80 → byte v1 k = byte v k) (hi : i < 16) :
    inode_direct_ptr v1 i = inode_direct_ptr v i := by
  unfold inode_direct_ptr
  rw [get_u32_congr v v1 _ (fun k h1 h2 => h k (by omega) (by omega))]

theorem inode_ino_congr (v v1 : Mem) (h : ∀ k, k < 2 → byte v1 k = byte v k) :
    inode_ino v1 = inode_ino v := by
  unfold inode_ino
  exact get_u16_congr v v1 0 (fun k _ h2 => h k (by omega))

theorem byte_rufs_write_update (t : Mem) (size now k : Nat) (h : k < 4 ∨ (8 ≤ k ∧ k < 160)) :
    byte (rufs_write_update t size now) k = byte t k := by
  unfold rufs_write_update set_inode_st_size set_inode_st_mtime set_inode_st_atime set_inode_size
    OFF_VSTAT
  simp only
  rw [byte_set_u64_other _ _ _ _ (by omega), byte_set_u64_other _ _ _ _ (by omega),
    byte_set_u64_other _ _ _ _ (by omega), byte_set_u32_other _ _ _ _ (by omega)]

theorem inode_direct_ptr_write_update (t : Mem) (size now i : Nat) (hi : i < 16) :
    inode_direct_ptr (rufs_write_update t size now) i = inode_direct_ptr t i :=
  inode_direct_ptr_congr _ _ i (fun k h1 h2 => byte_rufs_write_update t size now k (by omega)) hi

theorem inode_ino_write_update (t : Mem) (size now : Nat) :
    inode_ino (rufs_write_update t size now) = inode_ino t :=
  inode_ino_congr _ _ (fun k h => byte_rufs_write_update t size now k (by omega))

theorem inode_direct_ptr_extract (v : Mem) (i : Nat) (hi : i < 16) :
    inode_direct_ptr (extract v 0 SIZEOF_INODE) i = inode_direct_ptr v i :=
  inode_direct_ptr_congr _ _ i
    (fun k _ h2 => by
      rw [byte_extract_lt v 0 SIZEOF_INODE k (by unfold SIZEOF_INODE; omega), Nat.zero_add]) hi

theorem inode_ino_extract (v : Mem) : inode_ino (extract v 0 SIZEOF_INODE) = inode_ino v :=
  inode_ino_congr _ _
    (fun k h => by
      rw [byte_extract_lt v 0 SIZEOF_INODE k (by unfold SIZEOF_INODE; omega), Nat.zero_add])

theorem inode_direct_ptr_set_same (t : Mem) (i : Nat) (x : Int)
    (h1 : -2147483648 ≤ x) (h2 : x < 2147483648) :
    inode_direct_ptr (set_inode_direct_ptr t i x) i = x := by
  unfold inode_direct_ptr set_inode_direct_ptr
  rw [get_u32_set_u32_same]
  exact to_int_to_u32 x h1 h2

theorem inode_ino_set_direct_ptr (t : Mem) (i : Nat) (x : Int) :
    inode_ino (set_inode_direct_ptr t i x) = inode_ino t :=
  inode_ino_congr _ _ (fun k h => by
    unfold set_inode_direct_ptr
    exact byte_set_u32_other _ _ _ _ (by omega))

/-! ## Reading and writing inodes -/

/-- The block of the inode table that holds inode `ino`. -/
theorem readi_eq (c : Env) (d : Disk) (ino : Nat) :
    readi c d ino =
      (d (c.inode_table_index + ino / c.inodes_in_block)).map
        (fun b => extract (extract b 0 BLOCK_SIZE) (SIZEOF_INODE * (ino % c.inodes_in_block))
          SIZEOF_INODE) := by
  unfold readi
  simp only
  rw [bio_read_nat]
  cases d (c.inode_table_index + ino / c.inodes_in_block) <;> rfl

theorem writei_eq (c : Env) (d : Disk) (ino : Nat) (v : Mem) :
    writei c d ino v =
      (d (c.inode_table_index + ino / c.inodes_in_block)).map
        (fun b => Function.update d (c.inode_table_index + ino / c.inodes_in_block)
          (some (extract (memcpy (extract b 0 BLOCK_SIZE) (ino % c.inodes_in_block * SIZEOF_INODE)
            v SIZEOF_INODE) 0 BLOCK_SIZE))) := by
  unfold writei
  simp only
  simp only [bio_read_nat, bio_write_nat]
  cases hb : d (c.inode_table_index + ino / c.inodes_in_block) <;> simp [hb]

theorem writei_other_block (c : Env) (d d1 : Disk) (ino : Nat) (v : Mem)
    (h : writei c d ino v = some d1) (blk : Nat)
    (hblk : blk ≠ c.inode_table_index + ino / c.inodes_in_block) : d1 blk = d blk := by
  rw [writei_eq] at h
  cases hb : d (c.inode_table_index + ino / c.inodes_in_block) with
  | none => simp [hb] at h
  | some b =>
    simp only [hb, Option.map_some', Option.some.injEq] at h
    rw [← h]
    exact Function.update_noteq hblk _ _

theorem readi_writei_same (c : Env) (d d1 : Disk) (ino : Nat) (v : Mem)
    (hipb : 0 < c.inodes_in_block ∧ c.inodes_in_block ≤ 16)
    (h : writei c d ino v = some d1) : readi c d1 ino = some (extract v 0 SIZEOF_INODE) := by
  rw [writei_eq] at h
  cases hb : d (c.inode_table_index + ino / c.inodes_in_block) with
  | none => simp [hb] at h
  | some b =>
    simp only [hb, Option.map_some', Option.some.injEq] at h
    rw [readi_eq, ← h, Function.update_same]
    simp only [Option.map_some', Option.some.injEq]
    have hlt : ino % c.inodes_in_block < c.inodes_in_block := Nat.mod_lt _ hipb.1
    generalize ino % c.inodes_in_block = e at hlt
    funext k
    simp only [extract, memcpy, SIZEOF_INODE, BLOCK_SIZE, Nat.zero_add]
    split_ifs <;> first | rfl | omega | (congr 1; omega)

theorem readi_writei_other (c : Env) (d d1 : Disk) (ino ino1 : Nat) (v : Mem)
    (hipb : 0 < c.inodes_in_block ∧ c.inodes_in_block ≤ 16)
    (h : writei c d ino v = some d1) (hne : ino1 ≠ ino) : readi c d1 ino1 = readi c d ino1 := by
  by_cases hblk : c.inode_table_index + ino1 / c.inodes_in_block =
      c.inode_table_index + ino / c.inodes_in_block
  · rw [writei_eq] at h
    cases hb : d (c.inode_table_index + ino / c.inodes_in_block) with
    | none => simp [hb] at h
    | some b =>
      simp only [hb, Option.map_some', Option.some.injEq] at h
      rw [readi_eq, readi_eq, hblk, ← h, Function.update_same, hb]
      simp only [Option.map_some', Option.some.injEq]
      have hlt : ino % c.inodes_in_block < c.inodes_in_block := Nat.mod_lt _ hipb.1
      have hlt1 : ino1 % c.inodes_in_block < c.inodes_in_block := Nat.mod_lt _ hipb.1
      have hmod : ino1 % c.inodes_in_block ≠ ino % c.inodes_in_block := by
        intro hm
        apply hne
        have h1 := Nat.div_add_mod ino1 c.inodes_in_block
        have h2 := Nat.div_add_mod ino c.inodes_in_block
        have hd : ino1 / c.inodes_in_block = ino / c.inodes_in_block := by omega
        rw [← h1, ← h2, hd, hm]
      generalize ino % c.inodes_in_block = e at hlt hmod
      generalize ino1 % c.inodes_in_block = e1 at hlt1 hmod
      funext k
      simp only [extract, memcpy, SIZEOF_INODE, BLOCK_SIZE, Nat.zero_add]
      split_ifs <;> first | rfl | omega
  · rw [readi_eq, readi_eq, writei_other_block c d d1 ino v h _ hblk]

/-! ## Lookups that a write leaves alone -/

theorem dir_find_frame (c : Env) (d d1 : Disk) (v : Nat) (fname : List Nat) (name_len : Nat)
    (hi : readi c d1 v = readi c d v)
    (hb : ∀ tv, readi c d v = some tv → ∀ i, i < 16 →
      inode_direct_ptr tv i ≥ (c.data_block_start : Int) →
      bio_read d1 (inode_direct_ptr tv i) = bio_read d (inode_direct_ptr tv i)) :
    dir_find c d1 v fname name_len = dir_find c d v fname name_len := by
  unfold dir_find
  rw [hi]
  cases hr : readi c d v with
  | none => rfl
  | some tv =>
    simp only
    rw [loop_first_congr (dir_find_ptr c d1 tv fname name_len) (dir_find_ptr c d tv fname name_len)]
    intro k hk
    simp only [Nat.zero_add]
    unfold dir_find_ptr
    by_cases hge : inode_direct_ptr tv k ≥ (c.data_block_start : Int)
    · rw [if_pos hge, if_pos hge, hb tv hr k hk hge]
    · rw [if_neg hge, if_neg hge]

theorem walk_frame (c : Env) (d d1 : Disk) (parts : List (List Nat)) :
    ∀ start, (∀ v, v ∈ walk_dirs c d start parts → ∀ fname name_len,
        dir_find c d1 v fname name_len = dir_find c d v fname name_len) →
      walk c d1 start parts = walk c d start parts := by
  induction parts with
  | nil => intro start _; rfl
  | cons part rest ih =>
    intro start h
    have h0 := h start (by simp [walk_dirs]) part part.length
    simp only [walk, h0]
    cases hf : dir_find c d start part part.length with
    | none => rfl
    | some e =>
      simp only
      apply ih
      intro v hv
      apply h
      simp [walk_dirs, hf, hv]

theorem path_target_frame (c : Env) (d d1 : Disk) (path : List Nat)
    (h : ∀ v, v ∈ path_dirs c d path → ∀ fname name_len,
        dir_find c d1 v fname name_len = dir_find c d v fname name_len) :
    path_target c d1 path = path_target c d path := by
  unfold path_target
  unfold path_dirs at h
  by_cases h1 : (num_of_components path).1 = -1
  · rw [if_pos h1, if_pos h1]
  · rw [if_neg h1, if_neg h1]
    by_cases h0 : (num_of_components path).1 = 0
    · rw [if_pos h0, if_pos h0]
    · rw [if_neg h0, if_neg h0]
      rw [if_neg h1, if_neg h0] at h
      exact walk_frame c d d1 _ _ h

theorem get_node_by_path_eq (c : Env) (d : Disk) (path : List Nat) :
    get_node_by_path c d path (to_u16 c.root_inode) = (path_target c d path).bind (readi c d) := by
  unfold get_node_by_path path_target
  simp only
  by_cases h1 : (num_of_components path).1 = -1
  · rw [if_pos h1, if_pos h1]; rfl
  · rw [if_neg h1, if_neg h1]
    by_cases h0 : (num_of_components path).1 = 0
    · rw [if_pos h0, if_pos h0]; rfl
    · rw [if_neg h0, if_neg h0]
      cases walk c d (to_u16 c.root_inode) (num_of_components path).2 <;> rfl

/-- A loop that acts in one iteration only. -/
theorem loop_first_single {α : Type} (g : Nat → Option α) (k n : Nat) (hk : k < n) :
    loop_first (fun i => if i = k then g i else none) 0 n = g k := by
  cases hg : g k with
  | none =>
    rw [loop_first_none_iff]
    intro j _
    simp only [Nat.zero_add]
    by_cases hj : j = k
    · rw [if_pos hj, hj, hg]
    · rw [if_neg hj]
  | some r =>
    rw [loop_first_some_iff]
    refine ⟨k, hk, by simp [hg], fun j hj => ?_⟩
    simp only [Nat.zero_add]
    rw [if_neg (by omega)]

/-! ## The data-block allocator -/

theorem get_avail_blkno_eq (c : Env) (d : Disk) :
    get_avail_blkno c d =
      match d c.d_bitmap_index with
      | none => (-1, d)
      | some b =>
        match loop_first (fun i => if get_bitmap (extract b 0 BLOCK_SIZE) i = 0 then some i else none)
            0 c.D_BITMAP_SIZE with
        | some i =>
          ((i : Int) + (c.data_block_start : Int), Function.update d c.d_bitmap_index
            (some (extract (set_bitmap (extract b 0 BLOCK_SIZE) i) 0 BLOCK_SIZE)))
        | none => (-1, d) := by
  unfold get_avail_blkno
  simp only [bio_read_nat, bio_write_nat]
  cases hb : d c.d_bitmap_index with
  | none => rfl
  | some b => simp only [Option.map_some']

theorem get_avail_blkno_frame (c : Env) (d : Disk) (blk : Nat) (h : blk ≠ c.d_bitmap_index) :
    (get_avail_blkno c d).2 blk = d blk := by
  rw [get_avail_blkno_eq]
  cases d c.d_bitmap_index with
  | none => rfl
  | some b =>
    simp only
    cases loop_first (fun i => if get_bitmap (extract b 0 BLOCK_SIZE) i = 0 then some i else none)
      0 c.D_BITMAP_SIZE with
    | none => rfl
    | some i => exact Function.update_noteq h _ _

theorem get_avail_blkno_range (c : Env) (d : Disk) :
    (get_avail_blkno c d).1 = -1 ∨
      ∃ i0, i0 < c.D_BITMAP_SIZE ∧
        (get_avail_blkno c d).1 = (i0 : Int) + (c.data_block_start : Int) := by
  rw [get_avail_blkno_eq]
  cases d c.d_bitmap_index with
  | none => exact Or.inl rfl
  | some b =>
    simp only
    cases hl : loop_first
      (fun i => if get_bitmap (extract b 0 BLOCK_SIZE) i = 0 then some i else none)
      0 c.D_BITMAP_SIZE with
    | none => exact Or.inl rfl
    | some i => exact Or.inr ⟨i, ((scan_free_some _ _ _).1 hl).1, rfl⟩

/-! ## The shape of `rufs_write` and `rufs_read` -/

theorem rufs_write_block_eq (c : Env) (d : Disk) (now : Nat) (t : Mem) (i : Nat) (X : Mem)
    (n off : Nat) :
    rufs_write_block c d now t i X n off =
      match bio_read d (inode_direct_ptr t i) with
      | none => (-1, d)
      | some buff_mem =>
        match bio_write d (inode_direct_ptr t i)
            (memcpy buff_mem (off % BLOCK_SIZE) X (copy_count n)) with
        | none => (-1, d)
        | some d1 =>
          match writei c d1 (inode_ino (rufs_write_update t n now)) (rufs_write_update t n now) with
          | none => (-1, d1)
          | some d2 =>
            match writei c d2 (inode_ino (rufs_write_update t n now))
                (rufs_write_update t n now) with
            | none => (-1, d2)
            | some d3 => (to_int n, d3) := by
  unfold rufs_write_block
  cases bio_read d (inode_direct_ptr t i) with
  | none => rfl
  | some buff_mem =>
    simp only
    cases bio_write d (inode_direct_ptr t i) (memcpy buff_mem (off % BLOCK_SIZE) X (copy_count n)) with
    | none => rfl
    | some d1 =>
      simp only
      rw [show writei c d1 (inode_ino (rufs_write_update t n now)) (rufs_write_update t n now) =
        match bio_read d1
          ((c.inode_table_index + inode_ino (rufs_write_update t n now) / c.inodes_in_block : Nat) : Int) with
        | none => none
        | some buff_mem =>
          bio_write d1
            ((c.inode_table_index + inode_ino (rufs_write_update t n now) / c.inodes_in_block : Nat) : Int)
            (memcpy buff_mem (inode_ino (rufs_write_update t n now) % c.inodes_in_block * SIZEOF_INODE)
              (rufs_write_update t n now) SIZEOF_INODE) from rfl]
      cases bio_read d1
          ((c.inode_table_index + inode_ino (rufs_write_update t n now) / c.inodes_in_block : Nat) : Int) with
      | none => rfl
      | some inode_block =>
        simp only
        cases bio_write d1
            ((c.inode_table_index + inode_ino (rufs_write_update t n now) / c.inodes_in_block : Nat) : Int)
            (memcpy inode_block (inode_ino (rufs_write_update t n now) % c.inodes_in_block * SIZEOF_INODE)
              (rufs_write_update t n now) SIZEOF_INODE) with
        | none => rfl
        | some d2 =>
          simp only
          cases writei c d2 (inode_ino (rufs_write_update t n now)) (rufs_write_update t n now) <;> rfl

theorem to_int_block_index (off : Nat) (h : off / BLOCK_SIZE < 16) :
    to_int (off / BLOCK_SIZE) = ((off / BLOCK_SIZE : Nat) : Int) :=
  to_int_of_lt _ (by omega)

theorem rufs_write_eq (c : Env) (d : Disk) (now : Nat) (path : List Nat) (X : Mem) (n off : Nat)
    (t : Mem) (hoff : off / BLOCK_SIZE < 16)
    (ht : get_node_by_path c d path (to_u16 c.root_inode) = some t) :
    rufs_write c d now path X n off =
      if inode_direct_ptr t (off / BLOCK_SIZE) ≥ (c.data_block_start : Int) then
        rufs_write_block c d now t (off / BLOCK_SIZE) X n off
      else
        rufs_write_block c (get_avail_blkno c d).2 now
          (set_inode_direct_ptr t (off / BLOCK_SIZE) (get_avail_blkno c d).1)
          (off / BLOCK_SIZE) X n off := by
  unfold rufs_write
  rw [ht]
  simp only [to_int_block_index off hoff, Nat.cast_inj, NUM_DIRECT_PTRS]
  rw [loop_first_single _ _ _ hoff]
  by_cases h : inode_direct_ptr t (off / BLOCK_SIZE) ≥ (c.data_block_start : Int)
  · simp only [if_pos h]
  · simp only [if_neg h]

theorem rufs_read_eq (c : Env) (d : Disk) (path : List Nat) (Y : Mem) (n off : Nat)
    (t : Mem) (hoff : off / BLOCK_SIZE < 16)
    (ht : get_node_by_path c d path (to_u16 c.root_inode) = some t) :
    rufs_read c d path Y n off =
      if inode_direct_ptr t (off / BLOCK_SIZE) ≥ (c.data_block_start : Int) then
        match bio_read d (inode_direct_ptr t (off / BLOCK_SIZE)) with
        | none => (-1, Y)
        | some buff_mem =>
          (to_int n, memcpy Y 0 (fun k => buff_mem (off % BLOCK_SIZE + k)) (copy_count n))
      else (-1, Y) := by
  unfold rufs_read
  rw [ht]
  simp only [to_int_block_index off hoff, Nat.cast_inj, NUM_DIRECT_PTRS]
  rw [loop_first_single _ _ _ hoff]
  by_cases h : inode_direct_ptr t (off / BLOCK_SIZE) ≥ (c.data_block_start : Int)
  · simp only [if_pos h]
    cases bio_read d (inode_direct_ptr t (off / BLOCK_SIZE)) <;> rfl
  · simp only [if_neg h]

/-! ## Write, then read -/

theorem copy_count_ge (n : Nat) (h : n ≤ BLOCK_SIZE) : n ≤ copy_count n := by
  unfold copy_count
  unfold BLOCK_SIZE at *
  split <;> omega

theorem write_block_then_read (c : Env) (d d0 : Disk) (now : Nat) (path : List Nat) (X Y : Mem)
    (n off f : Nat) (t0 : Mem) (w : Int)
    (hn : off + n ≤ BLOCK_SIZE)
    (hipb : 0 < c.inodes_in_block ∧ c.inodes_in_block ≤ 16)
    (hbm : c.d_bitmap_index < c.inode_table_index)
    (hf : path_target c d path = some f)
    (hfblk : c.inode_table_index + f / c.inodes_in_block < c.data_block_start)
    (hsep : ∀ v, v ∈ path_dirs c d path → dir_apart c d f w v)
    (hagree : ∀ blk, blk ≠ c.d_bitmap_index → d0 blk = d blk)
    (hino : inode_ino t0 = f)
    (hptr : inode_direct_ptr t0 (off / BLOCK_SIZE) = w)
    (hwge : w ≥ (c.data_block_start : Int))
    (hs : 0 ≤ (rufs_write_block c d0 now t0 (off / BLOCK_SIZE) X n off).1) :
    (rufs_read c (rufs_write_block c d0 now t0 (off / BLOCK_SIZE) X n off).2 path Y n off).1
        = (n : Int) ∧
      ∀ k, k < n →
        (rufs_read c (rufs_write_block c d0 now t0 (off / BLOCK_SIZE) X n off).2 path Y n off).2 k
          = X k := by
  have hB : BLOCK_SIZE = 4096 := rfl
  have hoff : off / BLOCK_SIZE < 16 := by
    have : off / BLOCK_SIZE ≤ 1 := by
      rw [hB]; omega
    omega
  obtain ⟨wn, rfl⟩ := Int.eq_ofNat_of_zero_le (show (0 : Int) ≤ w by omega)
  have hwn : c.data_block_start ≤ wn := by exact_mod_cast hwge
  have hi1 : inode_ino (rufs_write_update t0 n now) = f := by
    rw [inode_ino_write_update, hino]
  have hfq := Nat.zero_le (f / c.inodes_in_block)
  rw [rufs_write_block_eq, hptr, hi1] at hs ⊢
  simp only [bio_read_nat, bio_write_nat] at hs ⊢
  cases hdw : d0 wn with
  | none => rw [hdw] at hs; simp at hs
  | some bw =>
    rw [hdw] at hs
    simp only [Option.map_some'] at hs ⊢
    cases hw1 : writei c (Function.update d0 wn
        (some (extract (memcpy (extract bw 0 BLOCK_SIZE) (off % BLOCK_SIZE) X (copy_count n))
          0 BLOCK_SIZE))) f (rufs_write_update t0 n now) with
    | none => simp [hw1] at hs
    | some d2 =>
      simp only [hw1] at hs ⊢
      cases hw2 : writei c d2 f (rufs_write_update t0 n now) with
      | none => simp [hw2] at hs
      | some d3 =>
        simp only [hw2]
        -- the disk `d3` against the disk `d`
        have hblk3 : ∀ blk, blk ≠ c.inode_table_index + f / c.inodes_in_block → blk ≠ wn →
            d3 blk = d0 blk := by
          intro blk h1 h2
          rw [writei_other_block c d2 d3 f _ hw2 blk h1, writei_other_block c _ d2 f _ hw1 blk h1]
          exact Function.update_noteq h2 _ _
        have hw3 : d3 wn = some (extract (memcpy (extract bw 0 BLOCK_SIZE) (off % BLOCK_SIZE) X
            (copy_count n)) 0 BLOCK_SIZE) := by
          rw [writei_other_block c d2 d3 f _ hw2 wn (by omega),
            writei_other_block c _ d2 f _ hw1 wn (by omega)]
          exact Function.update_same _ _ _
        have hrf : readi c d3 f = some (extract (rufs_write_update t0 n now) 0 SIZEOF_INODE) :=
          readi_writei_same c d2 d3 f _ hipb hw2
        have hrv : ∀ v, v ≠ f → c.inode_table_index + v / c.inodes_in_block < c.data_block_start →
            readi c d3 v = readi c d v := by
          intro v hv hvb
          have hvq := Nat.zero_le (v / c.inodes_in_block)
          rw [readi_writei_other c d2 d3 f v _ hipb hw2 hv,
            readi_writei_other c _ d2 f v _ hipb hw1 hv, readi_eq, readi_eq,
            Function.update_noteq (by omega), hagree _ (by omega)]
        have hdirs : ∀ v, v ∈ path_dirs c d path → ∀ fname name_len,
            dir_find c d3 v fname name_len = dir_find c d v fname name_len := by
          intro v hv fname name_len
          obtain ⟨hvf, hvb, hvp⟩ := hsep v hv
          apply dir_find_frame c d d3 v fname name_len (hrv v hvf hvb)
          intro tv htv i hi hge
          obtain ⟨pn, hpn⟩ := Int.eq_ofNat_of_zero_le
            (show (0 : Int) ≤ inode_direct_ptr tv i by omega)
          have hne : pn ≠ wn := by
            intro heq
            apply hvp i hi
            rw [htv, Option.map_some', hpn, heq]
          have hpge : c.data_block_start ≤ pn := by
            rw [hpn] at hge
            exact_mod_cast hge
          rw [hpn, bio_read_nat, bio_read_nat, hblk3 pn (by omega) hne, hagree pn (by omega)]
        have hpt : path_target c d3 path = some f := by
          rw [path_target_frame c d d3 path hdirs, hf]
        have hg : get_node_by_path c d3 path (to_u16 c.root_inode) =
            some (extract (rufs_write_update t0 n now) 0 SIZEOF_INODE) := by
          rw [get_node_by_path_eq, hpt, Option.some_bind, hrf]
        have hp3 : inode_direct_ptr (extract (rufs_write_update t0 n now) 0 SIZEOF_INODE)
            (off / BLOCK_SIZE) = (wn : Int) := by
          rw [inode_direct_ptr_extract _ _ hoff, inode_direct_ptr_write_update _ _ _ _ hoff, hptr]
        rw [rufs_read_eq c d3 path Y n off _ hoff hg, hp3, if_pos hwge, bio_read_nat, hw3]
        simp only [Option.map_some']
        refine ⟨to_int_of_lt n (by omega), ?_⟩
        intro k hk
        have hcc := copy_count_ge n (by omega)
        have hoffm : off % BLOCK_SIZE = off := Nat.mod_eq_of_lt (by omega)
        simp only [memcpy, extract, hoffm, Nat.zero_add, Nat.zero_le, true_and]
        rw [if_pos (by omega), if_pos (by omega), if_pos (by omega), if_pos (by omega)]
        congr 1
        omega

/-- Write, then read, on a disk whose inode table is intact: a write followed by a
read of the same single-block range returns the bytes written.  The path resolves to a file whose inode carries its own number and lies
in the inode table, and no directory searched on the way shares its inode or the
data block that the write fills; the bitmap block lies before the inode table, at
most 16 inodes share a block and block numbers fit a C `int`.  If `rufs_write` of
`n` bytes at `off`, with `off + n ≤ BLOCK_SIZE`, does not fail, then `rufs_read`
of `n` bytes at `off` afterwards returns `n` and the first `n` bytes of the
caller's buffer are those of the source. -/
theorem rufs_write_read_round_trip (c : Env) (d : Disk) (now : Nat) (path : List Nat)
    (X Y : Mem) (n off f : Nat) (t : Mem)
    (hn : off + n ≤ BLOCK_SIZE)
    (hipb : 0 < c.inodes_in_block ∧ c.inodes_in_block ≤ 16)
    (hbm : c.d_bitmap_index < c.inode_table_index)
    (hint : c.data_block_start + c.D_BITMAP_SIZE ≤ 2147483648)
    (hf : path_target c d path = some f)
    (ht : readi c d f = some t)
    (hino : inode_ino t = f)
    (hfblk : c.inode_table_index + f / c.inodes_in_block < c.data_block_start)
    (hsep : ∀ v, v ∈ path_dirs c d path → dir_apart c d f (write_block_no c d t off) v)
    (hw : 0 ≤ (rufs_write c d now path X n off).1) :
    (rufs_read c (rufs_write c d now path X n off).2 path Y n off).1 = (n : Int) ∧
      ∀ k, k < n → (rufs_read c (rufs_write c d now path X n off).2 path Y n off).2 k = X k := by
  have hoff : off / BLOCK_SIZE < 16 := by
    have : off / BLOCK_SIZE ≤ 1 := by
      rw [show BLOCK_SIZE = 4096 from rfl] at hn ⊢; omega
    omega
  have hg : get_node_by_path c d path (to_u16 c.root_inode) = some t := by
    rw [get_node_by_path_eq, hf, Option.some_bind, ht]
  rw [rufs_write_eq c d now path X n off t hoff hg] at hw ⊢
  unfold write_block_no at hsep
  by_cases hge : inode_direct_ptr t (off / BLOCK_SIZE) ≥ (c.data_block_start : Int)
  · rw [if_pos hge] at hw hsep ⊢
    exact write_block_then_read c d d now path X Y n off f t _ hn hipb hbm hf hfblk hsep
      (fun _ _ => rfl) hino rfl hge hw
  · rw [if_neg hge] at hw hsep ⊢
    rcases get_avail_blkno_range c d with hneg | ⟨i0, hi0, hblk⟩
    · rw [rufs_write_block_eq, inode_direct_ptr_set_same _ _ _ (by omega) (by omega),
        bio_read_neg _ _ (by omega)] at hw
      simp at hw
    · have hr1 : (-2147483648 : Int) ≤ (get_avail_blkno c d).1 := by omega
      have hr2 : (get_avail_blkno c d).1 < 2147483648 := by omega
      exact write_block_then_read c d (get_avail_blkno c d).2 now path X Y n off f _ _ hn hipb hbm
        hf hfblk hsep (fun blk hb => get_avail_blkno_frame c d blk hb)
        ((inode_ino_set_direct_ptr t _ _).trans hino)
        (inode_direct_ptr_set_same t _ _ hr1 hr2) (by omega) hw

theorem eq_some_getD {α : Type} (o : Option α) (x : α) (h : o.isSome = true) :
    o = some (o.getD x) := by
  cases o with
  | none => simp at h
  | some a => rfl

/-- The round trip at work: on the disk left by `rufs_mkfs` and `rufs_create("/f")`, the path
`"/f"` resolves to inode 1, writing `"hello"` (5 bytes at offset 0) does not fail,
and reading 5 bytes at offset 0 afterwards returns 5 and the bytes of `"hello"`. -/
theorem rufs_write_read_round_trip_witness :
    path_target fresh.1 fresh_f [47, 102] = some 1 ∧
      0 ≤ (rufs_write fresh.1 fresh_f 7 [47, 102] hello 5 0).1 ∧
      (rufs_read fresh.1 (rufs_write fresh.1 fresh_f 7 [47, 102] hello 5 0).2 [47, 102]
        zeros 5 0).1 = ((5 : Nat) : Int) ∧
      ∀ k, k < 5 →
        (rufs_read fresh.1 (rufs_write fresh.1 fresh_f 7 [47, 102] hello 5 0).2 [47, 102]
          zeros 5 0).2 k = hello k :=
  ⟨by decide!, by decide!,
    rufs_write_read_round_trip fresh.1 fresh_f 7 [47, 102] hello zeros 5 0 1
      ((readi fresh.1 fresh_f 1).getD zeros)
      (by decide) (by decide!) (by decide!) (by decide!) (by decide!)
      (eq_some_getD _ _ (by decide!)) (by decide!) (by decide!) (by decide!) (by decide!)⟩

/-- C10 at work: on the disk left by `rufs_mkfs`, whose inode bitmap has bit 0 set
and bit 1 clear, `get_avail_ino` returns 1. -/
theorem get_avail_ino_lowest_free_witness :
    (fresh.2 fresh.1.i_bitmap_index).isSome = true ∧
      fresh.1.I_BITMAP_SIZE ≤ 8 * BLOCK_SIZE ∧
      (get_avail_ino fresh.1 fresh.2).1 = 1 :=
  ⟨by decide!, by decide!,
    ((get_avail_ino_lowest_free fresh.1 fresh.2 ((fresh.2 fresh.1.i_bitmap_index).getD zeros)
      (eq_some_getD _ _ (by decide!)) (by decide!)).1 1 (by decide!) (by decide!)
      (by decide!)).1⟩

/-! ## Path resolution -/

theorem strtok_all_eq_go (path tok : List Nat) :
    strtok_all path tok =
      (List.splitOnP.go (fun x => x == 47) path tok).filter (fun part => part ≠ []) := by
  induction path generalizing tok with
  | nil =>
    simp only [strtok_all, List.splitOnP.go]
    by_cases h : tok = []
    · simp [h]
    · simp [h]
  | cons ch rest ih =>
    simp only [strtok_all, List.splitOnP.go]
    by_cases hc : ch = 47
    · by_cases h : tok = []
      · simp [hc, h, ih]
      · simp [hc, h, ih]
    · simp [hc, ih]

theorem strtok_all_eq_components (path : List Nat) : strtok_all path [] = path_components path :=
  strtok_all_eq_go path []

theorem walk_eq_lookup_fold (c : Env) (d : Disk) (parts : List (List Nat)) :
    ∀ start, walk c d start parts = lookup_fold c d start parts := by
  induction parts with
  | nil => intro start; rfl
  | cons part rest ih =>
    intro start
    simp only [walk, lookup_fold, List.foldlM_cons]
    cases dir_find c d start part part.length with
    | none => rfl
    | some e => exact ih (dirent_ino e)

/-- C5, as the claim has it, fails: the path `"//"` is not `"/"` and has no
non-empty component, so the fold of lookups is empty and the spec's resolution reads
the start inode, while `get_node_by_path` returns `EXIT_FAILURE`. -/
theorem get_node_by_path_no_component :
    get_node_by_path fresh.1 fresh.2 [47, 47] 0 = none ∧
      (resolve_spec fresh.1 fresh.2 [47, 47] 0).isSome = true := by
  constructor
  · rfl
  · decide!

/-- C5, amended: for a path that fits the 1024-byte copy made by
`num_of_components` (at most 1023 bytes), and with the global `root_inode` equal to
0, `get_node_by_path` returns the root inode for the path `"/"`; for a path with at
least one non-empty component
it is the fold of `dir_find` lookups over the components from the start inode,
followed by `readi` of the inode number of the last match, and so fails as soon as
one lookup misses; components `"."` and `".."` are looked up like any other.  For a
path other than `"/"` without a non-empty component it fails. -/
theorem get_node_by_path_fold (c : Env) (d : Disk) (path : List Nat) (start : Nat)
    (_hfit : path_fits path) (hroot : c.root_inode = 0) :
    (path = [47] ∨ path_components path ≠ [] →
        get_node_by_path c d path start = resolve_spec c d path start) ∧
      (path ≠ [47] → path_components path = [] → get_node_by_path c d path start = none) := by
  have h0 : to_u16 c.root_inode = 0 := by rw [hroot]; rfl
  constructor
  · intro h
    unfold get_node_by_path resolve_spec num_of_components
    by_cases hp : path = [47]
    · simp only [if_pos hp]
      simp [h0]
    · have hc : path_components path ≠ [] := h.resolve_left hp
      have hlen : (path_components path).length ≠ 0 := by
        intro hl
        exact hc (List.length_eq_zero.1 hl)
      simp only [if_neg hp, strtok_all_eq_components, if_neg hlen]
      have h1 : ¬ ((path_components path).length : Int) = -1 := by omega
      have h2 : ¬ ((path_components path).length : Int) = 0 := by omega
      rw [if_neg h1, if_neg h2, walk_eq_lookup_fold]
      cases lookup_fold c d start (path_components path) <;> rfl
  · intro hp hc
    unfold get_node_by_path num_of_components
    simp [hp, strtok_all_eq_components, hc]

/-- C5 at work: after `rufs_mkfs` and `rufs_mkdir("/a")` the global `root_inode` is
0, `"/a"` resolves as the fold of lookups does, to inode 1, and `"/a/.."` does not
resolve, since the new directory holds no entry of that name. -/
theorem get_node_by_path_fold_witness :
    path_fits [47, 97] ∧
    fresh.1.root_inode = 0 ∧
      get_node_by_path fresh.1 fresh_a [47, 97] 0 = resolve_spec fresh.1 fresh_a [47, 97] 0 ∧
      (get_node_by_path fresh.1 fresh_a [47, 97] 0).map inode_ino = some 1 ∧
      (get_node_by_path fresh.1 fresh_a [47, 97, 47, 46, 46] 0).isSome = false :=
  ⟨by decide, by decide!,
    (get_node_by_path_fold fresh.1 fresh_a [47, 97] 0 (by decide) (by decide!)).1
      (Or.inr (by decide!)),
    by decide!, by decide!⟩

/-! ## Where the code departs from the spec -/

/-- C2 on the code: after `create("/f")`, a write of 5 bytes at offset 0 and a write
of 5 bytes at offset 10, both of which return 5, the stored inode size is 10: the
code adds the byte count to the size, where the claim has `max(5, 10 + 5) = 15`. -/
theorem rufs_write_size_adds :
    (rufs_write fresh.1 fresh_f 1002 [47, 102] hello 5 0).1 = 5 ∧
      (rufs_write fresh.1 fresh_f_w1 1003 [47, 102] hello 5 10).1 = 5 ∧
      (readi fresh.1 fresh_f_w1 1).map inode_size = some 5 ∧
      (readi fresh.1 fresh_f_w2 1).map inode_size = some 10 := by
  decide!

/-- C3 on the code: a read of 5 bytes at offset 0 from the empty file `"/f"`, whose
`direct_ptr[0]` is unallocated, returns -1 where the claim has 0; and once the
block is allocated, a read of 200 bytes at offset 4000 returns 200 where the claim
has `min(200, 4096 - 4000) = 96`. -/
theorem rufs_read_return_values :
    (get_node_by_path fresh.1 fresh_f [47, 102] 0).map (fun v => inode_direct_ptr v 0) = some 0 ∧
      (rufs_read fresh.1 fresh_f [47, 102] zeros 5 0).1 = -1 ∧
      (rufs_read fresh.1 fresh_f_w1 [47, 102] zeros 200 4000).1 = 200 := by
  decide!

/-- C4 on the code: a write of 200 bytes at offset 4000 returns 200 where the claim
has `min(200, 4096 - 4000) = 96`, and a write of 0 bytes at offset 0 copies
`BLOCK_SIZE` bytes: byte 0 of the file's data block (block 68), `'h'` before, is
the byte found at the source address afterwards. -/
theorem rufs_write_past_the_range :
    (rufs_write fresh.1 fresh_f_w1 1003 [47, 102] hello 200 4000).1 = 200 ∧
      copy_count 0 = BLOCK_SIZE ∧
      (rufs_write fresh.1 fresh_f_w1 1003 [47, 102] zeros 0 0).1 = 0 ∧
      (fresh_f_w1 68).map (fun b => b 0) = some 104 ∧
      ((rufs_write fresh.1 fresh_f_w1 1003 [47, 102] zeros 0 0).2 68).map (fun b => b 0)
        = some 0 := by
  decide!

/-- The empty name, which no caller of `dir_find` passes: in a full root directory no
slot `0, ..., 18` of any block has `len = 0`, yet `dir_find` of the empty name
succeeds: the loop `j <= last` also
compares the 20th slot, which starts at offset 4066 and runs past the block. The
result hangs on the byte at offset 4070: with 1 there in every block the lookup
fails. -/
theorem dir_find_reads_slot_after_last :
    (∀ k, k < 16 → ∀ s, s < 19 → dirent_len (slot_at (full_block k 0) (s * SIZEOF_DIRENT)) = 2) ∧
      (dir_find fresh.1 (full_disk 0) 0 [] 0).isSome = true ∧
      (dir_find fresh.1 (full_disk 1) 0 [] 0).isSome = false := by
  decide!

/-- C7 on the code: the root directory after `mkdir("/a")` holds the entry `"a"`
for inode 1; `dir_add` of the name `"a"` for inode 2, on a snapshot of the root
inode read from that disk, returns `EXIT_SUCCESS`, and `dir_find` of `"a"` then
returns the entry of inode 1, not 2. -/
theorem dir_add_then_find_other_ino :
    (dir_add fresh.1 fresh_a 1002 ((readi fresh.1 fresh_a 0).getD zeros) 2 [97] 1).1
        = some EXIT_SUCCESS ∧
      (dir_find fresh.1
        (dir_add fresh.1 fresh_a 1002 ((readi fresh.1 fresh_a 0).getD zeros) 2 [97] 1).2
        0 [97] 1).map dirent_ino = some 1 := by
  decide!

/-- C8 on the code: `mkdir("/a")` after `mkdir("/a")` returns `EXIT_SUCCESS` (0) and
adds a second entry `"a"`, for inode 2, in slot 1 of the root's data block: the
test for a duplicate also asks for the same inode number. -/
theorem rufs_mkdir_twice_succeeds :
    (rufs_mkdir fresh.1 fresh.2 1001 0 0 [47, 97]).1 = some EXIT_SUCCESS ∧
      (rufs_mkdir fresh.1 fresh_a 1002 0 0 [47, 97]).1 = some EXIT_SUCCESS ∧
      (dir_find fresh.1 fresh_a 0 [97] 1).map dirent_ino = some 1 ∧
      (fresh_a 67).map (fun b => dirent_ino (slot_at b SIZEOF_DIRENT)) = some 0 ∧
      (fresh_a_a 67).map (fun b => dirent_ino (slot_at b SIZEOF_DIRENT)) = some 2 ∧
      (fresh_a_a 67).map (fun b => strcmp_eq (slot_at b SIZEOF_DIRENT) OFF_NAME [97])
        = some true := by
  decide!

/-- C9 on the code: for a root directory that holds `MAX_DIRENTS = 304` entries
(size `304 * 214`, all 16 direct pointers allocated, every slot taken), `dir_add` of
a new name passes the guard `size != MAX_DIRENTS`, finds no slot and no free
pointer, and reaches the end of the function without a `return` statement: it
returns no value, where the claim has the failure value. -/
theorem dir_add_full_directory_no_return :
    MAX_DIRENTS = 304 ∧
      (readi fresh.1 (full_disk 0) 0).map inode_size = some (304 * SIZEOF_DIRENT) ∧
      (dir_add fresh.1 (full_disk 0) 1002 ((readi fresh.1 (full_disk 0) 0).getD zeros)
        305 [122, 122] 2).1 = none := by
  decide!

/-! ## The allocators, continued -/

/-- C11: with the data bitmap block readable as `b` and the scanned range inside the
block, a call of `get_avail_blkno` that succeeds (does not return -1) returns
`i + data_block_start`, where `i` is the lowest index of the range whose bit is 0 in
`b`; bit `i` is set in the bitmap block on disk afterwards, and the result is at
least `data_block_start`.  The call succeeds exactly when some bit of the range is
0. -/
theorem get_avail_blkno_absolute (c : Env) (d : Disk) (b : Mem)
    (hb : d c.d_bitmap_index = some b) (hsz : c.D_BITMAP_SIZE ≤ 8 * BLOCK_SIZE) :
    ((get_avail_blkno c d).1 ≠ -1 →
        ∃ i, i < c.D_BITMAP_SIZE ∧ get_bitmap b i = 0 ∧ (∀ j, j < i → get_bitmap b j ≠ 0) ∧
          (get_avail_blkno c d).1 = (i : Int) + (c.data_block_start : Int) ∧
          (c.data_block_start : Int) ≤ (get_avail_blkno c d).1 ∧
          ∃ b1, (get_avail_blkno c d).2 c.d_bitmap_index = some b1 ∧ get_bitmap b1 i = 1) ∧
      ((get_avail_blkno c d).1 ≠ -1 ↔ ∃ i, i < c.D_BITMAP_SIZE ∧ get_bitmap b i = 0) := by
  have hbits : ∀ j, j < c.D_BITMAP_SIZE →
      get_bitmap (extract b 0 BLOCK_SIZE) j = get_bitmap b j :=
    fun j hj => get_bitmap_extract b j (by omega)
  rw [get_avail_blkno_eq, hb]
  simp only
  cases hl : loop_first (fun i => if get_bitmap (extract b 0 BLOCK_SIZE) i = 0 then some i else none)
      0 c.D_BITMAP_SIZE with
  | none =>
    have hn := (scan_free_none _ _).1 hl
    refine ⟨fun h => absurd rfl h, ?_⟩
    constructor
    · intro h; exact absurd rfl h
    · rintro ⟨i, hi, h0⟩
      exact absurd ((hbits i hi).trans h0) (hn i hi)
  | some i0 =>
    obtain ⟨hi0, hz0, hlt0⟩ := (scan_free_some _ _ _).1 hl
    have hz : get_bitmap b i0 = 0 := (hbits i0 hi0).symm.trans hz0
    have hne : ((i0 : Int) + (c.data_block_start : Int)) ≠ -1 := by omega
    refine ⟨fun _ => ⟨i0, hi0, hz, ?_, rfl, by simp only; omega, _, Function.update_same _ _ _, ?_⟩,
      ⟨fun _ => ⟨i0, hi0, hz⟩, fun _ => hne⟩⟩
    · intro j hj h0
      exact hlt0 j hj ((hbits j (by omega)).trans h0)
    · rw [get_bitmap_extract _ _ (by omega), get_bitmap_set_same]

/-- C11 at work: on the disk left by `rufs_mkfs`, whose data bitmap has bit 0 set
and bit 1 clear, `get_avail_blkno` returns `1 + 67 = 68`. -/
theorem get_avail_blkno_absolute_witness :
    (fresh.2 fresh.1.d_bitmap_index).isSome = true ∧
      fresh.1.D_BITMAP_SIZE ≤ 8 * BLOCK_SIZE ∧
      (get_avail_blkno fresh.1 fresh.2).1 = 68 ∧
      ∃ i, i < fresh.1.D_BITMAP_SIZE ∧
        (get_avail_blkno fresh.1 fresh.2).1 = (i : Int) + (fresh.1.data_block_start : Int) :=
  ⟨by decide!, by decide!, by decide!,
    (((get_avail_blkno_absolute fresh.1 fresh.2 ((fresh.2 fresh.1.d_bitmap_index).getD zeros)
      (eq_some_getD _ _ (by decide!)) (by decide!)).1 (by decide!)).imp
      fun _ h => ⟨h.1, h.2.2.2.1⟩)⟩

/-! ## The inode table -/

/-- C13: with between 1 and 16 inodes to a block, a `writei(ino, v)` that succeeds is
followed by a `readi(ino)` that succeeds and returns the 256 bytes of `v`; the
record lies in block `inode_table_index + ino / inodes_in_block` at byte offset
`(ino % inodes_in_block) * sizeof(inode_t)`. -/
theorem writei_readi_round_trip (c : Env) (d d1 : Disk) (ino : Nat) (v : Mem)
    (hipb : 0 < c.inodes_in_block ∧ c.inodes_in_block ≤ 16)
    (h : writei c d ino v = some d1) :
    (∃ r, readi c d1 ino = some r ∧ ∀ k, k < SIZEOF_INODE → r k = v k) ∧
      ∃ b, d1 (c.inode_table_index + ino / c.inodes_in_block) = some b ∧
        ∀ k, k < SIZEOF_INODE → b (ino % c.inodes_in_block * SIZEOF_INODE + k) = v k := by
  constructor
  · refine ⟨_, readi_writei_same c d d1 ino v hipb h, fun k hk => ?_⟩
    simp [extract, hk]
  · rw [writei_eq] at h
    cases hb : d (c.inode_table_index + ino / c.inodes_in_block) with
    | none => simp [hb] at h
    | some b =>
      simp only [hb, Option.map_some', Option.some.injEq] at h
      refine ⟨_, by rw [← h]; exact Function.update_same _ _ _, fun k hk => ?_⟩
      have hlt : ino % c.inodes_in_block < c.inodes_in_block := Nat.mod_lt _ hipb.1
      generalize ino % c.inodes_in_block = e at hlt
      simp only [extract, memcpy, SIZEOF_INODE, BLOCK_SIZE, Nat.zero_add] at hk ⊢
      rw [if_pos (by omega), if_pos ⟨by omega, by omega⟩]
      congr 1
      omega

/-- C13 at work: on the disk left by `rufs_mkfs`, 16 inodes share a block, `writei`
of an inode image for number 21 succeeds, and `readi(21)` returns its bytes, which
lie in block `3 + 21 / 16 = 4` from offset `(21 % 16) * 256 = 1280`. -/
theorem writei_readi_round_trip_witness :
    fresh.1.inodes_in_block = 16 ∧
      (writei fresh.1 fresh.2 21 (new_inode 21 S_IFREG 1 1001 0 0)).isSome = true ∧
      (∃ r, readi fresh.1
          ((writei fresh.1 fresh.2 21 (new_inode 21 S_IFREG 1 1001 0 0)).getD fresh.2) 21 = some r ∧
        ∀ k, k < SIZEOF_INODE → r k = new_inode 21 S_IFREG 1 1001 0 0 k) ∧
      ((((writei fresh.1 fresh.2 21 (new_inode 21 S_IFREG 1 1001 0 0)).getD fresh.2) 4).map
        (fun b => get_u16 b 1280)) = some 21 :=
  ⟨by decide!, by decide!,
    (writei_readi_round_trip fresh.1 fresh.2 _ 21 (new_inode 21 S_IFREG 1 1001 0 0)
      (by decide!) (eq_some_getD _ fresh.2 (by decide!))).1,
    by decide!⟩

/-- C14: with between 1 and 16 inodes to a block, a `writei(ino, v)` that succeeds
leaves `readi` of every other inode number as it was, and leaves every block other
than `inode_table_index + ino / inodes_in_block` as it was. -/
theorem writei_touches_one_record (c : Env) (d d1 : Disk) (ino : Nat) (v : Mem)
    (hipb : 0 < c.inodes_in_block ∧ c.inodes_in_block ≤ 16)
    (h : writei c d ino v = some d1) :
    (∀ ino1, ino1 ≠ ino → readi c d1 ino1 = readi c d ino1) ∧
      ∀ blk, blk ≠ c.inode_table_index + ino / c.inodes_in_block → d1 blk = d blk :=
  ⟨fun ino1 hne => readi_writei_other c d d1 ino ino1 v hipb h hne,
    fun blk hblk => writei_other_block c d d1 ino v h blk hblk⟩

/-- C14 at work: on the disk left by `rufs_mkfs` and `rufs_create("/f")`, `writei` of
a new image for inode 1 succeeds and `readi(0)`, the root inode in the same block,
is as before. -/
theorem writei_touches_one_record_witness :
    fresh.1.inodes_in_block = 16 ∧
      (writei fresh.1 fresh_f 1 (new_inode 1 S_IFREG 1 1005 0 0)).isSome = true ∧
      readi fresh.1 ((writei fresh.1 fresh_f 1 (new_inode 1 S_IFREG 1 1005 0 0)).getD fresh_f) 0
        = readi fresh.1 fresh_f 0 :=
  ⟨by decide!, by decide!,
    (writei_touches_one_record fresh.1 fresh_f _ 1 (new_inode 1 S_IFREG 1 1005 0 0)
      (by decide!) (eq_some_getD _ fresh_f (by decide!))).1 0 (by decide)⟩

/-! ## Running an allocator dry -/

theorem scan_free_at (b : Mem) (n k : Nat) (hn : n ≤ 8 * BLOCK_SIZE) (hk : k < n)
    (hlow : ∀ j, j < k → get_bitmap b j ≠ 0) (hz : get_bitmap b k = 0) :
    loop_first (fun i => if get_bitmap (extract b 0 BLOCK_SIZE) i = 0 then some i else none) 0 n
      = some k := by
  rw [scan_free_some]
  refine ⟨hk, ?_, fun j hj => ?_⟩
  · rw [get_bitmap_extract _ _ (by omega)]; exact hz
  · rw [get_bitmap_extract _ _ (by omega)]; exact hlow j hj

theorem scan_free_full (b : Mem) (n : Nat) (hn : n ≤ 8 * BLOCK_SIZE)
    (hfull : ∀ j, j < n → get_bitmap b j ≠ 0) :
    loop_first (fun i => if get_bitmap (extract b 0 BLOCK_SIZE) i = 0 then some i else none) 0 n
      = none := by
  rw [scan_free_none]
  intro j hj
  rw [get_bitmap_extract _ _ (by omega)]
  exact hfull j hj

theorem get_bitmap_after_set (b : Mem) (k j : Nat) (hj : j < 8 * BLOCK_SIZE) :
    get_bitmap (extract (set_bitmap (extract b 0 BLOCK_SIZE) k) 0 BLOCK_SIZE) j =
      if j = k then 1 else get_bitmap b j := by
  rw [get_bitmap_extract _ _ hj]
  by_cases h : j = k
  · rw [if_pos h, h, get_bitmap_set_same]
  · rw [if_neg h, get_bitmap_set_other _ _ _ h, get_bitmap_extract _ _ hj]

theorem get_avail_ino_times_run (c : Env) (hn : c.I_BITMAP_SIZE ≤ 8 * BLOCK_SIZE) (n : Nat) :
    ∀ (k : Nat) (d : Disk) (b : Mem), d c.i_bitmap_index = some b →
      (∀ j, j < k → get_bitmap b j ≠ 0) →
      (∀ j, k ≤ j → j < c.I_BITMAP_SIZE → get_bitmap b j = 0) →
      k + n ≤ c.I_BITMAP_SIZE →
      (get_avail_ino_times c n d).1 = (List.range' k n).map (fun (i : Nat) => (i : Int)) ∧
        ∃ b1, (get_avail_ino_times c n d).2 c.i_bitmap_index = some b1 ∧
          (∀ j, j < k + n → get_bitmap b1 j ≠ 0) ∧
          (∀ j, k + n ≤ j → j < c.I_BITMAP_SIZE → get_bitmap b1 j = 0) := by
  induction n with
  | zero =>
    intro k d b hb hlow hz _
    exact ⟨rfl, b, hb, hlow, hz⟩
  | succ n ih =>
    intro k d b hb hlow hz hkn
    have hstep : get_avail_ino c d = ((k : Int), Function.update d c.i_bitmap_index
        (some (extract (set_bitmap (extract b 0 BLOCK_SIZE) k) 0 BLOCK_SIZE))) := by
      rw [get_avail_ino_eq c d b hb,
        scan_free_at b _ k hn (by omega) hlow (hz k (Nat.le_refl k) (by omega))]
    have hnext := ih (k + 1) (get_avail_ino c d).2
      (extract (set_bitmap (extract b 0 BLOCK_SIZE) k) 0 BLOCK_SIZE)
      (by rw [hstep]; exact Function.update_same _ _ _)
      (by
        intro j hj
        rw [get_bitmap_after_set _ _ _ (by omega)]
        by_cases h : j = k
        · rw [if_pos h]; decide
        · rw [if_neg h]; exact hlow j (by omega))
      (by
        intro j hj1 hj2
        rw [get_bitmap_after_set _ _ _ (by omega), if_neg (by omega)]
        exact hz j (by omega) hj2)
      (by omega)
    obtain ⟨hl, b1, hb1, hlow1, hz1⟩ := hnext
    refine ⟨?_, b1, hb1, ?_, ?_⟩
    · simp only [get_avail_ino_times, hl, List.range', List.map_cons]
      rw [hstep]
    · intro j hj
      exact hlow1 j (by omega)
    · intro j hj1 hj2
      exact hz1 j (by omega) hj2

theorem get_avail_blkno_times_run (c : Env) (hn : c.D_BITMAP_SIZE ≤ 8 * BLOCK_SIZE) (n : Nat) :
    ∀ (k : Nat) (d : Disk) (b : Mem), d c.d_bitmap_index = some b →
      (∀ j, j < k → get_bitmap b j ≠ 0) →
      (∀ j, k ≤ j → j < c.D_BITMAP_SIZE → get_bitmap b j = 0) →
      k + n ≤ c.D_BITMAP_SIZE →
      (get_avail_blkno_times c n d).1 =
          (List.range' k n).map (fun (i : Nat) => (i : Int) + (c.data_block_start : Int)) ∧
        ∃ b1, (get_avail_blkno_times c n d).2 c.d_bitmap_index = some b1 ∧
          (∀ j, j < k + n → get_bitmap b1 j ≠ 0) ∧
          (∀ j, k + n ≤ j → j < c.D_BITMAP_SIZE → get_bitmap b1 j = 0) := by
  induction n with
  | zero =>
    intro k d b hb hlow hz _
    exact ⟨rfl, b, hb, hlow, hz⟩
  | succ n ih =>
    intro k d b hb hlow hz hkn
    have hstep : get_avail_blkno c d = ((k : Int) + (c.data_block_start : Int),
        Function.update d c.d_bitmap_index
          (some (extract (set_bitmap (extract b 0 BLOCK_SIZE) k) 0 BLOCK_SIZE))) := by
      rw [get_avail_blkno_eq c d, hb]
      simp only
      rw [scan_free_at b _ k hn (by omega) hlow (hz k (Nat.le_refl k) (by omega))]
    have hnext := ih (k + 1) (get_avail_blkno c d).2
      (extract (set_bitmap (extract b 0 BLOCK_SIZE) k) 0 BLOCK_SIZE)
      (by rw [hstep]; exact Function.update_same _ _ _)
      (by
        intro j hj
        rw [get_bitmap_after_set _ _ _ (by omega)]
        by_cases h : j = k
        · rw [if_pos h]; decide
        · rw [if_neg h]; exact hlow j (by omega))
      (by
        intro j hj1 hj2
        rw [get_bitmap_after_set _ _ _ (by omega), if_neg (by omega)]
        exact hz j (by omega) hj2)
      (by omega)
    obtain ⟨hl, b1, hb1, hlow1, hz1⟩ := hnext
    refine ⟨?_, b1, hb1, ?_, ?_⟩
    · simp only [get_avail_blkno_times, hl, List.range', List.map_cons]
      rw [hstep]
    · intro j hj
      exact hlow1 j (by omega)
    · intro j hj1 hj2
      exact hz1 j (by omega) hj2

/-- C12: with the scans bounded by `MAX_INUM` and `MAX_DNUM` and both bitmaps all
zero over these ranges, `MAX_INUM` consecutive calls of `get_avail_ino` return
`0, 1, ..., MAX_INUM - 1` and the next call returns -1; `MAX_DNUM` consecutive calls
of `get_avail_blkno` return `data_block_start + 0, ..., data_block_start + MAX_DNUM - 1`
and the next call returns -1. -/
theorem allocator_exhaustion (c : Env) (d : Disk) (bi bd : Mem)
    (hI : c.I_BITMAP_SIZE = MAX_INUM) (hD : c.D_BITMAP_SIZE = MAX_DNUM)
    (hbi : d c.i_bitmap_index = some bi) (hbd : d c.d_bitmap_index = some bd)
    (hzi : ∀ j, j < MAX_INUM → get_bitmap bi j = 0)
    (hzd : ∀ j, j < MAX_DNUM → get_bitmap bd j = 0) :
    (get_avail_ino_times c MAX_INUM d).1 = (List.range MAX_INUM).map (fun (i : Nat) => (i : Int)) ∧
      (get_avail_ino c (get_avail_ino_times c MAX_INUM d).2).1 = -1 ∧
      (get_avail_blkno_times c MAX_DNUM d).1 =
        (List.range MAX_DNUM).map (fun (i : Nat) => (i : Int) + (c.data_block_start : Int)) ∧
      (get_avail_blkno c (get_avail_blkno_times c MAX_DNUM d).2).1 = -1 := by
  have hni : c.I_BITMAP_SIZE ≤ 8 * BLOCK_SIZE := by rw [hI]; decide
  have hnd : c.D_BITMAP_SIZE ≤ 8 * BLOCK_SIZE := by rw [hD]; decide
  obtain ⟨hl1, b1, hb1, hfull1, _⟩ := get_avail_ino_times_run c hni MAX_INUM 0 d bi hbi
    (fun j hj => absurd hj (Nat.not_lt_zero j)) (fun j _ hj => hzi j (hI ▸ hj)) (by rw [hI]; omega)
  obtain ⟨hl2, b2, hb2, hfull2, _⟩ := get_avail_blkno_times_run c hnd MAX_DNUM 0 d bd hbd
    (fun j hj => absurd hj (Nat.not_lt_zero j)) (fun j _ hj => hzd j (hD ▸ hj)) (by rw [hD]; omega)
  refine ⟨by rw [hl1, List.range_eq_range'], ?_, by rw [hl2, List.range_eq_range'], ?_⟩
  · rw [get_avail_ino_eq c _ b1 hb1,
      scan_free_full b1 _ hni (fun j hj => hfull1 j (by rw [hI] at hj; omega))]
  · rw [get_avail_blkno_eq c _, hb2]
    simp only
    rw [scan_free_full b2 _ hnd (fun j hj => hfull2 j (by rw [hD] at hj; omega))]

theorem get_bitmap_zeros (j : Nat) : get_bitmap zeros j = 0 := by
  simp [get_bitmap, byte, zeros]

/-- C12 at work: on the zero-filled disk of `dev_init`, with the globals of
`rufs_mkfs` and scans over `MAX_INUM` and `MAX_DNUM` bits, the call of
`get_avail_ino` after `MAX_INUM` calls and the call of `get_avail_blkno` after
`MAX_DNUM` calls return -1. -/
theorem allocator_exhaustion_witness :
    (mkfs_env MAX_INUM MAX_DNUM 0).I_BITMAP_SIZE = MAX_INUM ∧
      (mkfs_env MAX_INUM MAX_DNUM 0).D_BITMAP_SIZE = MAX_DNUM ∧
      (get_avail_ino (mkfs_env MAX_INUM MAX_DNUM 0)
        (get_avail_ino_times (mkfs_env MAX_INUM MAX_DNUM 0) MAX_INUM dev_init).2).1 = -1 ∧
      (get_avail_blkno (mkfs_env MAX_INUM MAX_DNUM 0)
        (get_avail_blkno_times (mkfs_env MAX_INUM MAX_DNUM 0) MAX_DNUM dev_init).2).1 = -1 :=
  ⟨rfl, rfl,
    (allocator_exhaustion (mkfs_env MAX_INUM MAX_DNUM 0) dev_init zeros zeros rfl rfl rfl rfl
      (fun j _ => get_bitmap_zeros j) (fun j _ => get_bitmap_zeros j)).2.1,
    (allocator_exhaustion (mkfs_env MAX_INUM MAX_DNUM 0) dev_init zeros zeros rfl rfl rfl rfl
      (fun j _ => get_bitmap_zeros j) (fun j _ => get_bitmap_zeros j)).2.2.2⟩

/-! ## The disk after `rufs_mkfs` -/

theorem memcpy_zeros (n : Nat) : memcpy zeros 0 zeros n = zeros := by
  funext k
  simp only [memcpy, zeros]
  split <;> rfl

theorem extract_zeros (n : Nat) : extract zeros 0 n = zeros := by
  funext k
  simp only [extract, zeros]
  split <;> rfl

theorem scan_free_zeros (n : Nat) (hn : 0 < n) :
    loop_first (fun i => if get_bitmap zeros i = 0 then some i else none) 0 n = some 0 := by
  rw [scan_free_some]
  exact ⟨hn, get_bitmap_zeros 0, fun j hj => absurd hj (Nat.not_lt_zero j)⟩

theorem rufs_mkfs_eq (i_sz d_sz now : Nat) (hi : 0 < i_sz) (hd : 0 < d_sz) :
    rufs_mkfs i_sz d_sz now = (0, mkfs_env i_sz d_sz 0, formatted_disk now) := by
  have h67 : (mkfs_env i_sz d_sz 0).data_block_start = 67 := rfl
  have hino : get_avail_ino (mkfs_env i_sz d_sz 0)
      (Function.update (Function.update (Function.update dev_init 0 (some superblock_block))
        1 (some zeros)) 2 (some zeros)) =
      (0, Function.update (Function.update (Function.update (Function.update dev_init 0
        (some superblock_block)) 1 (some zeros)) 2 (some zeros)) 1 (some root_bitmap_block)) := by
    rw [get_avail_ino_eq _ _ zeros (by simp [mkfs_env, Function.update])]
    simp only [extract_zeros, mkfs_env]
    rw [scan_free_zeros i_sz hi]
    rfl
  have hblk : get_avail_blkno (mkfs_env i_sz d_sz 0)
      (Function.update (Function.update (Function.update (Function.update dev_init 0
        (some superblock_block)) 1 (some zeros)) 2 (some zeros)) 1 (some root_bitmap_block)) =
      (67, Function.update (Function.update (Function.update (Function.update (Function.update
        dev_init 0 (some superblock_block)) 1 (some zeros)) 2 (some zeros)) 1
        (some root_bitmap_block)) 2 (some root_bitmap_block)) := by
    rw [get_avail_blkno_eq]
    simp only [mkfs_env, Function.update, extract_zeros]
    simp only [show ¬ (2 = 1) by decide, dite_false, dite_true, eq_rec_constant, extract_zeros]
    rw [scan_free_zeros d_sz hd]
    rfl
  have hptr : inode_direct_ptr (set_inode_direct_ptr (root_inode_image 0 now) 0 67) 0 = 67 :=
    inode_direct_ptr_set_same _ _ _ (by decide) (by decide)
  unfold rufs_mkfs
  have h1 : bio_write dev_init 0 (memcpy zeros 0 (superblock_image 1 2 3 67) 24) =
      some (Function.update dev_init 0 (some superblock_block)) := by
    have h := bio_write_nat dev_init 0 (memcpy zeros 0 (superblock_image 1 2 3 67) 24)
    simp only [Nat.cast_zero] at h
    rw [h]; rfl
  have e1 : (mkfs_env i_sz d_sz 0).i_bitmap_index = 1 := rfl
  have e2 : (mkfs_env i_sz d_sz 0).d_bitmap_index = 2 := rfl
  have e3 : (mkfs_env i_sz d_sz 0).inode_table_index = 3 := rfl
  have h2 : (Function.update dev_init 0 (some superblock_block)) 1 = some zeros := by
    simp [Function.update, dev_init]
  have h3 : (Function.update (Function.update dev_init 0 (some superblock_block)) 1
      (some zeros)) 2 = some zeros := by
    simp [Function.update, dev_init]
  have h6 : (Function.update (Function.update (Function.update (Function.update
      (Function.update dev_init 0 (some superblock_block)) 1 (some zeros)) 2 (some zeros)) 1
      (some root_bitmap_block)) 2 (some root_bitmap_block)) 3 = some zeros := by
    simp [Function.update, dev_init]
  have h7 : (Function.update (Function.update (Function.update (Function.update (Function.update
      (Function.update dev_init 0 (some superblock_block)) 1 (some zeros)) 2 (some zeros)) 1
      (some root_bitmap_block)) 2 (some root_bitmap_block)) 3
      (some (extract (memcpy zeros 0 (set_inode_direct_ptr (root_inode_image 0 now) 0 67)
        SIZEOF_INODE) 0 BLOCK_SIZE))) 67 = some zeros := by
    simp [Function.update, dev_init]
  have h8 : ∀ (d : Disk) (buf : Mem), bio_write d 67 buf =
      (d 67).map (fun _ => Function.update d 67 (some (extract buf 0 BLOCK_SIZE))) :=
    fun d buf => bio_write_nat d 67 buf
  simp only [h67, h1, bio_write_nat, h8, e1, e2, e3, h2, h3, Option.map_some', memcpy_zeros,
    extract_zeros, hino, hblk, h6, hptr, h7]
  refine Prod.ext rfl (Prod.ext rfl ?_)
  funext blk
  simp only [formatted_disk, root_inode_stored, root_dir_block, Function.update, dev_init,
    eq_rec_constant, dite_eq_ite]
  split_ifs <;> first | rfl | omega

theorem byte_set_u32_congr (m m1 : Mem) (o x k : Nat) (h : byte m k = byte m1 k) :
    byte (set_u32 m o x) k = byte (set_u32 m1 o x) k := by
  unfold byte set_u32 at *
  split_ifs <;> first | rfl | exact h

theorem byte_root_inode_stored_low (now k : Nat) (hk : k < 112) :
    byte (root_inode_stored now) k = byte (root_inode_stored 0) k := by
  unfold root_inode_stored set_inode_direct_ptr
  apply byte_set_u32_congr
  simp only [root_inode_image, set_inode_st_nlink, set_inode_st_atime, set_inode_st_mtime,
    OFF_VSTAT]
  rw [byte_set_u64_other _ _ _ _ (by omega), byte_set_u64_other _ _ _ _ (by omega),
    byte_set_u64_other _ _ _ _ (by omega), byte_set_u64_other _ _ _ _ (by omega),
    byte_set_u64_other _ _ _ _ (by omega), byte_set_u64_other _ _ _ _ (by omega)]

theorem byte_root_read (now k : Nat) (hk : k < 112) :
    byte (extract (extract (extract (memcpy zeros 0 (root_inode_stored now) SIZEOF_INODE)
      0 BLOCK_SIZE) 0 BLOCK_SIZE) (SIZEOF_INODE * (0 % 16)) SIZEOF_INODE) k =
      byte (root_inode_stored 0) k := by
  have h1 : k < SIZEOF_INODE := by unfold SIZEOF_INODE; omega
  have h2 : k < BLOCK_SIZE := by unfold BLOCK_SIZE; omega
  rw [← byte_root_inode_stored_low now k hk]
  simp only [byte, extract, memcpy, h1, h2, if_true, Nat.zero_mod, Nat.mul_zero, Nat.zero_add,
    Nat.zero_le, true_and, Nat.sub_zero]

theorem readi_formatted (i_sz d_sz now : Nat) (r : Int) :
    readi (mkfs_env i_sz d_sz r) (formatted_disk now) 0 =
      some (extract (extract (extract (memcpy zeros 0 (root_inode_stored now) SIZEOF_INODE)
        0 BLOCK_SIZE) 0 BLOCK_SIZE) (SIZEOF_INODE * (0 % 16)) SIZEOF_INODE) := by
  rw [readi_eq]
  have h : formatted_disk now ((mkfs_env i_sz d_sz r).inode_table_index +
      0 / (mkfs_env i_sz d_sz r).inodes_in_block) =
      some (extract (memcpy zeros 0 (root_inode_stored now) SIZEOF_INODE) 0 BLOCK_SIZE) := by
    simp [formatted_disk, mkfs_env]
  rw [h]
  rfl

theorem get_bitmap_root_bitmap_block (j : Nat) (hj : j < 8 * BLOCK_SIZE) :
    get_bitmap root_bitmap_block j = if j = 0 then 1 else 0 := by
  unfold root_bitmap_block
  rw [get_bitmap_extract _ _ hj]
  by_cases h : j = 0
  · rw [if_pos h, h, get_bitmap_set_same]
  · rw [if_neg h, get_bitmap_set_other _ _ _ h, get_bitmap_zeros]

/-- C16: for every time of formatting and every positive pair of bitmap sizes, the
first `rufs_mkfs` returns 0 and sets the root inode number to 0; `readi(0)` then
succeeds with `valid = 1`, `type = S_IFDIR | 0755`, `link = 2`, `direct_ptr[0]`
equal to `data_block_start` (the superblock's `d_start_blk`) and
`direct_ptr[1..15] = 0`; and in each of the two bitmap blocks on disk bit 0 is set
and every other bit of the block is clear. -/
theorem rufs_mkfs_root_inode (i_sz d_sz now : Nat) (hi : 0 < i_sz) (hd : 0 < d_sz) :
    (rufs_mkfs i_sz d_sz now).1 = 0 ∧
    (rufs_mkfs i_sz d_sz now).2.1.root_inode = 0 ∧
    (∃ v, readi (rufs_mkfs i_sz d_sz now).2.1 (rufs_mkfs i_sz d_sz now).2.2 0 = some v ∧
      inode_valid v = 1 ∧ inode_type v = S_IFDIR ||| 493 ∧ inode_link v = 2 ∧
      inode_direct_ptr v 0 = ((rufs_mkfs i_sz d_sz now).2.1.data_block_start : Int) ∧
      (∃ sb, (rufs_mkfs i_sz d_sz now).2.2 0 = some sb ∧
        inode_direct_ptr v 0 = (sb_d_start_blk sb : Int)) ∧
      ∀ i, 1 ≤ i → i < NUM_DIRECT_PTRS → inode_direct_ptr v i = 0) ∧
    (∃ bi bd,
      (rufs_mkfs i_sz d_sz now).2.2 (rufs_mkfs i_sz d_sz now).2.1.i_bitmap_index = some bi ∧
      (rufs_mkfs i_sz d_sz now).2.2 (rufs_mkfs i_sz d_sz now).2.1.d_bitmap_index = some bd ∧
      ∀ j, j < 8 * BLOCK_SIZE →
        get_bitmap bi j = (if j = 0 then 1 else 0) ∧
        get_bitmap bd j = (if j = 0 then 1 else 0)) := by
  rw [rufs_mkfs_eq i_sz d_sz now hi hd]
  refine ⟨rfl, rfl, ⟨_, readi_formatted i_sz d_sz now 0, ?_, ?_, ?_, ?_, ?_, ?_⟩,
    ⟨root_bitmap_block, root_bitmap_block, rfl, rfl, fun j hj =>
      ⟨get_bitmap_root_bitmap_block j hj, get_bitmap_root_bitmap_block j hj⟩⟩⟩
  · unfold inode_valid
    rw [get_u16_congr (root_inode_stored 0) _ 2 (fun k _ h2 => byte_root_read now k (by omega))]
    decide!
  · unfold inode_type
    rw [get_u32_congr (root_inode_stored 0) _ 8 (fun k _ h2 => byte_root_read now k (by omega))]
    decide!
  · unfold inode_link
    rw [get_u32_congr (root_inode_stored 0) _ 12 (fun k _ h2 => byte_root_read now k (by omega))]
    decide!
  · rw [inode_direct_ptr_congr (root_inode_stored 0) _ 0
      (fun k _ h2 => byte_root_read now k (by omega)) (by decide)]
    show inode_direct_ptr (root_inode_stored 0) 0 = ((67 : Nat) : Int)
    decide!
  · refine ⟨superblock_block, rfl, ?_⟩
    rw [inode_direct_ptr_congr (root_inode_stored 0) _ 0
      (fun k _ h2 => byte_root_read now k (by omega)) (by decide)]
    show inode_direct_ptr (root_inode_stored 0) 0 = ((sb_d_start_blk superblock_block : Nat) : Int)
    decide!
  · intro i h1 h2
    rw [inode_direct_ptr_congr (root_inode_stored 0) _ i
      (fun k _ h2 => byte_root_read now k (by omega)) h2]
    have h3 : ∀ i, i < NUM_DIRECT_PTRS → 1 ≤ i → inode_direct_ptr (root_inode_stored 0) i = 0 := by
      decide!
    exact h3 i h2 h1

theorem rufs_mkfs_root_inode_witness :
    (rufs_mkfs MAX_INUM MAX_DNUM 1000).1 = 0 ∧
    (rufs_mkfs MAX_INUM MAX_DNUM 1000).2.1.root_inode = 0 ∧
    (∃ v, readi (rufs_mkfs MAX_INUM MAX_DNUM 1000).2.1 (rufs_mkfs MAX_INUM MAX_DNUM 1000).2.2 0 =
        some v ∧
      inode_valid v = 1 ∧ inode_type v = S_IFDIR ||| 493 ∧ inode_link v = 2 ∧
      inode_direct_ptr v 0 = ((rufs_mkfs MAX_INUM MAX_DNUM 1000).2.1.data_block_start : Int) ∧
      (∃ sb, (rufs_mkfs MAX_INUM MAX_DNUM 1000).2.2 0 = some sb ∧
        inode_direct_ptr v 0 = (sb_d_start_blk sb : Int)) ∧
      ∀ i, 1 ≤ i → i < NUM_DIRECT_PTRS → inode_direct_ptr v i = 0) ∧
    (∃ bi bd,
      (rufs_mkfs MAX_INUM MAX_DNUM 1000).2.2
        (rufs_mkfs MAX_INUM MAX_DNUM 1000).2.1.i_bitmap_index = some bi ∧
      (rufs_mkfs MAX_INUM MAX_DNUM 1000).2.2
        (rufs_mkfs MAX_INUM MAX_DNUM 1000).2.1.d_bitmap_index = some bd ∧
      ∀ j, j < 8 * BLOCK_SIZE →
        get_bitmap bi j = (if j = 0 then 1 else 0) ∧
        get_bitmap bd j = (if j = 0 then 1 else 0)) :=
  rufs_mkfs_root_inode MAX_INUM MAX_DNUM 1000 (by decide) (by decide)

theorem mkfs_data_block_start_exact (s q t : Nat) (hs : 0 < s) (hq : 0 < q) :
    mkfs_data_block_start (s * q) s (q * t) = 3 + (q * t * s + s * q - 1) / (s * q) ∧
    mkfs_data_block_start (s * q) s (q * t) = t + 3 := by
  have h1 : s * q / s = q := Nat.mul_div_cancel_left q hs
  have h2 : q * t / q = t := Nat.mul_div_cancel_left t hq
  have h3 : mkfs_data_block_start (s * q) s (q * t) = t + 3 := by
    unfold mkfs_data_block_start
    simp only [h1, h2]
  have hN : 0 < s * q := Nat.mul_pos hs hq
  have h4 : (q * t * s + s * q - 1) / (s * q) = t := by
    have e : q * t * s = t * (s * q) := by ring
    rw [e]
    apply Nat.div_eq_of_lt_le
    · omega
    · have e2 : (t + 1) * (s * q) = t * (s * q) + s * q := by ring
      rw [e2]
      omega
  exact ⟨by rw [h3, h4, Nat.add_comm], h3⟩

/-- C15, as the code has it: when the inode record size `s` divides the block size
`B` and the number `B / s` of inodes in a block divides `max_inum > 0`, the layout
arithmetic of `rufs_mkfs` gives `d_start_blk = 3 + ceil(max_inum * s / B)`, with
`3 < d_start_blk` and an inode table of `d_start_blk - 3` blocks that holds
`max_inum` inodes; and with the reference values, after a `rufs_mkfs` with positive
bitmap sizes, the superblock in block 0 has `i_bitmap_blk = 1`, `d_bitmap_blk = 2`,
`i_start_blk = 3` and that `d_start_blk`, so that
`0 < i_bitmap_blk < d_bitmap_blk < i_start_blk < d_start_blk`. -/
theorem rufs_mkfs_layout (B s m i_sz d_sz now : Nat) (hs : 0 < s) (hB : 0 < B) (hsB : s ∣ B)
    (hm0 : 0 < m) (hm : (B / s) ∣ m) (hi : 0 < i_sz) (hd : 0 < d_sz) :
    (mkfs_data_block_start B s m = 3 + (m * s + B - 1) / B ∧
      3 < mkfs_data_block_start B s m ∧
      m ≤ (mkfs_data_block_start B s m - 3) * (B / s)) ∧
    (rufs_mkfs i_sz d_sz now).2.1.data_block_start =
      mkfs_data_block_start BLOCK_SIZE SIZEOF_INODE MAX_INUM ∧
    ∃ sb, (rufs_mkfs i_sz d_sz now).2.2 0 = some sb ∧
      sb_i_bitmap_blk sb = 1 ∧ sb_d_bitmap_blk sb = 2 ∧ sb_i_start_blk sb = 3 ∧
      sb_d_start_blk sb = mkfs_data_block_start BLOCK_SIZE SIZEOF_INODE MAX_INUM ∧
      0 < sb_i_bitmap_blk sb ∧ sb_i_bitmap_blk sb < sb_d_bitmap_blk sb ∧
      sb_d_bitmap_blk sb < sb_i_start_blk sb ∧ sb_i_start_blk sb < sb_d_start_blk sb := by
  refine ⟨?_, ?_, ?_⟩
  · obtain ⟨q, rfl⟩ := hsB
    have hq : 0 < q := Nat.pos_of_mul_pos_left hB
    rw [Nat.mul_div_cancel_left q hs] at hm
    obtain ⟨t, rfl⟩ := hm
    have ht : 0 < t := Nat.pos_of_mul_pos_left hm0
    obtain ⟨h1, h2⟩ := mkfs_data_block_start_exact s q t hs hq
    refine ⟨h1, by omega, ?_⟩
    rw [h2, Nat.mul_div_cancel_left q hs, Nat.add_sub_cancel, Nat.mul_comm]
  · rw [rufs_mkfs_eq i_sz d_sz now hi hd]
    rfl
  · rw [rufs_mkfs_eq i_sz d_sz now hi hd]
    refine ⟨superblock_block, rfl, ?_⟩
    decide!

theorem rufs_mkfs_layout_witness :
    (mkfs_data_block_start 4096 256 1024 = 3 + (1024 * 256 + 4096 - 1) / 4096 ∧
      3 < mkfs_data_block_start 4096 256 1024 ∧
      1024 ≤ (mkfs_data_block_start 4096 256 1024 - 3) * (4096 / 256)) ∧
    (rufs_mkfs MAX_INUM MAX_DNUM 1000).2.1.data_block_start =
      mkfs_data_block_start BLOCK_SIZE SIZEOF_INODE MAX_INUM ∧
    ∃ sb, (rufs_mkfs MAX_INUM MAX_DNUM 1000).2.2 0 = some sb ∧
      sb_i_bitmap_blk sb = 1 ∧ sb_d_bitmap_blk sb = 2 ∧ sb_i_start_blk sb = 3 ∧
      sb_d_start_blk sb = mkfs_data_block_start BLOCK_SIZE SIZEOF_INODE MAX_INUM ∧
      0 < sb_i_bitmap_blk sb ∧ sb_i_bitmap_blk sb < sb_d_bitmap_blk sb ∧
      sb_d_bitmap_blk sb < sb_i_start_blk sb ∧ sb_i_start_blk sb < sb_d_start_blk sb :=
  rufs_mkfs_layout 4096 256 1024 MAX_INUM MAX_DNUM 1000 (by decide) (by decide) ⟨16, rfl⟩
    (by decide) ⟨64, rfl⟩ (by decide) (by decide)

/-- C15 refuted as stated: with `B = 4096`, `s = 256` and `max_inum = 1000` the
layout arithmetic of `rufs_mkfs` gives `d_start_blk = 65`, not
`3 + ceil(1000 * 256 / 4096) = 66`, and the 62 blocks of the inode table hold 992
inodes, fewer than `max_inum`. -/
theorem mkfs_data_block_start_rounds_down :
    mkfs_data_block_start 4096 256 1000 = 65 ∧
    3 + (1000 * 256 + 4096 - 1) / 4096 = 66 ∧
    (mkfs_data_block_start 4096 256 1000 - 3) * (4096 / 256) = 992 ∧
    (mkfs_data_block_start 4096 256 1000 - 3) * (4096 / 256) < 1000 := by
  decide

/-! ## The root directory after `rufs_mkfs` -/

theorem readdir_ptrs_first (c : Env) (d : Disk) (v blk : Mem) (i fuel : Nat)
    (names names1 : List (List Nat))
    (h1 : inode_direct_ptr v i ≥ (c.data_block_start : Int))
    (h2 : bio_read d (inode_direct_ptr v i) = some blk)
    (h3 : readdir_block blk 0 (MAX_DIRENTS_IN_BLOCK + 1) names = (true, names1)) :
    readdir_ptrs c d v i (fuel + 1) names = (EXIT_SUCCESS, names1) := by
  rw [readdir_ptrs, if_pos h1, h2]
  simp only [h3]

theorem dir_find_first (c : Env) (d : Disk) (ino : Nat) (fname : List Nat) (name_len : Nat)
    (v blk e : Mem) (hr : readi c d ino = some v)
    (h1 : inode_direct_ptr v 0 ≥ (c.data_block_start : Int))
    (h2 : bio_read d (inode_direct_ptr v 0) = some blk)
    (h3 : dir_find_block blk fname name_len = some e) :
    dir_find c d ino fname name_len = some e := by
  unfold dir_find
  rw [hr]
  have h4 : dir_find_ptr c d v fname name_len 0 = some (some e) := by
    unfold dir_find_ptr
    rw [if_pos h1, h2]
    simp only [h3]
  have h5 : loop_first (dir_find_ptr c d v fname name_len) 0 (15 + 1) = some (some e) := by
    rw [loop_first, h4]
  exact (by rw [h5] : (match loop_first (dir_find_ptr c d v fname name_len) 0 (15 + 1) with
    | some r => r
    | none => none) = some e)

theorem root_ptr_formatted (now : Nat) :
    inode_direct_ptr (extract (extract (extract (memcpy zeros 0 (root_inode_stored now)
      SIZEOF_INODE) 0 BLOCK_SIZE) 0 BLOCK_SIZE) (SIZEOF_INODE * (0 % 16)) SIZEOF_INODE) 0 =
      ((67 : Nat) : Int) := by
  rw [inode_direct_ptr_congr (root_inode_stored 0) _ 0
    (fun k _ h2 => byte_root_read now k (by omega)) (by decide)]
  decide!

theorem bio_read_formatted_root (now : Nat) :
    bio_read (formatted_disk now) ((67 : Nat) : Int) = some (extract root_dir_block 0 BLOCK_SIZE) := by
  rw [bio_read_nat]
  rfl

theorem dir_find_formatted (i_sz d_sz now : Nat) (fname : List Nat) (name_len : Nat)
    (h : (dir_find_block (extract root_dir_block 0 BLOCK_SIZE) fname name_len).map dirent_ino =
      some 0) :
    (dir_find (mkfs_env i_sz d_sz 0) (formatted_disk now) 0 fname name_len).map dirent_ino =
      some 0 := by
  cases h3 : dir_find_block (extract root_dir_block 0 BLOCK_SIZE) fname name_len with
  | none => rw [h3] at h; simp at h
  | some e =>
    rw [h3] at h
    rw [dir_find_first _ _ 0 fname name_len _ _ e (readi_formatted i_sz d_sz now 0)
      (by rw [root_ptr_formatted]; exact le_refl _)
      (by rw [root_ptr_formatted]; exact bio_read_formatted_root now) h3]
    exact h

/-- C17: for every time of formatting and every positive pair of bitmap sizes, after
the first `rufs_mkfs` the root directory's data block (block `data_block_start`)
holds the entries `"/"`, `"."` and `".."` in slots 0, 1 and 2, each valid, with
ino 0 and the length of its name, and every byte of the block after slot 2 is 0;
`rufs_readdir("/")` returns 0 and passes the `filler` exactly `"/"`, `"."`, `".."`
in that order; `dir_find(0, ".")` and `dir_find(0, "..")` succeed with ino 0. -/
theorem rufs_mkfs_root_directory (i_sz d_sz now : Nat) (hi : 0 < i_sz) (hd : 0 < d_sz) :
    (∃ blk, (rufs_mkfs i_sz d_sz now).2.2 (rufs_mkfs i_sz d_sz now).2.1.data_block_start =
        some blk ∧
      (dirent_ino (slot_at blk 0) = 0 ∧ dirent_valid (slot_at blk 0) = 1 ∧
        dirent_len (slot_at blk 0) = 1 ∧
        c_string (slot_at blk 0) OFF_NAME NAME_MAX_LEN = [47]) ∧
      (dirent_ino (slot_at blk SIZEOF_DIRENT) = 0 ∧ dirent_valid (slot_at blk SIZEOF_DIRENT) = 1 ∧
        dirent_len (slot_at blk SIZEOF_DIRENT) = 1 ∧
        c_string (slot_at blk SIZEOF_DIRENT) OFF_NAME NAME_MAX_LEN = [46]) ∧
      (dirent_ino (slot_at blk (2 * SIZEOF_DIRENT)) = 0 ∧
        dirent_valid (slot_at blk (2 * SIZEOF_DIRENT)) = 1 ∧
        dirent_len (slot_at blk (2 * SIZEOF_DIRENT)) = 2 ∧
        c_string (slot_at blk (2 * SIZEOF_DIRENT)) OFF_NAME NAME_MAX_LEN = [46, 46]) ∧
      ∀ k, k < BLOCK_SIZE → 3 * SIZEOF_DIRENT ≤ k → byte blk k = 0) ∧
    rufs_readdir (rufs_mkfs i_sz d_sz now).2.1 (rufs_mkfs i_sz d_sz now).2.2 [47] =
      (0, [[47], [46], [46, 46]]) ∧
    (dir_find (rufs_mkfs i_sz d_sz now).2.1 (rufs_mkfs i_sz d_sz now).2.2 0 [46] 1).map
      dirent_ino = some 0 ∧
    (dir_find (rufs_mkfs i_sz d_sz now).2.1 (rufs_mkfs i_sz d_sz now).2.2 0 [46, 46] 2).map
      dirent_ino = some 0 := by
  rw [rufs_mkfs_eq i_sz d_sz now hi hd]
  refine ⟨⟨root_dir_block, rfl, by decide!, by decide!, by decide!, by decide!⟩, ?_,
    dir_find_formatted i_sz d_sz now [46] 1 (by decide!),
    dir_find_formatted i_sz d_sz now [46, 46] 2 (by decide!)⟩
  unfold rufs_readdir
  have hg : get_node_by_path (mkfs_env i_sz d_sz 0) (formatted_disk now) [47]
      (to_u16 (mkfs_env i_sz d_sz 0).root_inode) =
      readi (mkfs_env i_sz d_sz 0) (formatted_disk now) 0 := rfl
  simp only [hg, readi_formatted]
  exact readdir_ptrs_first _ _ _ (extract root_dir_block 0 BLOCK_SIZE) 0 15 [] _
    (by rw [root_ptr_formatted]; exact le_refl _)
    (by rw [root_ptr_formatted]; exact bio_read_formatted_root now) (by decide!)

theorem rufs_mkfs_root_directory_witness :
    (0 < MAX_INUM ∧ 0 < MAX_DNUM) ∧
    rufs_readdir (rufs_mkfs MAX_INUM MAX_DNUM 1000).2.1 (rufs_mkfs MAX_INUM MAX_DNUM 1000).2.2
      [47] = (0, [[47], [46], [46, 46]]) ∧
    (dir_find (rufs_mkfs MAX_INUM MAX_DNUM 1000).2.1 (rufs_mkfs MAX_INUM MAX_DNUM 1000).2.2 0
      [46] 1).map dirent_ino = some 0 ∧
    (dir_find (rufs_mkfs MAX_INUM MAX_DNUM 1000).2.1 (rufs_mkfs MAX_INUM MAX_DNUM 1000).2.2 0
      [46, 46] 2).map dirent_ino = some 0 :=
  ⟨⟨by decide, by decide⟩,
    (rufs_mkfs_root_directory MAX_INUM MAX_DNUM 1000 (by decide) (by decide)).2⟩

/-! ## Creating below a directory with a higher inode number -/

/-- C18 fails on the code: after `rufs_mkfs` and `rufs_mkdir` of `/a`, ..., `/e` and
`/e/f` (inodes 1 to 6), the parent `/e/f` resolves to the empty directory 6 and has
no entry `g`, and `rufs_create("/e/f/g")` returns 0; but `rufs_getattr("/e/f/g")`
then returns `-ENOENT` and leaves `*stbuf` as it was: the `dir_add` on directory 6
has overwritten `direct_ptr[0]` of inode 5 (`/e`), 68 before and 3 after, so `/e`
lists nothing any more. -/
theorem rufs_create_then_getattr_enoent :
    (get_node_by_path fresh.1 fresh_e_f [47, 101, 47, 102] 0).map inode_ino = some 6 ∧
    (get_node_by_path fresh.1 fresh_e_f [47, 101, 47, 102] 0).map inode_size = some 0 ∧
    (dir_find fresh.1 fresh_e_f 6 [103] 1).isSome = false ∧
    fresh_e_f_g.1 = some 0 ∧
    (rufs_getattr fresh.1 fresh_e_f_g.2 0 0 [47, 101, 47, 102, 47, 103] stat_zero).1 =
      -(ENOENT : Int) ∧
    (rufs_getattr fresh.1 fresh_e_f_g.2 0 0 [47, 101, 47, 102, 47, 103] stat_zero).2.st_mode =
      0 ∧
    (readi fresh.1 fresh_e_f 5).map (fun v => inode_direct_ptr v 0) = some 68 ∧
    (readi fresh.1 fresh_e_f_g.2 5).map (fun v => inode_direct_ptr v 0) = some 3 := by
  decide!

/-- C19 fails on the code: after `rufs_mkfs` and `rufs_mkdir` of `/a`, ..., `/e`,
the call `rufs_mkdir("/e/f")` returns 0 and `/e/f` resolves to a directory with
`link = 2`, size 0 and no data block; `rufs_mkdir("/e/f/b")` then returns 0, but
afterwards `rufs_readdir("/e/f")` returns `EXIT_FAILURE` without a call of `filler`,
and neither `/e/f` nor `/e/f/b` resolves. -/
theorem rufs_mkdir_then_readdir_fails :
    (rufs_mkdir fresh.1 fresh_abcde 1006 0 0 [47, 101, 47, 102]).1 = some 0 ∧
    (get_node_by_path fresh.1 fresh_e_f [47, 101, 47, 102] 0).map
      (fun v => (inode_type v, inode_link v, inode_size v)) = some (S_IFDIR, 2, 0) ∧
    (get_node_by_path fresh.1 fresh_e_f [47, 101, 47, 102] 0).map
      (fun v => (List.range NUM_DIRECT_PTRS).map (inode_direct_ptr v)) =
      some (List.replicate NUM_DIRECT_PTRS 0) ∧
    fresh_e_f_b.1 = some 0 ∧
    rufs_readdir fresh.1 fresh_e_f_b.2 [47, 101, 47, 102] = (EXIT_FAILURE, []) ∧
    (get_node_by_path fresh.1 fresh_e_f_b.2 [47, 101, 47, 102] 0).isSome = false ∧
    (get_node_by_path fresh.1 fresh_e_f_b.2 [47, 101, 47, 102, 47, 98] 0).isSome = false := by
  decide!

/-- C20 fails on the code: after `rufs_mkfs`, `rufs_mkdir("/a")` returns 0 and sets
bit 1 of the inode bitmap (byte 0 goes from 1 to 3); `rufs_rmdir("/a")` returns 0
and leaves the disk as it is, so byte 0 of the inode bitmap block is still 3. -/
theorem rufs_rmdir_keeps_bitmap :
    (rufs_mkdir fresh.1 fresh.2 1001 0 0 [47, 97]).1 = some 0 ∧
    (fresh.2 fresh.1.i_bitmap_index).map (fun b => byte b 0) = some 1 ∧
    (fresh_a fresh.1.i_bitmap_index).map (fun b => byte b 0) = some 3 ∧
    fresh_a_rmdir.1 = 0 ∧
    (fresh_a_rmdir.2 fresh.1.i_bitmap_index).map (fun b => byte b 0) = some 3 := by
  decide!

/-! ## Handlers that are stubs or return positive values -/

/-- C21 fails on the code: after `rufs_mkfs`, `rufs_create("/f")` and a write of 5
bytes, `/f` is inode 1 with the data block 68; `rufs_unlink("/f")` returns 0 and
leaves the disk as it is, so `rufs_getattr("/f")` still returns 0, bit 1 of the
inode bitmap and bit 1 of the data bitmap (block 68) are still set, and `dir_find`
on the root still finds `"f"`. -/
theorem rufs_unlink_keeps_file :
    (rufs_getattr fresh.1 fresh_f_w1 0 0 [47, 102] stat_zero).1 = 0 ∧
    (readi fresh.1 fresh_f_w1 1).map (fun v => inode_direct_ptr v 0) = some 68 ∧
    fresh_f_unlink.1 = 0 ∧
    (rufs_getattr fresh.1 fresh_f_unlink.2 0 0 [47, 102] stat_zero).1 = 0 ∧
    (fresh_f_unlink.2 fresh.1.i_bitmap_index).map (fun b => get_bitmap b 1) = some 1 ∧
    (fresh_f_unlink.2 fresh.1.d_bitmap_index).map (fun b => get_bitmap b (68 - 67)) = some 1 ∧
    (dir_find fresh.1 fresh_f_unlink.2 0 [102] 1).map dirent_ino = some 1 := by
  decide!

/-- C22 fails on the code: in a root directory with 16 data blocks of 19 entries
each, the spec's listing has 304 names, while `rufs_readdir("/")` returns 0 after
passing `filler` the 19 names of the first block only: at the slot after the 19th
it reads `len == 0` and returns. -/
theorem rufs_readdir_stops_after_first_block :
    ((readi fresh.1 (full_disk 0) 0).map (readdir_spec (full_disk 0))).map List.length =
      some 304 ∧
    (rufs_readdir fresh.1 (full_disk 0) [47]).1 = 0 ∧
    (rufs_readdir fresh.1 (full_disk 0) [47]).2 =
      (List.range 19).map (fun s => [97, 97 + s]) ∧
    (readi fresh.1 (full_disk 0) 0).map (readdir_spec (full_disk 0)) ≠
      some (rufs_readdir fresh.1 (full_disk 0) [47]).2 := by
  decide!

/-- C24 fails on the code: on the freshly formatted disk, where `/x` does not
exist, `rufs_mkdir("/x/y")`, `rufs_create("/x/y")` and `rufs_readdir("/x")` return
`EXIT_FAILURE`, which is 1; and with no free inode `rufs_mkdir("/f")` returns 1 as
well. -/
theorem rufs_failure_returns_positive :
    (get_node_by_path fresh.1 fresh.2 [47, 120] 0).isSome = false ∧
    (rufs_mkdir fresh.1 fresh.2 1001 0 0 [47, 120, 47, 121]).1 = some 1 ∧
    (rufs_create fresh.1 fresh.2 1001 0 0 [47, 120, 47, 121]).1 = some 1 ∧
    rufs_readdir fresh.1 fresh.2 [47, 120] = (1, []) ∧
    (get_avail_ino fresh.1 fresh_no_ino).1 = -1 ∧
    fresh_no_ino_mkdir.1 = some 1 ∧
    (0 : Int) < EXIT_FAILURE := by
  decide!

/-- C25 fails on the code: `rufs_open` returns -1 for every path on every disk; on
the freshly formatted disk the path `"/"` resolves and `rufs_open("/")` returns
-1. -/
theorem rufs_open_always_fails :
    (∀ (c : Env) (d : Disk) (path : List Nat), rufs_open c d path = -1) ∧
    (get_node_by_path fresh.1 fresh.2 [47] 0).isSome = true ∧
    rufs_open fresh.1 fresh.2 [47] = -1 := by
  refine ⟨fun c d path => ?_, by decide!, by decide!⟩
  unfold rufs_open
  simp only
  split <;> rfl

/-! ## Attributes -/

theorem get_node_by_path_formatted_root (i_sz d_sz now : Nat) :
    get_node_by_path (mkfs_env i_sz d_sz 0) (formatted_disk now) [47]
      (to_u16 (mkfs_env i_sz d_sz 0).root_inode) =
      some (extract (extract (extract (memcpy zeros 0 (root_inode_stored now) SIZEOF_INODE)
        0 BLOCK_SIZE) 0 BLOCK_SIZE) (SIZEOF_INODE * (0 % 16)) SIZEOF_INODE) := by
  have hg : get_node_by_path (mkfs_env i_sz d_sz 0) (formatted_disk now) [47]
      (to_u16 (mkfs_env i_sz d_sz 0).root_inode) =
      readi (mkfs_env i_sz d_sz 0) (formatted_disk now) 0 := rfl
  rw [hg, readi_formatted]

/-- C23: for every disk, path and prior `*stbuf`, `rufs_getattr` returns `-ENOENT`
exactly when `get_node_by_path(path, root_inode)` fails, and then leaves `*stbuf` as
it was; when the path resolves to an inode it returns 0 with `st_nlink = link`,
`st_size = size` and `st_mode = type` of that inode.  After the first `rufs_mkfs`
(any time, positive bitmap sizes) `rufs_getattr("/")` returns 0 with the directory
bit in `st_mode` and `st_nlink = 2`. -/
theorem rufs_getattr_projects (c : Env) (d : Disk) (uid gid : Nat) (path : List Nat)
    (stbuf : Stat) (i_sz d_sz now : Nat) (hi : 0 < i_sz) (hd : 0 < d_sz) :
    ((rufs_getattr c d uid gid path stbuf).1 = -ENOENT ↔
        get_node_by_path c d path (to_u16 c.root_inode) = none) ∧
    (get_node_by_path c d path (to_u16 c.root_inode) = none →
        (rufs_getattr c d uid gid path stbuf).2 = stbuf) ∧
    (∀ v, get_node_by_path c d path (to_u16 c.root_inode) = some v →
        (rufs_getattr c d uid gid path stbuf).1 = 0 ∧
        (rufs_getattr c d uid gid path stbuf).2.st_nlink = inode_link v ∧
        (rufs_getattr c d uid gid path stbuf).2.st_size = inode_size v ∧
        (rufs_getattr c d uid gid path stbuf).2.st_mode = inode_type v) ∧
    ((rufs_getattr (rufs_mkfs i_sz d_sz now).2.1 (rufs_mkfs i_sz d_sz now).2.2 uid gid [47]
        stbuf).1 = 0 ∧
      (rufs_getattr (rufs_mkfs i_sz d_sz now).2.1 (rufs_mkfs i_sz d_sz now).2.2 uid gid [47]
        stbuf).2.st_mode &&& S_IFDIR = S_IFDIR ∧
      (rufs_getattr (rufs_mkfs i_sz d_sz now).2.1 (rufs_mkfs i_sz d_sz now).2.2 uid gid [47]
        stbuf).2.st_nlink = 2 ∧
      2 ≤ (rufs_getattr (rufs_mkfs i_sz d_sz now).2.1 (rufs_mkfs i_sz d_sz now).2.2 uid gid [47]
        stbuf).2.st_nlink) := by
  refine ⟨?_, ?_, ?_, ?_⟩
  · unfold rufs_getattr
    cases get_node_by_path c d path (to_u16 c.root_inode) with
    | none => simp
    | some v => simp [ENOENT]
  · intro h
    unfold rufs_getattr
    rw [h]
  · intro v h
    unfold rufs_getattr
    rw [h]
    exact ⟨rfl, rfl, rfl, rfl⟩
  · rw [rufs_mkfs_eq i_sz d_sz now hi hd]
    unfold rufs_getattr
    rw [get_node_by_path_formatted_root]
    have ht : inode_type (extract (extract (extract (memcpy zeros 0 (root_inode_stored now)
        SIZEOF_INODE) 0 BLOCK_SIZE) 0 BLOCK_SIZE) (SIZEOF_INODE * (0 % 16)) SIZEOF_INODE) =
        inode_type (root_inode_stored 0) := by
      unfold inode_type
      exact get_u32_congr (root_inode_stored 0) _ 8
        (fun k _ h2 => byte_root_read now k (by omega))
    have hl : inode_link (extract (extract (extract (memcpy zeros 0 (root_inode_stored now)
        SIZEOF_INODE) 0 BLOCK_SIZE) 0 BLOCK_SIZE) (SIZEOF_INODE * (0 % 16)) SIZEOF_INODE) =
        inode_link (root_inode_stored 0) := by
      unfold inode_link
      exact get_u32_congr (root_inode_stored 0) _ 12
        (fun k _ h2 => byte_root_read now k (by omega))
    refine ⟨rfl, ?_, ?_, ?_⟩
    · show inode_type _ &&& S_IFDIR = S_IFDIR
      rw [ht]
      decide!
    · show inode_link _ = 2
      rw [hl]
      decide!
    · show 2 ≤ inode_link _
      rw [hl]
      decide!

/-- C23 at work: on the disk left by `rufs_mkfs` at time 1000, `rufs_getattr("/")`
returns 0 with the directory bit in `st_mode` and `st_nlink = 2`, and
`rufs_getattr("/x")`, where `"/x"` does not resolve, returns `-ENOENT`. -/
theorem rufs_getattr_projects_witness :
    (0 < MAX_INUM ∧ 0 < MAX_DNUM) ∧
    ((rufs_getattr fresh.1 fresh.2 0 0 [47, 120] stat_zero).1 = -ENOENT ↔
        get_node_by_path fresh.1 fresh.2 [47, 120] (to_u16 fresh.1.root_inode) = none) ∧
    ((rufs_getattr (rufs_mkfs MAX_INUM MAX_DNUM 1000).2.1 (rufs_mkfs MAX_INUM MAX_DNUM 1000).2.2
        0 0 [47] stat_zero).1 = 0 ∧
      (rufs_getattr (rufs_mkfs MAX_INUM MAX_DNUM 1000).2.1 (rufs_mkfs MAX_INUM MAX_DNUM 1000).2.2
        0 0 [47] stat_zero).2.st_mode &&& S_IFDIR = S_IFDIR ∧
      (rufs_getattr (rufs_mkfs MAX_INUM MAX_DNUM 1000).2.1 (rufs_mkfs MAX_INUM MAX_DNUM 1000).2.2
        0 0 [47] stat_zero).2.st_nlink = 2 ∧
      2 ≤ (rufs_getattr (rufs_mkfs MAX_INUM MAX_DNUM 1000).2.1
        (rufs_mkfs MAX_INUM MAX_DNUM 1000).2.2 0 0 [47] stat_zero).2.st_nlink) :=
  ⟨⟨by decide, by decide⟩,
    (rufs_getattr_projects fresh.1 fresh.2 0 0 [47, 120] stat_zero MAX_INUM MAX_DNUM 1000
      (by decide) (by decide)).1,
    (rufs_getattr_projects fresh.1 fresh.2 0 0 [47, 120] stat_zero MAX_INUM MAX_DNUM 1000
      (by decide) (by decide)).2.2.2⟩

/-! ## Names, exhaustion and the invariants of section 8 -/

/-- C26 fails on the code: on the freshly formatted disk `rufs_create` of a leaf
name of 207 bytes returns 0 and the entry stored in slot 0 of block 67 carries the
name; `rufs_create` of a leaf name of 208 bytes returns 0 as well and writes its
entry to the same slot with inode number 1, the last name byte at offset 211 and the
terminator of the `strcpy` on the low byte of `len` at offset 212, so that the
stored `len` is 0 and `dir_find` of the name misses. -/
theorem rufs_create_long_name_succeeds :
    fresh_207.1 = some 0 ∧
    (fresh_207.2 67).map (fun b => c_string (slot_at b 0) OFF_NAME NAME_MAX_LEN) =
      some name_207 ∧
    (dir_find fresh.1 fresh_207.2 0 name_207 207).map dirent_ino = some 1 ∧
    name_208.length = NAME_MAX_LEN ∧
    fresh_long.1 = some 0 ∧
    (fresh_long.2 67).map (fun b => (dirent_ino (slot_at b 0), byte b 211, byte b 212,
      dirent_len (slot_at b 0))) = some (1, 97, 0, 0) ∧
    (fresh.2 67).map (fun b => (dirent_ino (slot_at b 0), byte b 211, byte b 212,
      dirent_len (slot_at b 0))) = some (0, 0, 1, 1) ∧
    (fresh_long.2 fresh.1.i_bitmap_index).map (fun b => get_bitmap b 1) = some 1 ∧
    (dir_find fresh.1 fresh_long.2 0 name_208 208).isSome = false := by
  decide!

/-- C27 fails on the code: on a formatted disk whose inode bitmap has no free bit
in the range of the scan, `get_avail_ino` returns -1 and `rufs_mkdir("/f")` returns
`EXIT_FAILURE`, but `rufs_create("/f")` returns 0: the root directory gets an entry
`"f"` with inode number 65535, and an inode image with that number is written at
offset `15 * 256` of block `3 + 65535 / 16 = 4098`, a block of the data region. -/
theorem rufs_create_without_inode :
    (get_avail_ino fresh.1 fresh_no_ino).1 = -1 ∧
    fresh_no_ino_mkdir.1 = some EXIT_FAILURE ∧
    fresh_no_ino_f.1 = some 0 ∧
    (dir_find fresh.1 fresh_no_ino 0 [102] 1).isSome = false ∧
    (dir_find fresh.1 fresh_no_ino_f.2 0 [102] 1).map dirent_ino = some 65535 ∧
    (fresh_no_ino 4098).map (fun b => inode_ino (extract b (15 * SIZEOF_INODE) SIZEOF_INODE)) =
      some 0 ∧
    (fresh_no_ino_f.2 4098).map
      (fun b => inode_ino (extract b (15 * SIZEOF_INODE) SIZEOF_INODE)) = some 65535 ∧
    fresh.1.data_block_start ≤ 4098 := by
  decide!

/-- C28 fails on the code: after `rufs_mkfs`, `rufs_mkdir` of `/a`, ..., `/e` and
`/e/f`, and `rufs_create("/e/f/g")`, every call having returned 0, inode 5 (`/e`) is
valid and its `direct_ptr[0]` is 3, neither 0 nor at least `data_block_start = 67`;
before the last call it was 68. -/
theorem direct_ptr_below_data_region :
    (rufs_mkdir fresh.1 fresh_abcde 1006 0 0 [47, 101, 47, 102]).1 = some 0 ∧
    fresh_e_f_g.1 = some 0 ∧
    (readi fresh.1 fresh_e_f 5).map (fun v => (inode_valid v, inode_direct_ptr v 0)) =
      some (1, 68) ∧
    (readi fresh.1 fresh_e_f_g.2 5).map (fun v => (inode_valid v, inode_direct_ptr v 0)) =
      some (1, 3) ∧
    fresh.1.data_block_start = 67 := by
  decide!

/-- C29 fails on the code: after `rufs_mkfs`, `rufs_mkdir` of `/a`, ..., `/e` and
`/e/f`, and `rufs_create("/e/f/g")`, the valid inodes 5 (`/e`) and 6 (`/e/f`) both
point to data block 69: `direct_ptr[1]` of inode 5 and `direct_ptr[0]` of inode 6. -/
theorem data_block_shared :
    fresh_e_f_g.1 = some 0 ∧
    (readi fresh.1 fresh_e_f_g.2 5).map (fun v => (inode_ino v, inode_valid v,
      inode_direct_ptr v 1)) = some (5, 1, 69) ∧
    (readi fresh.1 fresh_e_f_g.2 6).map (fun v => (inode_ino v, inode_valid v,
      inode_direct_ptr v 0)) = some (6, 1, 69) := by
  decide!

/-- C30 fails on the code: right after `rufs_mkfs` the root inode is a directory of
`size = 214 = sizeof(dirent_t)`, while no slot of its data block has `ino != 0` (the
entries `"/"`, `"."` and `".."` all carry inode number 0); after `rufs_mkdir("/a")`
the size is 428 and one slot has `ino != 0`. -/
theorem root_size_counts_one_more :
    (readi fresh.1 fresh.2 0).map (fun v => (inode_type v &&& S_IFDIR, inode_size v,
      dir_slots_in_use fresh.2 v)) = some (S_IFDIR, 214, 0) ∧
    (rufs_mkdir fresh.1 fresh.2 1001 0 0 [47, 97]).1 = some 0 ∧
    (readi fresh.1 fresh_a 0).map (fun v => (inode_type v &&& S_IFDIR, inode_size v,
      dir_slots_in_use fresh_a v)) = some (S_IFDIR, 428, 1) ∧
    214 ≠ SIZEOF_DIRENT * 0 ∧ 428 ≠ SIZEOF_DIRENT * 1 := by
  decide!

/-! ## Bit operations -/

/-- C32: on the all-zero bitmap `get_bitmap` is 0 at every index; after
`set_bitmap(b, i)` the bit `i` reads 1 and every other bit `j` reads as before;
object `8 * q + k` with `k < 8` is bit `k` of byte `q`, least significant bit first;
setting bits 0, 1, 2 of the all-zero bitmap in turn makes byte 0 equal to 1, 3, 7,
and `main` of `test.c` prints these three values and exits with 0. -/
theorem bitmap_bit_operations (b : Mem) (i j q k : Nat) (hij : j ≠ i) (hk : k < 8) :
    get_bitmap zeros i = 0 ∧
    get_bitmap (set_bitmap b i) i = 1 ∧
    get_bitmap (set_bitmap b i) i ≠ 0 ∧
    get_bitmap (set_bitmap b i) j = get_bitmap b j ∧
    get_bitmap b (8 * q + k) = (if (byte b q).testBit k then 1 else 0) ∧
    byte (set_bitmap zeros 0) 0 = 1 ∧
    byte (set_bitmap (set_bitmap zeros 0) 1) 0 = 3 ∧
    byte (set_bitmap (set_bitmap (set_bitmap zeros 0) 1) 2) 0 = 7 ∧
    test_main = (0, [1024, 1, 3, 7]) := by
  refine ⟨get_bitmap_zeros i, get_bitmap_set_same b i, ?_, get_bitmap_set_other b i j hij, ?_,
    by decide, by decide, by decide, by decide⟩
  · rw [get_bitmap_set_same]
    decide
  · unfold get_bitmap
    rw [show (8 * q + k) / 8 = q by omega, show (8 * q + k) % 8 = k by omega]

/-- C32 at work: in the bitmap with bits 0 and 1 set (byte 0 is 3), setting bit 10
makes bit 10 read 1 and leaves bit 1 at 1 and bit 2 at 0; bit 10 is bit 2 of
byte 1. -/
theorem bitmap_bit_operations_witness :
    ((1 : Nat) ≠ 10 ∧ 2 < 8) ∧
    get_bitmap (set_bitmap (set_bitmap (set_bitmap zeros 0) 1) 10) 10 = 1 ∧
    get_bitmap (set_bitmap (set_bitmap (set_bitmap zeros 0) 1) 10) 1 =
      get_bitmap (set_bitmap (set_bitmap zeros 0) 1) 1 ∧
    get_bitmap (set_bitmap (set_bitmap zeros 0) 1) (8 * 1 + 2) =
      (if (byte (set_bitmap (set_bitmap zeros 0) 1) 1).testBit 2 then 1 else 0) :=
  ⟨⟨by decide, by decide⟩,
    (bitmap_bit_operations (set_bitmap (set_bitmap zeros 0) 1) 10 1 1 2 (by decide)
      (by decide)).2.1,
    (bitmap_bit_operations (set_bitmap (set_bitmap zeros 0) 1) 10 1 1 2 (by decide)
      (by decide)).2.2.2.1,
    (bitmap_bit_operations (set_bitmap (set_bitmap zeros 0) 1) 10 1 1 2 (by decide)
      (by decide)).2.2.2.2.1⟩

/-! ## Effects of `dir_add` -/

/-- C31 fails on the code: on the freshly formatted disk the root inode has
`link = 2` and size 214; `rufs_create("/f")` returns 0 and stores a regular file as
inode 1, and afterwards the root inode has size `214 + 214` but `link = 3` and
`vstat.st_nlink = 3`, although it has no child directory. -/
theorem dir_add_counts_files_as_links :
    (readi fresh.1 fresh.2 0).map (fun v => (inode_link v, inode_st_nlink v, inode_size v)) =
      some (2, 2, 214) ∧
    (rufs_create fresh.1 fresh.2 1001 0 0 [47, 102]).1 = some 0 ∧
    (readi fresh.1 fresh_f 1).map inode_type = some S_IFREG ∧
    (readi fresh.1 fresh_f 0).map (fun v => (inode_link v, inode_st_nlink v, inode_size v)) =
      some (3, 3, 214 + SIZEOF_DIRENT) := by
  decide!

/-- C33 fails on the code: on the freshly formatted disk `dir_find` on the root
finds `"/"`, `"."` and `".."`, each with ino 0.  `dir_add(root, 1, "a")` returns 0
and afterwards `"/"` is not found; after `rufs_mkdir("/a")` and `rufs_mkdir("/b")`
(both return 0) `"."` is not found, and after `rufs_mkdir("/c")` (returns 0) `".."`
is not found either. -/
theorem dir_add_overwrites_root_entries :
    (dir_find fresh.1 fresh.2 0 [47] 1).map dirent_ino = some 0 ∧
    fresh_add_a.1 = some 0 ∧
    (dir_find fresh.1 fresh_add_a.2 0 [47] 1).isSome = false ∧
    (rufs_mkdir fresh.1 fresh.2 1001 0 0 [47, 97]).1 = some 0 ∧
    (dir_find fresh.1 fresh_a 0 [46] 1).map dirent_ino = some 0 ∧
    (rufs_mkdir fresh.1 fresh_a 1002 0 0 [47, 98]).1 = some 0 ∧
    (dir_find fresh.1 fresh_ab 0 [46] 1).isSome = false ∧
    (dir_find fresh.1 fresh_ab 0 [46, 46] 2).map dirent_ino = some 0 ∧
    (rufs_mkdir fresh.1 fresh_ab 1003 0 0 [47, 99]).1 = some 0 ∧
    (dir_find fresh.1 fresh_abc 0 [46, 46] 2).isSome = false := by
  decide!

/-- C34 fails on the code: `dir_add` on directory 6 (`/e/f`, after `rufs_mkdir` of
`/a`, ..., `/e` and `/e/f`) returns 0 and changes inode 5, whose `direct_ptr[0]` is
68 before and 3 after; `dir_add` on directory 1 (`/a`, after `rufs_mkdir("/a")`)
returns 0 and changes inode 0, whose `vstat.st_ctime` is 0 before and not after, as
`rufs_getattr("/")` reports it. -/
theorem dir_add_changes_lower_inode :
    fresh.1.inodes_in_block = 16 ∧
    fresh_e_f_add_g.1 = some 0 ∧
    (readi fresh.1 fresh_e_f 5).map (fun v => inode_direct_ptr v 0) = some 68 ∧
    (readi fresh.1 fresh_e_f_add_g.2 5).map (fun v => inode_direct_ptr v 0) = some 3 ∧
    fresh_a_add_b.1 = some 0 ∧
    (readi fresh.1 fresh_a 0).map inode_st_ctime = some 0 ∧
    (readi fresh.1 fresh_a_add_b.2 0).map inode_st_ctime = some 4611686018441412609 ∧
    (rufs_getattr fresh.1 fresh_a 0 0 [47] stat_zero).2.st_ctime = 0 ∧
    (rufs_getattr fresh.1 fresh_a_add_b.2 0 0 [47] stat_zero).2.st_ctime =
      4611686018441412609 := by
  decide!

/-! ## Offsets beyond the direct pointers -/

theorem loop_first_no_block (α : Type) (q : Int) (f : Nat → Option α)
    (h : q < 0 ∨ 16 ≤ q) :
    loop_first (fun i => if (i : Int) = q then f i else none) 0 NUM_DIRECT_PTRS = none := by
  rw [loop_first_none_iff]
  intro k hk
  have hk16 : k < 16 := hk
  have hne : ¬ (((0 + k : Nat) : Int) = q) := by omega
  simp only [if_neg hne]

theorem rufs_read_write_beyond_direct (c : Env) (d : Disk) (now : Nat) (path : List Nat)
    (buffer : Mem) (size offset : Nat)
    (h : to_int (offset / BLOCK_SIZE) < 0 ∨ 16 ≤ to_int (offset / BLOCK_SIZE)) :
    rufs_write c d now path buffer size offset = (-1, d) ∧
      rufs_read c d path buffer size offset = (-1, buffer) := by
  constructor
  · unfold rufs_write
    cases get_node_by_path c d path (to_u16 c.root_inode) with
    | none => rfl
    | some t =>
      simp only
      rw [loop_first_no_block _ _ _ h]
  · unfold rufs_read
    cases get_node_by_path c d path (to_u16 c.root_inode) with
    | none => rfl
    | some t =>
      simp only
      rw [loop_first_no_block _ _ _ h]

theorem rufs_read_write_beyond_direct_small (c : Env) (d : Disk) (now : Nat) (path : List Nat)
    (buffer : Mem) (size offset : Nat)
    (h1 : 16 ≤ offset / BLOCK_SIZE) (h2 : offset / BLOCK_SIZE < 2147483648) :
    rufs_write c d now path buffer size offset = (-1, d) ∧
      rufs_read c d path buffer size offset = (-1, buffer) := by
  apply rufs_read_write_beyond_direct
  rw [to_int_of_lt _ h2]
  omega

/-- C35 fails on the code: with `/f` an empty file (inode 1) and the offset
`2 ^ 44`, for which `offset / BLOCK_SIZE = 2 ^ 32 >= 16`, `rufs_write` of 5 bytes
returns 5, allocates data block 68 (bit 1 of the data bitmap, `direct_ptr[0]` of
inode 1) and stores the bytes at its start; `rufs_read` at that offset, after a
write at offset 0, returns 5 and copies the bytes out.  At offset `16 * 4096` both
return -1. -/
theorem rufs_write_far_offset_wraps :
    (get_node_by_path fresh.1 fresh_f [47, 102] 0).map inode_ino = some 1 ∧
    16 ≤ offset_2_44 / BLOCK_SIZE ∧
    fresh_f_far.1 = 5 ∧
    (fresh_f fresh.1.d_bitmap_index).map (fun b => get_bitmap b 1) = some 0 ∧
    (fresh_f_far.2 fresh.1.d_bitmap_index).map (fun b => get_bitmap b 1) = some 1 ∧
    (readi fresh.1 fresh_f 1).map (fun v => inode_direct_ptr v 0) = some 0 ∧
    (readi fresh.1 fresh_f_far.2 1).map (fun v => inode_direct_ptr v 0) = some 68 ∧
    (fresh_f 68).map (fun b => (List.range 5).map (byte b)) = some [0, 0, 0, 0, 0] ∧
    (fresh_f_far.2 68).map (fun b => (List.range 5).map (byte b)) =
      some [104, 101, 108, 108, 111] ∧
    (rufs_read fresh.1 fresh_f_w1 [47, 102] zeros 5 offset_2_44).1 = 5 ∧
    (List.range 5).map (rufs_read fresh.1 fresh_f_w1 [47, 102] zeros 5 offset_2_44).2 =
      [104, 101, 108, 108, 111] ∧
    (rufs_write fresh.1 fresh_f 1002 [47, 102] hello 5 (16 * BLOCK_SIZE)).1 = -1 ∧
    (rufs_read fresh.1 fresh_f_w1 [47, 102] zeros 5 (16 * BLOCK_SIZE)).1 = -1 := by
  decide!

/-! ## Write, then read, after the inode table was damaged -/

/-- C1 fails on the code: after `rufs_mkfs`, `rufs_create` of `/a`, ..., `/i`,
`rufs_create("/x")` (inode 10), `rufs_mkdir("/y")` (inode 11) and
`rufs_create("/y/z")`, every call having returned 0, the path `/x` resolves to a
regular file whose inode carries the number 0 instead of 10 (it carried 10 before
the last call).  `rufs_write("/x", "hello", 5, 0)` returns 5, and the following
`rufs_read("/x", buf, 5, 0)` returns -1 and leaves the buffer as it was: the write
has stored the file's inode over inode 0, and `/x` no longer resolves. -/
theorem rufs_write_read_lost_after_clobber :
    (fresh_nine.1 = List.replicate 9 (some 0) ∧ fresh_x.1 = some 0 ∧ fresh_x_y.1 = some 0 ∧
      fresh_x_y_z.1 = some 0) ∧
    (get_node_by_path fresh.1 fresh_x_y.2 [47, 120] 0).map
      (fun v => (inode_ino v, inode_type v)) = some (10, S_IFREG) ∧
    (get_node_by_path fresh.1 fresh_x_y_z.2 [47, 120] 0).map
      (fun v => (inode_ino v, inode_type v)) = some (0, S_IFREG) ∧
    fresh_x_write.1 = 5 ∧
    (get_node_by_path fresh.1 fresh_x_write.2 [47, 120] 0).isSome = false ∧
    (fresh_x_read.1, (List.range 5).map fresh_x_read.2) = (-1, [0, 0, 0, 0, 0]) := by
  decide!

/-! ## The slots that `dir_find` compares -/

end Rufs
